import Mathlib

/-!
# Firestream: a shallow embedding of the streaming gateway

The Go program bridges a telematics WebSocket feed to a document store.
This development embeds, function by function, the parts of the program
that its specification talks about, and proves or refutes the
specification's statements about them.

Conventions of the embedding

* A Go `string` is a sequence of bytes (`GoString`).
* `strings.ToUpper` and `strings.ToLower` are embedded on ASCII strings
  only (`isASCII`); every statement about them assumes an ASCII argument.
* A Go `map[string]string` is an association list with pairwise distinct
  keys; the order of the list is the order in which one `range` over the
  map visits the entries (Go leaves that order unspecified).
* A finite `float64` is a signed dyadic rational (`Float64`).
* A parsed JSON document (`*gabs.Container`) is a value of `Json`.
* Channels are the sequence of values sent on them; global state is passed
  explicitly.
-/

namespace Firestream

/-! ## Strings -/

/-- One byte of a Go string. -/
abbrev Byte := Fin 256

/-- A Go `string`: a sequence of bytes. -/
abbrev GoString := List Byte

/-- UTF-8 encoding of one character of a string literal. -/
def utf8Bytes (c : Char) : GoString :=
  let n := c.toNat
  if n < 0x80 then [Fin.ofNat n]
  else if n < 0x800 then [Fin.ofNat (0xC0 + n / 64), Fin.ofNat (0x80 + n % 64)]
  else if n < 0x10000 then
    [Fin.ofNat (0xE0 + n / 4096), Fin.ofNat (0x80 + n / 64 % 64), Fin.ofNat (0x80 + n % 64)]
  else
    [Fin.ofNat (0xF0 + n / 262144), Fin.ofNat (0x80 + n / 4096 % 64),
      Fin.ofNat (0x80 + n / 64 % 64), Fin.ofNat (0x80 + n % 64)]

/-- A Go string literal: the UTF-8 bytes of its text. -/
def str (s : String) : GoString := s.toList.flatMap utf8Bytes

/-- Go's `a < b` on strings: bytewise lexicographic comparison. -/
def strLess : GoString → GoString → Bool
  | _, [] => false
  | [], _ :: _ => true
  | a :: as, b :: bs => if a < b then true else if b < a then false else strLess as bs

/-- The order `sort.Strings` sorts into: `a` may stand before `b` when `b < a` is false. -/
def StrLe (a b : GoString) : Prop := strLess b a = false

instance : DecidableRel StrLe := fun a b => inferInstanceAs (Decidable (strLess b a = false))

/-- Go's `sort.Strings`: the keys in ascending byte order. -/
def sortStrings (keys : List GoString) : List GoString := List.insertionSort StrLe keys

/-- Go's `strings.Join`. -/
def stringsJoin (elems : List GoString) (sep : GoString) : GoString := sep.intercalate elems

/-- The byte of an ASCII character. -/
def charByte (c : Char) : Byte := Fin.ofNat c.toNat

/-- Whether a string is made of ASCII bytes only (`c < utf8.RuneSelf` for every byte). On such
a string `strings.ToUpper` and `strings.ToLower` take their byte-wise path; on any other string
they decode UTF-8 and map every letter through the Unicode tables, which the embedding does not
hold: `toUpper` and `toLower` below are the two functions on ASCII strings only, and every
property stated with them assumes `isASCII` of their argument. -/
def isASCII (s : GoString) : Prop := ∀ b ∈ s, b.val < 0x80

instance (s : GoString) : Decidable (isASCII s) :=
  inferInstanceAs (Decidable (∀ b ∈ s, b.val < 0x80))

/-- The byte-wise path of `strings.ToUpper` on one byte: `c -= 'a' - 'A'` for `'a' <= c <= 'z'`. -/
def upperByte (b : Byte) : Byte :=
  if 0x61 ≤ b.val ∧ b.val ≤ 0x7A then Fin.ofNat (b.val - 0x20) else b

/-- The byte-wise path of `strings.ToLower` on one byte: `c += 'a' - 'A'` for
`'A' <= c <= 'Z'`. -/
def lowerByte (b : Byte) : Byte :=
  if 0x41 ≤ b.val ∧ b.val ≤ 0x5A then Fin.ofNat (b.val + 0x20) else b

/-- Go's `strings.ToUpper` on a string for which `isASCII` holds (its byte-wise path). For a
string with a byte from 0x80 on the value below is not what Go returns. -/
def toUpper (s : GoString) : GoString := s.map upperByte

/-- Go's `strings.ToLower` on a string for which `isASCII` holds (its byte-wise path). For a
string with a byte from 0x80 on the value below is not what Go returns. -/
def toLower (s : GoString) : GoString := s.map lowerByte

/-- Scanning loop of `strings.Split` for a one-byte separator: `cur` is the piece being read,
kept in reverse. -/
def splitAux (sep : Byte) : GoString → GoString → List GoString
  | [], cur => [cur.reverse]
  | b :: rest, cur =>
    if b = sep then cur.reverse :: splitAux sep rest [] else splitAux sep rest (b :: cur)

/-- Go's `strings.Split(s, sep)` for a separator of one byte. -/
def stringsSplit (s : GoString) (sep : Byte) : List GoString := splitAux sep s []

/-! ## Maps -/

/-- A Go `map[string]string`; the list order is the visiting order of a `range`. -/
abbrev GoMap := List (GoString × GoString)

/-- The comma-ok lookup `v, ok := m[k]`. -/
def GoMap.get (m : GoMap) (k : GoString) : Option GoString := List.lookup k m

/-- The plain index expression `m[k]`: the zero value `""` for a missing key. -/
def GoMap.index (m : GoMap) (k : GoString) : GoString := (m.get k).getD []

/-- The assignment `m[k] = v`: replaces the value of an existing key, adds a new key otherwise. -/
def GoMap.set : GoMap → GoString → GoString → GoMap
  | [], k, v => [(k, v)]
  | (k1, v1) :: m, k, v => if k1 = k then (k, v) :: m else (k1, v1) :: GoMap.set m k v

/-- The keys in the visiting order of a `range`. -/
def GoMap.keys (m : GoMap) : List GoString := m.map Prod.fst

/-- Well-formedness of a map value: no key occurs twice. -/
def GoMap.WF (m : GoMap) : Prop := (m.map Prod.fst).Nodup

instance (m : GoMap) : Decidable m.WF := inferInstanceAs (Decidable (m.map Prod.fst).Nodup)

/-! ## Floating-point numbers -/

/-- A finite `float64`: the number `(-1)^neg * mant / 2^exp`. Every finite double, negative
zero included, has this form. -/
structure Float64 where
  neg : Bool
  mant : Nat
  exp : Nat
deriving DecidableEq, Repr

/-- The double of a natural number. -/
def Float64.ofNat (n : Nat) : Float64 := ⟨false, n, 0⟩

/-- The float `f` has the non-negative integer value `n`. -/
def Float64.IsNat (f : Float64) (n : Nat) : Prop := f.neg = false ∧ f.mant = n * 2 ^ f.exp

/-- Nearest integer of `m / 2^e`, ties to even: the rounding of `strconv.FormatFloat` at
precision 0. -/
def roundHalfEven (m e : Nat) : Nat :=
  let q := m / 2 ^ e
  let r := m % 2 ^ e
  if 2 * r < 2 ^ e then q else if 2 ^ e < 2 * r then q + 1 else q + q % 2

/-- Decimal digits of a natural number (`strconv.Itoa`). -/
def decimal (n : Nat) : GoString := (Nat.toDigits 10 n).map charByte

/-- The verbs `%.0f` and `%0.f` of `fmt.Sprintf`: sign, then the rounded magnitude in decimal,
no fractional part. -/
def fmtFloat0 (f : Float64) : GoString :=
  (if f.neg then str "-" else []) ++ decimal (roundHalfEven f.mant f.exp)

/-! ## Parsed JSON (`*gabs.Container`) -/

/-- A decoded JSON document, as `encoding/json` decodes into `interface{}`: numbers are
`float64`, objects are maps. A nil container and a container of JSON `null` answer every
accessor used by the program alike, and both are `Json.null`. -/
inductive Json where
  | null
  | bool (b : Bool)
  | num (x : Float64)
  | str (s : GoString)
  | arr (xs : List Json)
  | obj (kvs : List (GoString × Json))

/-- The member `k` of a JSON object. -/
def Json.member (j : Json) (k : GoString) : Option Json :=
  match j with
  | .obj kvs => List.lookup k kvs
  | _ => none

/-- The method `Search(hierarchy...)` of gabs: walks down the objects, one key per segment; a
missing key or a value that is not an object ends the search with a nil container. (An array is
entered by gabs only through a numeric or wildcard segment, or mapped over into an array; the
program has no such segment and asserts a scalar type on the result, so the search fails there
too.) -/
def Json.Search : Json → List GoString → Json
  | j, [] => j
  | j, seg :: rest =>
    match j.member seg with
    | some v => Json.Search v rest
    | none => .null

/-- The method `Path(path)` of gabs: `Search` along the dot-separated segments of `path`. -/
def Json.Path (j : Json) (path : GoString) : Json := j.Search (stringsSplit path (charByte '.'))

/-- The type assertion `.Data().(string)`. -/
def Json.asString : Json → Option GoString
  | .str s => some s
  | _ => none

/-- The type assertion `.Data().(float64)`. -/
def Json.asFloat64 : Json → Option Float64
  | .num x => some x
  | _ => none

/-- The type assertion `.Data().(bool)`. -/
def Json.asBool : Json → Option Bool
  | .bool b => some b
  | _ => none

/-- The method `Children()` of gabs: the elements of an array, the values of an object, nothing
otherwise. -/
def Json.Children : Json → List Json
  | .arr xs => xs
  | .obj kvs => kvs.map Prod.snd
  | _ => []

/-- The method `ChildrenMap()` of gabs: the members of an object, nothing otherwise. -/
def Json.ChildrenMap : Json → List (GoString × Json)
  | .obj kvs => kvs
  | _ => []

/-! ## Formatting -/

/-- The verbs `%s` and `%v` of `fmt.Sprintf` applied to string arguments: each verb is replaced
by the next argument, every other byte of the format is copied. -/
def sprintf : GoString → List GoString → GoString
  | [], _ => []
  | [b], _ => [b]
  | b :: c :: rest, args =>
    if b = charByte '%' ∧ (c = charByte 's' ∨ c = charByte 'v') then
      match args with
      | a :: more => a ++ sprintf rest more
      | [] => str "%!" ++ [c] ++ str "(MISSING)" ++ sprintf rest []
    else b :: sprintf (c :: rest) args

/-- The digit table of `fmt` for the verb `%X`. -/
def udigits : GoString := str "0123456789ABCDEF"

/-- The verb `%02X` of `fmt.Sprintf` applied to a byte: two uppercase hexadecimal digits. -/
def fmtHex02 (b : Byte) : GoString :=
  [udigits.getD (b.val / 16) (charByte '0'), udigits.getD (b.val % 16) (charByte '0')]

/-! ## websocket.go -/

/-- The options of a dial request. -/
structure NewWebsocketRequest where
  passiveKeepAlive : Bool
  resumeCheckpoint : Bool
  checkpointToResume : Float64

/-- The first part of `params`: the map of the optional parameters. -/
def NewWebsocketRequest.paramKeyMap (nr : NewWebsocketRequest) : GoMap :=
  let paramKeyMap : GoMap := []
  let paramKeyMap :=
    if nr.passiveKeepAlive then paramKeyMap.set (str "keepAlive") (str "passive") else paramKeyMap
  let paramKeyMap :=
    if nr.resumeCheckpoint then
      paramKeyMap.set (str "checkpoint") (fmtFloat0 nr.checkpointToResume)
    else paramKeyMap
  paramKeyMap

/-- The loop of `params` that writes `key=value` for every sorted key, with `&` between two
pairs; `i` counts the keys written and `b` is the string builder. -/
def writeParams (paramKeyMap : GoMap) (len : Nat) : List GoString → Nat → GoString → GoString
  | [], _, b => b
  | param :: rest, i, b =>
    let i := i + 1
    let b := b ++ (param ++ str "=" ++ paramKeyMap.index param)
    let b := if i < len then b ++ str "&" else b
    writeParams paramKeyMap len rest i b

/-- The second part of `params`, from the loop that collects the keys on; `paramKeyMap` lists the
entries in the order in which that loop visits them. The result is the query string, the map
and the error (`none` for nil). -/
def paramsOfMap (paramKeyMap : GoMap) : GoString × GoMap × Option GoString :=
  let keys := sortStrings paramKeyMap.keys
  let len := paramKeyMap.length
  if len = 0 then ([], paramKeyMap, none)
  else if 1 ≤ len then (writeParams paramKeyMap len keys 0 (str "?"), paramKeyMap, none)
  else ([], paramKeyMap, some (str "Unable to process websocket parameters!"))

/-- The method `params` of a dial request. -/
def NewWebsocketRequest.params (nr : NewWebsocketRequest) : GoString × GoMap × Option GoString :=
  paramsOfMap nr.paramKeyMap

/-- The envelope that enters the router (report_data_streamer.go). -/
structure ReportDataStreamV1 where
  reportType : GoString
  reportDataType : GoString
  json : Json

/-- The function `processStreamingJSON`; `firestoreAssembly` is the sequence of envelopes sent on
the ingress channel so far, and the result is the returned flag with the sequence afterwards. -/
def processStreamingJSON (pj : Json) (firestoreAssembly : List ReportDataStreamV1) :
    Bool × List ReportDataStreamV1 :=
  let reportType := (pj.Path (str "type")).asString
  let reportDataType := (pj.Path (str "dataType")).asString
  match reportType, reportDataType with
  | some reportType, some reportDataType =>
    let rds : ReportDataStreamV1 := ⟨reportType, reportDataType, pj⟩
    (true, firestoreAssembly ++ [rds])
  | _, _ => (false, firestoreAssembly)

/-! ## oauth.go -/

/-- The constant `authorizationPrefix`. -/
def authorizationPrefix : GoString := str "OAuth "

/-- The function `shouldEscape`: false for the unreserved characters of RFC 3986. -/
def shouldEscape (c : Byte) : Bool :=
  if (charByte 'A' ≤ c ∧ c ≤ charByte 'Z') ∨ (charByte 'a' ≤ c ∧ c ≤ charByte 'z') ∨
      (charByte '0' ≤ c ∧ c ≤ charByte '9') then false
  else if c = charByte '-' ∨ c = charByte '.' ∨ c = charByte '_' ∨ c = charByte '~' then false
  else true

/-- The function `PercentEncode`: the loop over the bytes of the input, writing into a buffer. -/
def PercentEncode (input : GoString) : GoString :=
  input.foldl
    (fun buf b => if shouldEscape b then buf ++ (str "%" ++ fmtHex02 b) else buf ++ [b]) []

/-- The function `encodeParameters`. -/
def encodeParameters (params : GoMap) : GoMap :=
  params.foldl (fun encoded kv => encoded.set (PercentEncode kv.1) (PercentEncode kv.2)) []

/-- The function `sortParameters`. -/
def sortParameters (params : GoMap) (format : GoString) : List GoString :=
  let keys := sortStrings params.keys
  keys.map (fun key => sprintf format [key, params.index key])

/-- The function `authHeaderValue`. -/
def authHeaderValue (oauthParams : GoMap) : GoString :=
  let pairs := sortParameters (encodeParameters oauthParams) (str "%s=\"%s\"")
  authorizationPrefix ++ stringsJoin pairs (str ", ")

/-- The function `normalizedParameterString`. -/
def normalizedParameterString (params : GoMap) : GoString :=
  stringsJoin (sortParameters (encodeParameters params) (str "%s=%s")) (str "&")

/-- The parts of a `url.URL` that the program reads; `escapedPath` is what `EscapedPath()`
returns. -/
structure URL where
  Scheme : GoString
  Host : GoString
  escapedPath : GoString

/-- The parts of an `http.Request` that the program reads. -/
structure Request where
  Method : GoString
  URL : URL

/-- The function `baseURI`, for a request whose scheme and host are ASCII strings (see
`toLower`). -/
def baseURI (req : Request) : GoString :=
  let scheme := toLower req.URL.Scheme
  let host := toLower req.URL.Host
  let hostPort := stringsSplit host (charByte ':')
  let host :=
    if hostPort.length = 2 ∧ (hostPort.getD 1 [] = str "80" ∨ hostPort.getD 1 [] = str "443") then
      hostPort.getD 0 []
    else host
  let path := req.URL.escapedPath
  sprintf (str "%v://%v%v") [scheme, host, path]

/-- The function `signatureBase`, for a request whose method, scheme and host are ASCII strings
(see `toUpper` and `toLower`). -/
def signatureBase (req : Request) (params : GoMap) : GoString :=
  let method := toUpper req.Method
  let baseURL := baseURI req
  let parameterString := normalizedParameterString params
  let baseParts := [method, PercentEncode baseURL, PercentEncode parameterString]
  stringsJoin baseParts (str "&")

/-! ## The specification's percent-encoding -/

/-- The unreserved characters, as the specification lists them: `A-Z a-z 0-9 - . _ ~`. -/
def unreservedChars : GoString :=
  str "ABCDEFGHIJKLMNOPQRSTUVWXYZabcdefghijklmnopqrstuvwxyz0123456789-._~"

/-- The uppercase hexadecimal digit of a value below 16. -/
def upperHexDigit (d : Nat) : Byte :=
  if d < 10 then Fin.ofNat (0x30 + d) else Fin.ofNat (0x41 + (d - 10))

/-- The specification's encoding of one byte: the byte itself when it is unreserved, otherwise
`%` and the two uppercase hexadecimal digits of its value. -/
def percentEncodeByte (b : Byte) : GoString :=
  if b ∈ unreservedChars then [b]
  else [charByte '%', upperHexDigit (b.val / 16), upperHexDigit (b.val % 16)]

/-! ## The specification's upper and lower case -/

/-- The specification's `UPPERCASE` of one byte: a small letter of the alphabet is replaced by
the capital letter at the same place, every other byte is kept. -/
def uppercaseByte (b : Byte) : Byte :=
  (List.lookup b
    ((str "abcdefghijklmnopqrstuvwxyz").zip (str "ABCDEFGHIJKLMNOPQRSTUVWXYZ"))).getD b

/-- The specification's `lowercase` of one byte: a capital letter of the alphabet is replaced by
the small letter at the same place, every other byte is kept. -/
def lowercaseByte (b : Byte) : Byte :=
  (List.lookup b
    ((str "ABCDEFGHIJKLMNOPQRSTUVWXYZ").zip (str "abcdefghijklmnopqrstuvwxyz"))).getD b

/-- The specification's `UPPERCASE` of an ASCII string. -/
def uppercase (s : GoString) : GoString := s.map uppercaseByte

/-- The specification's `lowercase` of an ASCII string. -/
def lowercase (s : GoString) : GoString := s.map lowercaseByte

/-! ## util.go -/

/-- A `time.Time` in UTC: the zero value of the type (1 January of year 1), or the instant a
number of nanoseconds after the Unix epoch. -/
inductive Time where
  | zero
  | unixNano (ns : Int)
deriving DecidableEq, Repr

/-- The conversion `int64(ts)` of a float: the fractional part is discarded; a value outside the
range of `int64` gives the smallest `int64`, as on amd64 (Go leaves that case to the
implementation). -/
def int64OfFloat (ts : Float64) : Int :=
  let t : Int := (ts.mant / 2 ^ ts.exp : Nat)
  let v : Int := if ts.neg then -t else t
  if -(2 : Int) ^ 63 ≤ v ∧ v < (2 : Int) ^ 63 then v else -(2 : Int) ^ 63

/-- Two's-complement wrap-around of `int64` arithmetic. -/
def wrapInt64 (x : Int) : Int := (x + (2 : Int) ^ 63) % (2 : Int) ^ 64 - (2 : Int) ^ 63

/-- The function `nanoEpochTimeObject`: the instant and the error (always nil). -/
def nanoEpochTimeObject (ts : Float64) : Time × Option GoString :=
  let tsi := wrapInt64 (int64OfFloat ts * 1000000)
  (Time.unixNano tsi, none)

/-! ## navajo.go: the identifier cache -/

/-- The global `navajoReferenceIds` without its mutex: every operation on it is one atomic step
of the embedding. The counters count refreshes and stay far below the range of `int`. -/
structure NavajoAccountData where
  clAccountIdMap : GoMap
  clDeviceIdMap : GoMap
  successfulUpdates : Nat
  failedUpdates : Nat
deriving DecidableEq, Repr

/-- The configuration `navajoAuthConf`. -/
structure NavajoAuthConfig where
  host : GoString
  user : GoString
  pass : GoString

/-- What sending one request gives: no response at all (the request could not be built or
sent), or a response with its status code and its body as `gabs.ParseJSONBuffer` decodes it
(a body that is not JSON decodes to the nil container). -/
inductive HttpResult where
  | failed (err : GoString)
  | response (statusCode : Nat) (body : Json)

/-- The request got a response of status 200. -/
def HttpResult.ok200 : HttpResult → Bool
  | .response statusCode _ => statusCode = 200
  | .failed _ => false

/-- The function `navajoHttpClient`; `send` is the directory service as seen from the client,
from the URL of a GET request to its outcome. The result is the body of the response or the
error. -/
def navajoHttpClient (send : GoString → HttpResult) (conf : NavajoAuthConfig)
    (endpoint : GoString) : Except GoString Json :=
  let limit := str "?limit=10000"
  let url := conf.host ++ endpoint ++ limit
  match send url with
  | .failed err => .error err
  | .response statusCode body =>
    if statusCode ≠ 200 then
      .error (sprintf (str "ERROR: Navajo API response code: %v") [decimal statusCode])
    else .ok body

/-- The body of the loop of `buildNavajoIdMaps` over the devices listing. -/
def deviceEntry (clDeviceIdMap : GoMap) (child : Json) : GoMap :=
  let state := (child.Path (str "state.state")).asString
  let webIdf := (child.Path (str "webId")).asFloat64
  let traIdf := (child.Path (str "currentTransponder.transponderId")).asFloat64
  if state.getD [] = str "DEACTIVATED" then clDeviceIdMap
  else
    match state, webIdf, traIdf with
    | some state, some webIdf, some traIdf =>
      if state = str "ACTIVE" then
        let webId := fmtFloat0 webIdf
        let traId := fmtFloat0 traIdf
        clDeviceIdMap.set traId webId
      else clDeviceIdMap
    | _, _, _ => clDeviceIdMap

/-- The body of the loop of `buildNavajoIdMaps` over the accounts listing. -/
def accountEntry (clAccountIdMap : GoMap) (child : Json) : GoMap :=
  let cwAcctIdf := (child.Search [str "accountId"]).asFloat64
  let clAcctIdf := (child.Search [str "apiId"]).asFloat64
  match cwAcctIdf, clAcctIdf with
  | some cwAcctIdf, some clAcctIdf =>
    let cwAcctId := fmtFloat0 cwAcctIdf
    let clAcctId := fmtFloat0 clAcctIdf
    clAccountIdMap.set clAcctId cwAcctId
  | _, _ => clAccountIdMap

/-- The function `buildNavajoIdMaps`: one refresh of the cache. -/
def buildNavajoIdMaps (send : GoString → HttpResult) (conf : NavajoAuthConfig)
    (ids : NavajoAccountData) : NavajoAccountData :=
  let devicesEndpoint := str "/v1/devices"
  match navajoHttpClient send conf devicesEndpoint with
  | .error _ => { ids with failedUpdates := ids.failedUpdates + 1 }
  | .ok dJson =>
    let ids := { ids with clDeviceIdMap := dJson.Children.foldl deviceEntry ids.clDeviceIdMap }
    let accountsEndpoint := str "/v1/accounts"
    match navajoHttpClient send conf accountsEndpoint with
    | .error _ => { ids with failedUpdates := ids.failedUpdates + 1 }
    | .ok aJson =>
      let ids :=
        { ids with clAccountIdMap := aJson.Children.foldl accountEntry ids.clAccountIdMap }
      { ids with successfulUpdates := ids.successfulUpdates + 1 }

/-! ## firestore.go: the stored records -/

/-- The value `0` of type `float64`. -/
def Float64.zero : Float64 := ⟨false, 0, 0⟩

/-- The struct `latlng.LatLng`. -/
structure LatLng where
  Latitude : Float64
  Longitude : Float64
deriving DecidableEq, Repr

/-- The struct `GeoTagV1`. -/
structure GeoTagV1 where
  GeoZoneId : Float64
  TagName : GoString
  TagSource : GoString
  Timestamp : Time
deriving DecidableEq, Repr

/-- The struct `FirestoreTransponderReportV1`; every field starts at the zero value of its
type. The field `Type` of the source is `Type_` here. -/
structure FirestoreTransponderReportV1 where
  ConfigId : Float64 := Float64.zero
  Duration : Float64 := Float64.zero
  EventStart : Time := Time.zero
  InProgress : Bool := false
  LocationAccuracy : Float64 := Float64.zero
  Heading : Float64 := Float64.zero
  Address : GoString := []
  DotOrientation : GoString := []
  LatLng : Option LatLng := none
  BatteryVoltage : Float64 := Float64.zero
  CellSignalStrength : Float64 := Float64.zero
  IsLowBattery : Bool := false
  Odometer : Float64 := Float64.zero
  Speed : Float64 := Float64.zero
  SpeedLimit : Float64 := Float64.zero
  ReportTimestamp : Time := Time.zero
  Serial : Float64 := Float64.zero
  Type_ : GoString := []
  FirestoreCreation : Time := Time.zero
  GeoTags : List GeoTagV1 := []
deriving DecidableEq, Repr

/-! ## report_data_streamer.go and transponder_report_data.go -/

/-- The struct `TransponderReportDataStreamV1` (the embedded `TransponderReportDataV1` holds
the field `json`). -/
structure TransponderReportDataStreamV1 where
  reportType : GoString
  reportDataType : GoString
  cwAccountId : GoString := []
  cwDeviceWebId : GoString := []
  json : Json

namespace TransponderReportDataStreamV1

/-- The method `cartwheelMap`: the receiver afterwards and the returned flag. -/
def cartwheelMap (r : TransponderReportDataStreamV1) (ids : NavajoAccountData)
    (t a : GoString) : TransponderReportDataStreamV1 × Bool :=
  match ids.clAccountIdMap.get a with
  | none => (r, false)
  | some cwAccountId =>
    match ids.clDeviceIdMap.get t with
    | none => (r, false)
    | some cwDeviceId => ({ r with cwAccountId := cwAccountId, cwDeviceWebId := cwDeviceId }, true)

/-- The method `build`: the receiver afterwards and the returned flag. -/
def build (r : TransponderReportDataStreamV1) (ids : NavajoAccountData) :
    TransponderReportDataStreamV1 × Bool :=
  let transponderIdf := (r.json.Path (str "transponderId")).asFloat64
  let clApiAcctIdf := (r.json.Path (str "accountId")).asFloat64
  match transponderIdf, clApiAcctIdf with
  | some transponderIdf, some clApiAcctIdf =>
    let transponderId := fmtFloat0 transponderIdf
    let clApiAcctId := fmtFloat0 clApiAcctIdf
    r.cartwheelMap ids transponderId clApiAcctId
  | _, _ => (r, false)

/-- The method `firestoreReference`: the path of the collection, relative to the database. -/
def firestoreReference (r : TransponderReportDataStreamV1) : GoString :=
  stringsJoin [str "account", r.cwAccountId, str "vehicle", r.cwDeviceWebId, str "report_data"]
    (str "/")

/-- The method `reportConfigId`. -/
def reportConfigId (r : TransponderReportDataStreamV1) : Option Float64 :=
  (r.json.Path (str "data.configId")).asFloat64

/-- The method `reportDuration`. -/
def reportDuration (r : TransponderReportDataStreamV1) : Option Float64 :=
  (r.json.Path (str "data.duration")).asFloat64

/-- The method `reportEventStart`. -/
def reportEventStart (r : TransponderReportDataStreamV1) : Option Time :=
  match (r.json.Path (str "data.eventStart")).asFloat64 with
  | some eventStart => some (nanoEpochTimeObject eventStart).1
  | none => none

/-- The method `reportInProgress`. -/
def reportInProgress (r : TransponderReportDataStreamV1) : Option Bool :=
  (r.json.Path (str "data.inProgress")).asBool

/-- The method `reportLocationAccuracy`. -/
def reportLocationAccuracy (r : TransponderReportDataStreamV1) : Option Float64 :=
  (r.json.Path (str "data.location.accuracy")).asFloat64

/-- The method `reportGeoObj`. -/
def reportGeoObj (r : TransponderReportDataStreamV1) : Option LatLng :=
  let locationLatitude := (r.json.Path (str "data.location.latitude")).asFloat64
  let locationLongitude := (r.json.Path (str "data.location.longitude")).asFloat64
  match locationLatitude, locationLongitude with
  | some locationLatitude, some locationLongitude => some ⟨locationLatitude, locationLongitude⟩
  | _, _ => none

/-- The method `reportLocationHeading`. -/
def reportLocationHeading (r : TransponderReportDataStreamV1) : Option Float64 :=
  (r.json.Path (str "data.location.heading")).asFloat64

/-- The method `reportBatteryVoltage`. -/
def reportBatteryVoltage (r : TransponderReportDataStreamV1) : Option Float64 :=
  (r.json.Path (str "data.parameters.batteryVoltage")).asFloat64

/-- The method `reportCellSignalStrength`. -/
def reportCellSignalStrength (r : TransponderReportDataStreamV1) : Option Float64 :=
  (r.json.Path (str "data.parameters.cellSignalStrength")).asFloat64

/-- The method `reportIsLowBattery`. -/
def reportIsLowBattery (r : TransponderReportDataStreamV1) : Option Bool :=
  (r.json.Path (str "data.parameters.isLowBattery")).asBool

/-- The method `reportOdometer`. -/
def reportOdometer (r : TransponderReportDataStreamV1) : Option Float64 :=
  (r.json.Path (str "data.parameters.odometer")).asFloat64

/-- The method `reportSpeed`. -/
def reportSpeed (r : TransponderReportDataStreamV1) : Option Float64 :=
  (r.json.Path (str "data.parameters.speed")).asFloat64

/-- The method `reportSpeedLimit`. -/
def reportSpeedLimit (r : TransponderReportDataStreamV1) : Option Float64 :=
  (r.json.Path (str "data.parameters.speedLimit")).asFloat64

/-- The method `reportDataTimestamp`. -/
def reportDataTimestamp (r : TransponderReportDataStreamV1) : Option Time :=
  match (r.json.Path (str "data.reportTimestamp")).asFloat64 with
  | some reportTimestamp => some (nanoEpochTimeObject reportTimestamp).1
  | none => none

/-- The method `reportSerial`. -/
def reportSerial (r : TransponderReportDataStreamV1) : Option Float64 :=
  (r.json.Path (str "data.serial")).asFloat64

/-- The inner loop of `reportGeoTags`, over the tags of one source; `t` is the list built so
far, and `none` is the early return with `ok` false. -/
def geoTagsOfSource (tagSource : GoString) :
    List (GoString × Json) → List GeoTagV1 → Option (List GeoTagV1)
  | [], t => some t
  | (tagName, tagMeta) :: rest, t =>
    match (tagMeta.Path (str "geoTagId")).asFloat64 with
    | none => none
    | some tagId =>
      match (tagMeta.Path (str "timestamp")).asFloat64 with
      | none => none
      | some time =>
        geoTagsOfSource tagSource rest
          (t ++ [⟨tagId, tagName, tagSource, (nanoEpochTimeObject time).1⟩])

/-- The outer loop of `reportGeoTags`, over the tag sources. -/
def geoTagsOfSources : List (GoString × Json) → List GeoTagV1 → Option (List GeoTagV1)
  | [], t => some t
  | (tagSource, child) :: rest, t =>
    match geoTagsOfSource tagSource child.ChildrenMap t with
    | none => none
    | some t => geoTagsOfSources rest t

/-- The method `reportGeoTags`. -/
def reportGeoTags (r : TransponderReportDataStreamV1) : Option (List GeoTagV1) :=
  geoTagsOfSources (r.json.Path (str "data.location.geoTags")).ChildrenMap []

/-- The method `validDataType`. -/
def validDataType (r : TransponderReportDataStreamV1) : Bool :=
  let dt := r.reportDataType
  if dt = str "status" ∨ dt = str "parking" ∨ dt = str "stopped" ∨ dt = str "trip_report" ∨
      dt = str "hard_accel" ∨ dt = str "hard_braking" ∨ dt = str "hard_cornering" ∨
      dt = str "overspeeding" ∨ dt = str "idling" then true
  else false

/-- The method `firestoreRecord`: the record, or the error. -/
def firestoreRecord (r : TransponderReportDataStreamV1) :
    Except GoString FirestoreTransponderReportV1 :=
  if r.validDataType then
    let fbRecord : FirestoreTransponderReportV1 := {}
    let fbRecord :=
      match r.reportConfigId with
      | some configId => { fbRecord with ConfigId := configId }
      | none => fbRecord
    let fbRecord :=
      match r.reportDuration with
      | some reportDuration => { fbRecord with Duration := reportDuration }
      | none => fbRecord
    let fbRecord :=
      match r.reportEventStart with
      | some eventStart => { fbRecord with EventStart := eventStart }
      | none => fbRecord
    let fbRecord :=
      match r.reportInProgress with
      | some reportInProg => { fbRecord with InProgress := reportInProg }
      | none => fbRecord
    let fbRecord :=
      match r.reportLocationAccuracy with
      | some reportLocAcc => { fbRecord with LocationAccuracy := reportLocAcc }
      | none => fbRecord
    let fbRecord :=
      match r.reportLocationHeading with
      | some reportLocHeading => { fbRecord with Heading := reportLocHeading }
      | none => fbRecord
    let fbRecord :=
      match r.reportGeoObj with
      | some reportGeoObj => { fbRecord with LatLng := some reportGeoObj }
      | none => fbRecord
    let fbRecord :=
      match r.reportBatteryVoltage with
      | some reportBattVolt => { fbRecord with BatteryVoltage := reportBattVolt }
      | none => fbRecord
    let fbRecord :=
      match r.reportCellSignalStrength with
      | some cellSignal => { fbRecord with CellSignalStrength := cellSignal }
      | none => fbRecord
    let fbRecord :=
      match r.reportIsLowBattery with
      | some isLowBatt => { fbRecord with IsLowBattery := isLowBatt }
      | none => fbRecord
    let fbRecord :=
      match r.reportOdometer with
      | some odometer => { fbRecord with Odometer := odometer }
      | none => fbRecord
    let fbRecord :=
      match r.reportSpeed with
      | some speed => { fbRecord with Speed := speed }
      | none => fbRecord
    let fbRecord :=
      match r.reportSpeedLimit with
      | some speedLimit => { fbRecord with SpeedLimit := speedLimit }
      | none => fbRecord
    let fbRecord :=
      match r.reportDataTimestamp with
      | some reportTimestamp => { fbRecord with ReportTimestamp := reportTimestamp }
      | none => fbRecord
    let fbRecord :=
      match r.reportGeoTags with
      | some geoTags => { fbRecord with GeoTags := geoTags }
      | none => fbRecord
    let fbRecord :=
      match r.reportSerial with
      | some serial => { fbRecord with Serial := serial }
      | none => fbRecord
    let fbRecord := { fbRecord with Type_ := r.reportDataType }
    .ok fbRecord
  else
    let errMsg :=
      sprintf
        (str ("ERROR: Unable to marshall streaming JSON record to " ++
          "FirestoreTransponderReportV1 struct: dataType is not compatible: %s:%s"))
        [r.reportType, r.reportDataType]
    .error errMsg

end TransponderReportDataStreamV1

/-- One write issued to the document store: `ref.NewDoc().Set(ctx, record)` creates a document
with a fresh identifier in the collection `ref`. -/
structure TransponderWrite where
  ref : GoString
  record : FirestoreTransponderReportV1
deriving DecidableEq, Repr

/-- One pass of the loop of `transponderReportWriterV1`, for the envelope `rds` taken from the
transponder queue; `writes` is the sequence of writes issued to the store so far. -/
def transponderReportWriterV1 (ids : NavajoAccountData) (rds : TransponderReportDataStreamV1)
    (writes : List TransponderWrite) : List TransponderWrite :=
  match rds.build ids with
  | (_, false) => writes
  | (rds, true) =>
    let ref := rds.firestoreReference
    match rds.firestoreRecord with
    | .error _ => writes
    | .ok record => writes ++ [⟨ref, record⟩]

/-- The method `transponderReportDataStreamV1` of an envelope. -/
def ReportDataStreamV1.transponderReportDataStreamV1 (r : ReportDataStreamV1) :
    TransponderReportDataStreamV1 :=
  { reportType := r.reportType, reportDataType := r.reportDataType, json := r.json }

/-! ## Comparison of floating-point numbers -/

/-- The signed numerator of a float: the float is `num / 2^exp`. -/
def Float64.num (f : Float64) : Int := if f.neg then -(f.mant : Int) else (f.mant : Int)

/-- Go's `a == b` on finite floats: equal values (negative zero equals zero). -/
def Float64.eq (a b : Float64) : Prop := a.num * 2 ^ b.exp = b.num * 2 ^ a.exp

/-- Go's `a < b` on finite floats. -/
def Float64.lt (a b : Float64) : Prop := a.num * 2 ^ b.exp < b.num * 2 ^ a.exp

/-- Go's `a <= b` on finite floats. -/
def Float64.le (a b : Float64) : Prop := a.num * 2 ^ b.exp ≤ b.num * 2 ^ a.exp

instance : DecidableRel Float64.eq := fun a b =>
  inferInstanceAs (Decidable (a.num * 2 ^ b.exp = b.num * 2 ^ a.exp))

instance : DecidableRel Float64.lt := fun a b =>
  inferInstanceAs (Decidable (a.num * 2 ^ b.exp < b.num * 2 ^ a.exp))

instance : DecidableRel Float64.le := fun a b =>
  inferInstanceAs (Decidable (a.num * 2 ^ b.exp ≤ b.num * 2 ^ a.exp))

/-! ## websocket.go: the ingestion loop -/

/-- The constant `emptyKeepAlive`. -/
def emptyKeepAlive : GoString := str "\x7b\x7d"

/-- The comparison `jsonParsed.String() == emptyKeepAlive`: a document marshals to the two
bytes of the empty object exactly when it is the empty object (the nil container marshals to
`null`). -/
def Json.isEmptyObject : Json → Bool
  | .obj [] => true
  | _ => false

/-- The struct `WebsocketIngestionProgress`. -/
structure WebsocketIngestionProgress where
  latestKeepalive : Time := Time.zero
  checkpoint : Float64 := Float64.zero
deriving DecidableEq, Repr

/-- The method `updateCheckpoint`: the progress afterwards and the returned flag. -/
def WebsocketIngestionProgress.updateCheckpoint (p : WebsocketIngestionProgress) (j : Json) :
    WebsocketIngestionProgress × Bool :=
  match (j.Path (str "checkpoint")).asFloat64 with
  | some point => ({ p with checkpoint := point }, true)
  | none => (p, false)

/-- What `ws.ReadMessage()` gives: an error, or a message, of which the embedding keeps what
`gabs.ParseJSON` makes of its bytes (`none` when they are not JSON). -/
inductive ReadResult where
  | error
  | message (parsed : Option Json)

/-- What one pass of the loop of `readPump` meets: whether the context is done, the result of
the read, the clock, and whether a write to the socket succeeds. -/
structure PumpInput where
  ctxDone : Bool
  read : ReadResult
  now : Time
  writeOk : Bool

/-- The state that `readPump` works on: the progress object, the counter
`imetrics.unparseableSamples` (a `float64` that holds a count), the envelopes sent on the ingress
channel and the messages written to the socket. -/
structure PumpState where
  progress : WebsocketIngestionProgress
  unparseableSamples : Nat
  firestoreAssembly : List ReportDataStreamV1
  written : List GoString

/-- One pass of the loop of `readPump`: the state afterwards, and the value returned if the
function returns in this pass (`none` when the loop goes on). -/
def readPumpPass (maxJSONParseErrors : Float64) (i : PumpInput) (s : PumpState) :
    PumpState × Option Bool :=
  if i.ctxDone then (s, some true)
  else
    match i.read with
    | .error => (s, some false)
    | .message parsed =>
      let s :=
        match parsed with
        | none => { s with unparseableSamples := s.unparseableSamples + 1 }
        | some _ => s
      if parsed.isNone ∧ Float64.lt maxJSONParseErrors (Float64.ofNat s.unparseableSamples) then
        (s, some false)
      else
        let jsonParsed := parsed.getD .null
        if jsonParsed.isEmptyObject then
          let s := { s with progress := { s.progress with latestKeepalive := i.now } }
          if i.writeOk then ({ s with written := s.written ++ [emptyKeepAlive] }, none)
          else (s, some false)
        else
          let (_, firestoreAssembly) := processStreamingJSON jsonParsed s.firestoreAssembly
          let (progress, _) := s.progress.updateCheckpoint jsonParsed
          ({ s with firestoreAssembly := firestoreAssembly, progress := progress }, none)

/-- The loop of `readPump` over the passes that a session meets: the state at the end, and the
value returned (`none` when the session is still running after the last pass given). -/
def readPumpLoop (maxJSONParseErrors : Float64) : List PumpInput → PumpState →
    PumpState × Option Bool
  | [], s => (s, none)
  | i :: rest, s =>
    match readPumpPass maxJSONParseErrors i s with
    | (s, some b) => (s, some b)
    | (s, none) => readPumpLoop maxJSONParseErrors rest s

/-- The function `readPump`; `wsNil` tells whether the connection passed in is nil. -/
def readPump (maxJSONParseErrors : Float64) (wsNil : Bool) (inputs : List PumpInput)
    (s : PumpState) : PumpState × Option Bool :=
  if wsNil then (s, some false) else readPumpLoop maxJSONParseErrors inputs s

/-- The cursor after each pass of a session that `readPumpLoop` runs, in order. -/
def readPumpCursors (maxJSONParseErrors : Float64) : List PumpInput → PumpState → List Float64
  | [], _ => []
  | i :: rest, s =>
    match readPumpPass maxJSONParseErrors i s with
    | (s, some _) => [s.progress.checkpoint]
    | (s, none) => s.progress.checkpoint :: readPumpCursors maxJSONParseErrors rest s

/-- The checkpoint that the frame of a pass advertises: the numeric member `checkpoint` of a
parsed frame that is not a keep-alive. -/
def PumpInput.advertised (i : PumpInput) : Option Float64 :=
  match i.read with
  | .message (some j) => if j.isEmptyObject then none else (j.Path (str "checkpoint")).asFloat64
  | _ => none

/-- The part of one pass of the loop of `websocketIngestor` that prepares the dial request `nr`
from the progress object. -/
def websocketIngestorRequest (progress : WebsocketIngestionProgress) (nr : NewWebsocketRequest) :
    NewWebsocketRequest :=
  if Float64.eq progress.checkpoint Float64.zero then
    { nr with passiveKeepAlive := false, resumeCheckpoint := false }
  else { nr with resumeCheckpoint := true, checkpointToResume := progress.checkpoint }

/-- The dial request of `websocketIngestor` after the passes whose progress objects are given,
in order; the request starts as the zero value `NewWebsocketRequest{}`. -/
def websocketIngestorRequests (passes : List WebsocketIngestionProgress) : NewWebsocketRequest :=
  passes.foldl (fun nr progress => websocketIngestorRequest progress nr)
    ⟨false, false, Float64.zero⟩

/-- The URL that `Websocket` dials: `authConf.wsUrl + params`. -/
def websocketURL (wsUrl : GoString) (nr : NewWebsocketRequest) : GoString := wsUrl ++ nr.params.1

/-! ## report_data_streamer.go: the router -/

/-- The struct `EldReportDataStreamV1` (the embedded `EldReportDataV1` holds the field
`json`). -/
structure EldReportDataStreamV1 where
  reportType : GoString
  reportDataType : GoString
  cwAccountId : GoString := []
  cwDeviceWebId : GoString := []
  clUserId : GoString := []
  json : Json

/-- The struct `VideoReportDataStreamV1` (the embedded `VideoReportDataV1` holds the field
`json`). -/
structure VideoReportDataStreamV1 where
  reportType : GoString
  reportDataType : GoString
  cwAccountId : GoString := []
  cwDeviceWebId : GoString := []
  json : Json

/-- The method `videoReportDataStreamV1` of an envelope. -/
def ReportDataStreamV1.videoReportDataStreamV1 (r : ReportDataStreamV1) :
    VideoReportDataStreamV1 :=
  { reportType := r.reportType, reportDataType := r.reportDataType, json := r.json }

/-- The method `eldReportDataStreamV1` of an envelope. -/
def ReportDataStreamV1.eldReportDataStreamV1 (r : ReportDataStreamV1) : EldReportDataStreamV1 :=
  { reportType := r.reportType, reportDataType := r.reportDataType, json := r.json }

/-- The three channels behind the router, each as the sequence of envelopes sent on it. -/
structure RouterQueues where
  transponderReportsV1 : List TransponderReportDataStreamV1
  videoReportsV1 : List VideoReportDataStreamV1
  eldReportsV1 : List EldReportDataStreamV1

/-- One pass of the loop of `firestoreAssemblyRouter`, for the envelope `rds` received from the
ingress channel. -/
def firestoreAssemblyRouter (rds : ReportDataStreamV1) (qs : RouterQueues) : RouterQueues :=
  if rds.reportType = str "REPORT_DATA" then
    { qs with
      transponderReportsV1 := qs.transponderReportsV1 ++ [rds.transponderReportDataStreamV1] }
  else if rds.reportType = str "ELD_RECORD" then
    { qs with eldReportsV1 := qs.eldReportsV1 ++ [rds.eldReportDataStreamV1] }
  else qs

/-! ## eld_report_data.go: identifier resolution -/

namespace EldReportDataStreamV1

/-- The method `cartwheelMap`: the receiver afterwards and the returned flag. -/
def cartwheelMap (r : EldReportDataStreamV1) (ids : NavajoAccountData) (a : GoString) :
    EldReportDataStreamV1 × Bool :=
  match ids.clAccountIdMap.get a with
  | none => (r, false)
  | some cwAccountId => ({ r with cwAccountId := cwAccountId }, true)

/-- The method `build`: the receiver afterwards and the returned flag. -/
def build (r : EldReportDataStreamV1) (ids : NavajoAccountData) : EldReportDataStreamV1 × Bool :=
  let clApiAcctId := (r.json.Path (str "accountId")).asFloat64
  let clApiDrivId := (r.json.Path (str "data.userId")).asFloat64
  match clApiAcctId, clApiDrivId with
  | some clApiAcctId, some clApiDrivId =>
    let accountId := fmtFloat0 clApiAcctId
    let userId := fmtFloat0 clApiDrivId
    match r.cartwheelMap ids accountId with
    | (r, false) => (r, false)
    | (r, true) => ({ r with clUserId := userId }, true)
  | _, _ => (r, false)

/-- The method `firestoreReference`: the path of the collection, relative to the database. -/
def firestoreReference (r : EldReportDataStreamV1) : GoString :=
  stringsJoin [str "account", r.cwAccountId, str "driver", r.clUserId, str "report_data"]
    (str "/")

end EldReportDataStreamV1

/-! ## Listing loops of a refresh -/

/-- A step of a listing loop either leaves the map alone or writes one entry, the same entry
whatever the map. -/
def WritesOneEntry (step : GoMap → Json → GoMap) : Prop :=
  ∀ (m : GoMap) (c : Json), (step m c = m ∧ step [] c = []) ∨
    ∃ k v, step m c = m.set k v ∧ step [] c = [(k, v)]

/-! ## The specification's transponder kinds -/

/-- The recognised transponder kinds, as the specification lists them. -/
def transponderKinds : List GoString :=
  [str "status", str "parking", str "stopped", str "trip_report", str "hard_accel",
    str "hard_braking", str "hard_cornering", str "overspeeding", str "idling"]

/-! ## firestore.go: the stored documents -/

/-- A value of a stored document, as the Go client of the store encodes the fields of a
record. -/
inductive FsValue where
  | number (x : Float64)
  | boolean (b : Bool)
  | string (s : GoString)
  | timestamp (ns : Int)
  | geoPoint (p : LatLng)
  | array (vs : List FsValue)
  | map (kvs : List (GoString × FsValue))
  | serverTimestamp

/-- A `float64` field tagged `omitempty`: left out when the value equals 0. -/
def omitEmptyFloat (x : Float64) : Option FsValue :=
  if Float64.eq x Float64.zero then none else some (.number x)

/-- A `bool` field tagged `omitempty`: left out when false. -/
def omitEmptyBool (b : Bool) : Option FsValue := if b then some (.boolean b) else none

/-- A `string` field tagged `omitempty`: left out when empty. -/
def omitEmptyString (s : GoString) : Option FsValue :=
  if s = [] then none else some (.string s)

/-- A `time.Time` field tagged `omitempty`: left out when it is the zero time. -/
def omitEmptyTime : Time → Option FsValue
  | .zero => none
  | .unixNano ns => some (.timestamp ns)

/-- A `*latlng.LatLng` field tagged `omitempty`: left out when nil. -/
def omitEmptyLatLng : Option LatLng → Option FsValue
  | none => none
  | some p => some (.geoPoint p)

/-- A `time.Time` field without `omitempty`. The zero time is year 1, about 62 thousand million
seconds before the Unix epoch, outside the range of nanosecond counts; the embedding keeps it
apart from the instants. -/
def timeValue : Time → FsValue
  | .zero => .timestamp (-62135596800 * 1000000000)
  | .unixNano ns => .timestamp ns

/-- The encoding of a `GeoTagV1`: its four fields under their tags. -/
def GeoTagV1.value (g : GeoTagV1) : FsValue :=
  .map [(str "zoneId", .number g.GeoZoneId), (str "tagName", .string g.TagName),
    (str "scope", .string g.TagSource), (str "zoneModifiedTimestamp", timeValue g.Timestamp)]

/-- A `[]GeoTagV1` field tagged `omitempty`: left out when it has no element. -/
def omitEmptyGeoTags (gs : List GeoTagV1) : Option FsValue :=
  if gs = [] then none else some (.array (gs.map GeoTagV1.value))

/-- A `time.Time` field tagged `serverTimestamp`: with the zero time the server fills in the
time of the write; any other value is not saved. -/
def serverTimestampField : Time → Option FsValue
  | .zero => some .serverTimestamp
  | .unixNano _ => none

/-- The fields of a transponder record under their `firestore` tags, each with the value that
is stored, or `none` when the field is left out of the document. -/
def FirestoreTransponderReportV1.fields (r : FirestoreTransponderReportV1) :
    List (GoString × Option FsValue) :=
  [(str "configId", omitEmptyFloat r.ConfigId),
    (str "duration", omitEmptyFloat r.Duration),
    (str "eventStart", omitEmptyTime r.EventStart),
    (str "inProgress", omitEmptyBool r.InProgress),
    (str "locationAccuracy", omitEmptyFloat r.LocationAccuracy),
    (str "heading", omitEmptyFloat r.Heading),
    (str "address", omitEmptyString r.Address),
    (str "dotOrientation", omitEmptyString r.DotOrientation),
    (str "latLng", omitEmptyLatLng r.LatLng),
    (str "batteryVoltage", omitEmptyFloat r.BatteryVoltage),
    (str "cellSignalStrength", omitEmptyFloat r.CellSignalStrength),
    (str "isLowBatteryVoltage", omitEmptyBool r.IsLowBattery),
    (str "odometer", omitEmptyFloat r.Odometer),
    (str "speed", omitEmptyFloat r.Speed),
    (str "speedLimit", omitEmptyFloat r.SpeedLimit),
    (str "reportTimestamp", omitEmptyTime r.ReportTimestamp),
    (str "serial", omitEmptyFloat r.Serial),
    (str "type", some (.string r.Type_)),
    (str "fsCreateTimestamp", serverTimestampField r.FirestoreCreation),
    (str "geoTags", omitEmptyGeoTags r.GeoTags)]

/-- The document that the store receives for a list of tagged fields: the fields that are not
left out. -/
def documentOf (fields : List (GoString × Option FsValue)) : List (GoString × FsValue) :=
  fields.filterMap (fun kv => kv.2.map (fun v => (kv.1, v)))

/-- The stored document of a transponder record. -/
def FirestoreTransponderReportV1.document (r : FirestoreTransponderReportV1) :
    List (GoString × FsValue) :=
  documentOf r.fields

/-- The struct `FirestoreEldReportV1`; every field starts at the zero value of its type. The
field `Type` of the source is `Type_` here. -/
structure FirestoreEldReportV1 where
  UsDotNumber : GoString := []
  UserId : Float64 := Float64.zero
  Username : GoString := []
  TransponderId : Float64 := Float64.zero
  TerminalNumber : GoString := []
  ServerRxTimestamp : Time := Time.zero
  EventId : GoString := []
  RecordId : GoString := []
  RecordTimestamp : Time := Time.zero
  RecordStatus : GoString := []
  RecordOrigin : GoString := []
  EventStartTimestamp : Time := Time.zero
  EventEndTimestamp : Time := Time.zero
  NavigationEvent : GoString := []
  VehicleMode : GoString := []
  LocationType : GoString := []
  Location : Option LatLng := none
  GeoDescription : GoString := []
  Meters : Float64 := Float64.zero
  IsDiagnosticActive : Bool := false
  IsMalfunctionActive : Bool := false
  Type_ : GoString := []
  FirestoreCreation : Time := Time.zero

/-- The fields of an ELD record under their `firestore` tags, each with the value that is
stored, or `none` when the field is left out of the document. -/
def FirestoreEldReportV1.fields (r : FirestoreEldReportV1) : List (GoString × Option FsValue) :=
  [(str "usDotNumber", omitEmptyString r.UsDotNumber),
    (str "userId", omitEmptyFloat r.UserId),
    (str "userName", omitEmptyString r.Username),
    (str "transponderId", omitEmptyFloat r.TransponderId),
    (str "terminalNumber", omitEmptyString r.TerminalNumber),
    (str "serverRxTimestamp", omitEmptyTime r.ServerRxTimestamp),
    (str "eventId", omitEmptyString r.EventId),
    (str "recordId", omitEmptyString r.RecordId),
    (str "recordTimestamp", omitEmptyTime r.RecordTimestamp),
    (str "recordStatus", omitEmptyString r.RecordStatus),
    (str "recordOrigin", omitEmptyString r.RecordOrigin),
    (str "eventStartTimestamp", omitEmptyTime r.EventStartTimestamp),
    (str "eventEndTimestamp", omitEmptyTime r.EventEndTimestamp),
    (str "navigationEvent", omitEmptyString r.NavigationEvent),
    (str "vehicleMode", omitEmptyString r.VehicleMode),
    (str "locationType", omitEmptyString r.LocationType),
    (str "location", omitEmptyLatLng r.Location),
    (str "geoDescription", omitEmptyString r.GeoDescription),
    (str "meters", omitEmptyFloat r.Meters),
    (str "isDiagnosticActive", omitEmptyBool r.IsDiagnosticActive),
    (str "isMalfunctionActive", omitEmptyBool r.IsMalfunctionActive),
    (str "type", some (.string r.Type_)),
    (str "fsCreateTimestamp", serverTimestampField r.FirestoreCreation)]

/-- The stored document of an ELD record. -/
def FirestoreEldReportV1.document (r : FirestoreEldReportV1) : List (GoString × FsValue) :=
  documentOf r.fields

/-! ## eld_report_data.go: the record and the writer -/

namespace EldReportDataStreamV1

/-- The method `validDataType`. -/
def validDataType (r : EldReportDataStreamV1) : Bool :=
  let dt := r.reportDataType
  if dt = str "navigation" then true else false

/-- The method `usDotNum`. -/
def usDotNum (r : EldReportDataStreamV1) : Option GoString :=
  (r.json.Path (str "usDotNumber")).asString

/-- The method `userId`. -/
def userId (r : EldReportDataStreamV1) : Option Float64 :=
  (r.json.Path (str "userId")).asFloat64

/-- The method `username`. -/
def username (r : EldReportDataStreamV1) : Option GoString :=
  (r.json.Path (str "userName")).asString

/-- The method `transponderId`. -/
def transponderId (r : EldReportDataStreamV1) : Option Float64 :=
  (r.json.Path (str "sentFrom.transponderId")).asFloat64

/-- The method `terminalNumber`. -/
def terminalNumber (r : EldReportDataStreamV1) : Option GoString :=
  (r.json.Path (str "sentFrom.terminalNumber")).asString

/-- The method `serverRxTimestamp`. -/
def serverRxTimestamp (r : EldReportDataStreamV1) : Option Time :=
  match (r.json.Path (str "sentFrom.serverRxTimestamp")).asFloat64 with
  | some rx => some (nanoEpochTimeObject rx).1
  | none => none

/-- The method `eventId`. -/
def eventId (r : EldReportDataStreamV1) : Option GoString :=
  (r.json.Path (str "eventId")).asString

/-- The method `recordId`. -/
def recordId (r : EldReportDataStreamV1) : Option GoString :=
  (r.json.Path (str "recordId")).asString

/-- The method `recordTimestamp`. -/
def recordTimestamp (r : EldReportDataStreamV1) : Option Time :=
  match (r.json.Path (str "recordTimestamp")).asFloat64 with
  | some rTime => some (nanoEpochTimeObject rTime).1
  | none => none

/-- The method `recordStatus`. -/
def recordStatus (r : EldReportDataStreamV1) : Option GoString :=
  (r.json.Path (str "recordStatus")).asString

/-- The method `recordOrigin`. -/
def recordOrigin (r : EldReportDataStreamV1) : Option GoString :=
  (r.json.Path (str "recordOrigin")).asString

/-- The method `eventStartTimestamp`. -/
def eventStartTimestamp (r : EldReportDataStreamV1) : Option Time :=
  match (r.json.Path (str "recordData.eventStartTimestamp")).asFloat64 with
  | some est => some (nanoEpochTimeObject est).1
  | none => none

/-- The method `eventEndTimestamp`. -/
def eventEndTimestamp (r : EldReportDataStreamV1) : Option Time :=
  match (r.json.Path (str "recordData.eventEndTimestamp")).asFloat64 with
  | some eet => some (nanoEpochTimeObject eet).1
  | none => none

/-- The method `navigationEvent`. -/
def navigationEvent (r : EldReportDataStreamV1) : Option GoString :=
  (r.json.Path (str "recordData.navigationEvent")).asString

/-- The method `vehicleMode`. -/
def vehicleMode (r : EldReportDataStreamV1) : Option GoString :=
  (r.json.Path (str "recordData.vehicleMode")).asString

/-- The method `locationType`. -/
def locationType (r : EldReportDataStreamV1) : Option GoString :=
  (r.json.Path (str "recordData.locationType")).asString

/-- The method `location`. -/
def location (r : EldReportDataStreamV1) : Option LatLng :=
  let locationLatitude := (r.json.Path (str "recordData.location.latitude")).asFloat64
  let locationLongitude := (r.json.Path (str "recordData.location.longitude")).asFloat64
  match locationLatitude, locationLongitude with
  | some locationLatitude, some locationLongitude => some ⟨locationLatitude, locationLongitude⟩
  | _, _ => none

/-- The method `geoDescription`. -/
def geoDescription (r : EldReportDataStreamV1) : Option GoString :=
  (r.json.Path (str "recordData.location.geoDescription")).asString

/-- The method `meters`. -/
def meters (r : EldReportDataStreamV1) : Option Float64 :=
  (r.json.Path (str "recordData.meters")).asFloat64

/-- The method `isDiagnosticActive`. -/
def isDiagnosticActive (r : EldReportDataStreamV1) : Option Bool :=
  (r.json.Path (str "isDiagnosticActive")).asBool

/-- The method `isMalfunctionActive`. -/
def isMalfunctionActive (r : EldReportDataStreamV1) : Option Bool :=
  (r.json.Path (str "isMalfunctionActive")).asBool

/-- The method `firestoreRecord`: the record, or the error. Every field of the record is
assigned when its extractor reports `ok` and keeps the zero value otherwise. -/
def firestoreRecord (r : EldReportDataStreamV1) : Except GoString FirestoreEldReportV1 :=
  if r.validDataType then
    let fbRecord : FirestoreEldReportV1 :=
      { UsDotNumber := r.usDotNum.getD []
        UserId := r.userId.getD Float64.zero
        Username := r.username.getD []
        TransponderId := r.transponderId.getD Float64.zero
        TerminalNumber := r.terminalNumber.getD []
        ServerRxTimestamp := r.serverRxTimestamp.getD Time.zero
        EventId := r.eventId.getD []
        RecordId := r.recordId.getD []
        RecordTimestamp := r.recordTimestamp.getD Time.zero
        RecordStatus := r.recordStatus.getD []
        RecordOrigin := r.recordOrigin.getD []
        EventStartTimestamp := r.eventStartTimestamp.getD Time.zero
        EventEndTimestamp := r.eventEndTimestamp.getD Time.zero
        NavigationEvent := r.navigationEvent.getD []
        VehicleMode := r.vehicleMode.getD []
        LocationType := r.locationType.getD []
        Location := r.location
        GeoDescription := r.geoDescription.getD []
        Meters := r.meters.getD Float64.zero
        IsDiagnosticActive := r.isDiagnosticActive.getD false
        IsMalfunctionActive := r.isMalfunctionActive.getD false
        Type_ := r.reportDataType }
    Except.ok fbRecord
  else
    let errMsg :=
      sprintf
        (str ("ERROR: Unable to marshall streaming JSON record to " ++
          "FirestoreTransponderReportV1 struct: dataType is not compatible: %s:%s"))
        [r.reportType, r.reportDataType]
    .error errMsg

end EldReportDataStreamV1

/-- One write of the ELD writer issued to the document store. -/
structure EldWrite where
  ref : GoString
  record : FirestoreEldReportV1

/-- What the ELD writer has done so far: the writes issued to the store, the number of calls of
`build` (each takes the cache lock and looks the account up), and the number of warnings and
errors it has logged. -/
structure EldWriterState where
  writes : List EldWrite
  builds : Nat
  problems : Nat

/-- One pass of the loop of `eldReportWriterV1`, for the envelope `rds` taken from the ELD
queue; `setFails` tells whether the store rejects the write. -/
def eldReportWriterV1 (ids : NavajoAccountData) (setFails : Bool) (rds : EldReportDataStreamV1)
    (st : EldWriterState) : EldWriterState :=
  if rds.reportDataType ≠ str "navigation" then st
  else
    let st := { st with builds := st.builds + 1 }
    match rds.build ids with
    | (_, false) => { st with problems := st.problems + 1 }
    | (rds, true) =>
      let ref := rds.firestoreReference
      match rds.firestoreRecord with
      | .error _ => { st with problems := st.problems + 1 }
      | .ok record =>
        let st := { st with writes := st.writes ++ [⟨ref, record⟩] }
        if setFails then { st with problems := st.problems + 1 } else st

/-! ## websocket.go: sessions one after another -/

/-- The sessions that `websocketIngestor` runs one after another, each given by the passes it
meets: every session calls `readPump` on the state that the previous one left, the counter of
`imetrics` included, which is a global that no session resets. -/
def readPumpSessions (maxJSONParseErrors : Float64) : List (List PumpInput) → PumpState →
    PumpState
  | [], s => s
  | session :: rest, s =>
    readPumpSessions maxJSONParseErrors rest (readPump maxJSONParseErrors false session s).1

/-- The frame of a pass is a message that `gabs.ParseJSON` rejects. -/
def PumpInput.unparseable (i : PumpInput) : Bool :=
  match i.read with
  | .message none => true
  | _ => false

/-- A pass whose only way to end the session is the parse-error budget: the context is not
done, a message is read, and the keep-alive reply can be written. -/
def PumpInput.plain (i : PumpInput) : Prop :=
  i.ctxDone = false ∧ (∃ parsed, i.read = .message parsed) ∧ i.writeOk = true

/-! ## The specification's reading of a timestamp -/

/-- The largest integer not above the value of a float. -/
def Float64.floor (f : Float64) : Int := f.num / 2 ^ f.exp

/-- The value of the float is a whole number. -/
def Float64.IsWhole (f : Float64) : Prop := f.mant % 2 ^ f.exp = 0

instance (f : Float64) : Decidable f.IsWhole :=
  inferInstanceAs (Decidable (f.mant % 2 ^ f.exp = 0))

/-- The epoch-millisecond value of an instant (`UnixMilli`); the zero time has none in the
embedding. -/
def Time.epochMilli : Time → Option Int
  | .zero => none
  | .unixNano ns => some (ns / 1000000)

/-- The civil date of a day count since 1 January 1970 in the proleptic Gregorian calendar:
year, month, day. -/
def civilFromDays (days : Int) : Int × Int × Int :=
  let z := days + 719468
  let era := z / 146097
  let doe := z - era * 146097
  let yoe := (doe - doe / 1460 + doe / 36524 - doe / 146096) / 365
  let doy := doe - (365 * yoe + yoe / 4 - yoe / 100)
  let mp := (5 * doy + 2) / 153
  let d := doy - (153 * mp + 2) / 5 + 1
  let m := if mp < 10 then mp + 3 else mp - 9
  let y := yoe + era * 400 + (if m ≤ 2 then 1 else 0)
  (y, m, d)

/-- The date and time of day in UTC of an instant, as RFC 3339 prints it: year, month, day,
hour, minute, second. -/
def utcDateTime (ns : Int) : Int × Int × Int × Int × Int × Int :=
  let secs := ns / 1000000000
  let days := secs / 86400
  let rem := secs % 86400
  let (y, m, d) := civilFromDays days
  (y, m, d, rem / 3600, rem % 3600 / 60, rem % 60)

/-! ## Refreshes one after another -/

/-- The cache after the refreshes of a run, each given by the directory service that it meets;
the run starts from the two empty maps that `main` makes. -/
def cacheAfter (conf : NavajoAuthConfig) (refreshes : List (GoString → HttpResult)) :
    NavajoAccountData :=
  refreshes.foldl (fun ids send => buildNavajoIdMaps send conf ids) ⟨[], [], 0, 0⟩

/-! ## oauth.go: the nonce and the signature -/

/-- The alphabet of `base64.StdEncoding`. -/
def encodeStd : GoString :=
  str "ABCDEFGHIJKLMNOPQRSTUVWXYZabcdefghijklmnopqrstuvwxyz0123456789+/"

/-- The alphabet of `base64.URLEncoding`, the one the specification names. -/
def encodeURL : GoString :=
  str "ABCDEFGHIJKLMNOPQRSTUVWXYZabcdefghijklmnopqrstuvwxyz0123456789-_"

/-- The character of the six low bits of `val` in the standard alphabet:
`enc.encode[val&0x3F]`. -/
def base64Char (val : Nat) : Byte := encodeStd.getD (val % 64) (charByte 'A')

/-- The method `EncodeToString` of `base64.StdEncoding` (`padding` true) and of
`base64.RawStdEncoding` (`padding` false): three bytes give four characters, and a rest of one
or two bytes gives two or three characters, padded with `=` when there is padding. -/
def base64Encode (padding : Bool) : GoString → GoString
  | a :: b :: c :: rest =>
    let val := a.val * 65536 + b.val * 256 + c.val
    base64Char (val / 262144) :: base64Char (val / 4096) :: base64Char (val / 64) ::
      base64Char val :: base64Encode padding rest
  | [a, b] =>
    let val := a.val * 65536 + b.val * 256
    [base64Char (val / 262144), base64Char (val / 4096), base64Char (val / 64)] ++
      (if padding then [charByte '='] else [])
  | [a] =>
    let val := a.val * 65536
    [base64Char (val / 262144), base64Char (val / 4096)] ++
      (if padding then [charByte '=', charByte '='] else [])
  | [] => []

/-- The function `nonce`; `b` is the buffer of 32 bytes after `rand.Read` has filled it. -/
def nonce (b : GoString) : GoString := base64Encode false b

/-- The function `hmacSign` with the hash `sha1.New`; `hmacSha1` is the keyed hash of the Go
library, from the key and the message to the 20 bytes of the digest. The error is always nil. -/
def hmacSign (hmacSha1 : GoString → GoString → GoString)
    (consumerSecret tokenSecret message : GoString) : GoString × Option GoString :=
  let signingKey := stringsJoin [consumerSecret, tokenSecret] (str "&")
  let signatureBytes := hmacSha1 signingKey message
  (base64Encode true signatureBytes, none)

/-- The struct `CLAPIOauthConfig`. -/
structure CLAPIOauthConfig where
  url : GoString
  wsUrl : GoString
  OauthConsumerKey : GoString
  OauthConsumerSecret : GoString

/-- The constant `OauthTokenSecret`. -/
def OauthTokenSecret : GoString := str ""

/-- The function `strconv.FormatInt(n, 10)`. -/
def formatInt (n : Int) : GoString :=
  if n < 0 then str "-" ++ decimal n.natAbs else decimal n.natAbs

/-- The function `oAuthParams`; `unixNow` is `time.Now().Unix()` and `random` the buffer that
`nonce` reads. -/
def oAuthParams (authConf : CLAPIOauthConfig) (unixNow : Int) (random : GoString) : GoMap :=
  [(str "oauth_consumer_key", authConf.OauthConsumerKey),
    (str "oauth_signature_method", str "HMAC-SHA1"),
    (str "oauth_timestamp", formatInt unixNow),
    (str "oauth_nonce", nonce random),
    (str "oauth_version", str "1.0")]

/-- The statement `delete(m, k)`. -/
def GoMap.delete (m : GoMap) (k : GoString) : GoMap := m.filter (fun kv => kv.1 ≠ k)

/-- What `Websocket` has computed when it dials: the parameter set that is signed, the
signature base string, the parameters of the header, the value of the `Authorization` header
and the URL that is dialled. -/
structure WebsocketDial where
  signedParams : GoMap
  signatureBase : GoString
  headerParams : GoMap
  authorization : GoString
  url : GoString

/-- The function `Websocket` up to the dial; `none` is the run-time panic of the function.
`parseURL` is what `http.NewRequest` makes of the URL of the helper request: `none` when it
returns an error, which the function discards, and a nil request, which `signatureBase` then
dereferences. `hmacSha1` is the keyed hash, `unixNow` the clock and `random` the random bytes of
the nonce; `pkmap` is the map that `params` returned, in the order in which the loops over it
visit it. -/
def Websocket (authConf : CLAPIOauthConfig) (parseURL : GoString → Option URL)
    (hmacSha1 : GoString → GoString → GoString) (unixNow : Int) (random : GoString)
    (nr : NewWebsocketRequest) : Option WebsocketDial :=
  let (params, pkmap, _) := nr.params
  match parseURL (authConf.url ++ params) with
  | none => none
  | some url =>
    let req : Request := ⟨str "GET", url⟩
    let oauthParams := oAuthParams authConf unixNow random
    let oauthParams := pkmap.foldl (fun m kv => m.set kv.1 kv.2) oauthParams
    let signedParams := oauthParams
    let sigBase := signatureBase req oauthParams
    let (signature, _) :=
      hmacSign hmacSha1 authConf.OauthConsumerSecret OauthTokenSecret sigBase
    let oauthParams := oauthParams.set (str "oauth_signature") signature
    let oauthParams := pkmap.foldl (fun m kv => m.delete kv.1) oauthParams
    some
      { signedParams := signedParams, signatureBase := sigBase, headerParams := oauthParams,
        authorization := authHeaderValue oauthParams, url := authConf.wsUrl ++ params }

/-! ## The scalar fields of a transponder record -/

/-- A scalar field of a transponder record: the path that its extractor reads in the report, its
`firestore` tag, and the field of the struct that `firestoreRecord` assigns. -/
structure TransponderField (α : Type) where
  path : GoString
  tag : GoString
  get : FirestoreTransponderReportV1 → α

/-- The numeric fields of a transponder record. -/
def transponderNumberFields : List (TransponderField Float64) :=
  [⟨str "data.configId", str "configId", fun r => r.ConfigId⟩,
    ⟨str "data.duration", str "duration", fun r => r.Duration⟩,
    ⟨str "data.location.accuracy", str "locationAccuracy", fun r => r.LocationAccuracy⟩,
    ⟨str "data.location.heading", str "heading", fun r => r.Heading⟩,
    ⟨str "data.parameters.batteryVoltage", str "batteryVoltage", fun r => r.BatteryVoltage⟩,
    ⟨str "data.parameters.cellSignalStrength", str "cellSignalStrength",
      fun r => r.CellSignalStrength⟩,
    ⟨str "data.parameters.odometer", str "odometer", fun r => r.Odometer⟩,
    ⟨str "data.parameters.speed", str "speed", fun r => r.Speed⟩,
    ⟨str "data.parameters.speedLimit", str "speedLimit", fun r => r.SpeedLimit⟩,
    ⟨str "data.serial", str "serial", fun r => r.Serial⟩]

/-- The timestamp fields of a transponder record; on the wire they are numbers. -/
def transponderTimeFields : List (TransponderField Time) :=
  [⟨str "data.eventStart", str "eventStart", fun r => r.EventStart⟩,
    ⟨str "data.reportTimestamp", str "reportTimestamp", fun r => r.ReportTimestamp⟩]

/-- The boolean fields of a transponder record. -/
def transponderBoolFields : List (TransponderField Bool) :=
  [⟨str "data.inProgress", str "inProgress", fun r => r.InProgress⟩,
    ⟨str "data.parameters.isLowBattery", str "isLowBatteryVoltage", fun r => r.IsLowBattery⟩]

/-! ## The values of the identifier cache -/

/-- Every value of the map is a non-empty string. -/
def GoMap.ValuesNonEmpty (m : GoMap) : Prop := ∀ kv ∈ m, kv.2 ≠ []

/-! ## metrics.go: the ingestion metrics -/

/-- The struct `IngestedMetrics` (the global `imetrics`). The fields that count samples or
reports are `float64` counters and are natural numbers here; the map
`transpondersWithNoAccountId` is the list of its entries. -/
structure IngestedMetrics where
  minDifferential : Float64 := Float64.zero
  maxDifferential : Float64 := Float64.zero
  dumpDifferential : Float64 := Float64.zero
  totalSamples : Nat := 0
  unparseableSamples : Nat := 0
  maxHugeDifferential : Nat := 0
  totalReadPumpRestarts : Nat := 0
  gsmTransponderReports : Nat := 0
  lteTransponderReports : Nat := 0
  reportsWithNoAccountId : Nat := 0
  transpondersWithNoAccountId : List (Float64 × Bool) := []
  reportsWithNoDataType : Nat := 0
  reportsWithNoType : Nat := 0
deriving DecidableEq, Repr

/-- One pass of the loop of `readPump` with the global `imetrics` in view. The pass reads and
writes the field `unparseableSamples` and no other field of `imetrics`: the call of
`collectIngestionMetrics` at the end of the pass is commented out in the source, and
`processStreamingJSON` and `updateCheckpoint` write no metric. -/
def readPumpPassMetrics (maxJSONParseErrors : Float64) (i : PumpInput) (s : PumpState)
    (imetrics : IngestedMetrics) : PumpState × Option Bool × IngestedMetrics :=
  let (s, res) :=
    readPumpPass maxJSONParseErrors i { s with unparseableSamples := imetrics.unparseableSamples }
  (s, res, { imetrics with unparseableSamples := s.unparseableSamples })

/-! ## setup.go -/

/-- The environment of the process, as `os.LookupEnv` reads it: `none` for a variable that is
not set. -/
abbrev Env := GoString → Option GoString

/-- The function `os.Getenv`: the empty string for a variable that is not set. -/
def Env.Getenv (env : Env) (key : GoString) : GoString := (env key).getD []

/-- The level of the logger: `log.InfoLevel` or `log.DebugLevel`. -/
inductive LogLevel where
  | InfoLevel
  | DebugLevel
deriving DecidableEq, Repr

/-- The global variables that `parseEnvConfigs` assigns, and the level of the logger. The two
durations are counts of nanoseconds. -/
structure EnvConfigs where
  authConf : CLAPIOauthConfig
  navajoAuthConf : NavajoAuthConfig
  maxHugeDifferentialSetting : Float64
  maxJSONParseErrors : Float64
  navajoRebuildTimer : Int
  websocketTimeout : Int
  gcpProjectId : GoString
  logLevel : LogLevel

/-- The default `DefaultmaxHugeDifferentialSetting`. -/
def DefaultmaxHugeDifferentialSetting : Float64 := Float64.ofNat 60000

/-- The default `DefaultmaxJSONParseErrors`. -/
def DefaultmaxJSONParseErrors : Float64 := Float64.ofNat 100

/-- The default `DefaultNavajoIdMapRebuildTimer`: 120 seconds. -/
def DefaultNavajoIdMapRebuildTimer : Int := 120 * 1000000000

/-- The default `DefaultWebsocketTimeout`: 20 seconds. -/
def DefaultWebsocketTimeout : Int := 20 * 1000000000

/-- The constant `envClApiURL` of `parseEnvConfigs`. -/
def envClApiURL : GoString := str "CLAPI_HOST"

/-- The constant `envClApiWSSURL` of `parseEnvConfigs`. -/
def envClApiWSSURL : GoString := str "CLAPI_WSHOST"

/-- The constant `envClApiOauthConsumerKey` of `parseEnvConfigs`. -/
def envClApiOauthConsumerKey : GoString := str "CLAPI_KEY"

/-- The constant `envClApiOauthConsumerSec` of `parseEnvConfigs`. -/
def envClApiOauthConsumerSec : GoString := str "CLAPI_SEC"

/-- The constant `envNavajoHost` of `parseEnvConfigs`. -/
def envNavajoHost : GoString := str "NAVAJO_URL"

/-- The constant `envNavajoUser` of `parseEnvConfigs`. -/
def envNavajoUser : GoString := str "NAVAJO_USER"

/-- The constant `envNavajoPw` of `parseEnvConfigs`. -/
def envNavajoPw : GoString := str "NAVAJO_PW"

/-- The constant `envMaxHugeDifferentialSetting` of `parseEnvConfigs`. -/
def envMaxHugeDifferentialSetting : GoString := str "METRICS_HUGEDIFFIGNORE"

/-- The constant `envMaxJsonParseErrors` of `parseEnvConfigs`. -/
def envMaxJsonParseErrors : GoString := str "JSON_ERRORS_BEFORE_RESTART"

/-- The constant `envNavajoIdMapRebuildTimer` of `parseEnvConfigs`. -/
def envNavajoIdMapRebuildTimer : GoString := str "NAVAJO_MAP_REBUILD_TIMER"

/-- The constant `envWebsocketTimeout` of `parseEnvConfigs`. -/
def envWebsocketTimeout : GoString := str "WEBSOCKET_TIMEOUT"

/-- The constant `envGoogleApplicationCredentials` of `parseEnvConfigs`. -/
def envGoogleApplicationCredentials : GoString := str "GOOGLE_APPLICATION_CREDENTIALS"

/-- The constant `envGoogleProjectId` of `parseEnvConfigs`. -/
def envGoogleProjectId : GoString := str "GOOGLE_PROJECT_ID"

/-- The constant `envDebugLogLevel` of `parseEnvConfigs`. -/
def envDebugLogLevel : GoString := str "DEBUG"

/-- A tunable that is a `float64`: the default when the variable is not set, otherwise the
value and the error of `strconv.ParseFloat`. -/
def floatTunable (env : Env) (parseFloat : GoString → Float64 × Option GoString)
    (key : GoString) (default : Float64) : Float64 × Option GoString :=
  match env key with
  | none => (default, none)
  | some s => parseFloat s

/-- A tunable that is a `time.Duration`: the default when the variable is not set, otherwise
the value and the error of `time.ParseDuration`. -/
def durationTunable (env : Env) (parseDuration : GoString → Int × Option GoString)
    (key : GoString) (default : Int) : Int × Option GoString :=
  match env key with
  | none => (default, none)
  | some s => parseDuration s

/-- The function `parseEnvConfigs`: the globals afterwards and the error (`none` for nil).
`parseFloat` is `strconv.ParseFloat(s, 64)` and `parseDuration` is `time.ParseDuration`, each
giving its value and its error; `g` holds the globals before the call. -/
def parseEnvConfigs (env : Env) (parseFloat : GoString → Float64 × Option GoString)
    (parseDuration : GoString → Int × Option GoString) (g : EnvConfigs) :
    EnvConfigs × Option GoString :=
  let g := { g with authConf :=
    { url := env.Getenv envClApiURL, wsUrl := env.Getenv envClApiWSSURL,
      OauthConsumerKey := env.Getenv envClApiOauthConsumerKey,
      OauthConsumerSecret := env.Getenv envClApiOauthConsumerSec } }
  if g.authConf.url = [] ∨ g.authConf.wsUrl = [] ∨ g.authConf.OauthConsumerKey = [] ∨
      g.authConf.OauthConsumerSecret = [] then
    (g, some (str "EXIT FATAL: parsing environment variables"))
  else
    let g := { g with navajoAuthConf :=
      { host := env.Getenv envNavajoHost, user := env.Getenv envNavajoUser,
        pass := env.Getenv envNavajoPw } }
    if g.navajoAuthConf.host = [] ∨ g.navajoAuthConf.pass = [] then
      (g, some (str "EXIT FATAL: parsing environment variables"))
    else
      let mxhd :=
        floatTunable env parseFloat envMaxHugeDifferentialSetting
          DefaultmaxHugeDifferentialSetting
      let g := { g with maxHugeDifferentialSetting := mxhd.1 }
      if mxhd.2.isSome then
        (g, some (sprintf (str "EXIT FATAL: unable to set %s\n") [envMaxHugeDifferentialSetting]))
      else
        let mxjsonerrors :=
          floatTunable env parseFloat envMaxJsonParseErrors DefaultmaxJSONParseErrors
        let g := { g with maxJSONParseErrors := mxjsonerrors.1 }
        if mxjsonerrors.2.isSome then
          (g, some (sprintf (str "EXIT FATAL: unable to set %s\n") [envMaxJsonParseErrors]))
        else
          let njRebuildTimer :=
            durationTunable env parseDuration envNavajoIdMapRebuildTimer
              DefaultNavajoIdMapRebuildTimer
          let g := { g with navajoRebuildTimer := njRebuildTimer.1 }
          if njRebuildTimer.2.isSome then
            (g, some (sprintf (str "EXIT FATAL: unable to set %s\n")
              [envNavajoIdMapRebuildTimer]))
          else
            let wsTimeout :=
              durationTunable env parseDuration envWebsocketTimeout DefaultWebsocketTimeout
            let g := { g with websocketTimeout := wsTimeout.1 }
            if wsTimeout.2.isSome then
              (g, some (sprintf (str "EXIT FATAL: unable to set %s\n") [envWebsocketTimeout]))
            else if (env envGoogleApplicationCredentials).isNone then
              (g, some (sprintf
                (str ("ERROR: Required GCP service account file path not found in " ++
                  "env var: %s\n")) [envGoogleApplicationCredentials]))
            else
              let g := { g with gcpProjectId := env.Getenv envGoogleProjectId }
              if g.gcpProjectId = [] then
                (g, some (sprintf
                  (str "ERROR: Required GCP Project ID not found in env var: %s\n")
                  [envGoogleProjectId]))
              else
                let g :=
                  match env envDebugLogLevel with
                  | none => { g with logLevel := LogLevel.InfoLevel }
                  | some enableDebug =>
                    if enableDebug = str "true" then { g with logLevel := LogLevel.DebugLevel }
                    else g
                (g, none)

/-- The environment that `TestParseEnvConfigs` sets, with nothing else set. -/
def testEnvVars : Env := fun key =>
  List.lookup key
    [(str "CLAPI_HOST", str "http://127.0.0.1/v2/open_stream/stream_name"),
      (str "CLAPI_WSHOST", str "ws://127.0.0.1/v2/open_stream/stream_name"),
      (str "CLAPI_KEY", str "oauthKey"),
      (str "CLAPI_SEC", str "oauthSecret123"),
      (str "NAVAJO_URL", str "http://127.0.0.1:8029"),
      (str "NAVAJO_USER", str ""),
      (str "NAVAJO_PW", str "test"),
      (str "GOOGLE_APPLICATION_CREDENTIALS", str "firestream.json"),
      (str "GOOGLE_PROJECT_ID", str "test-project")]

/-! ## The specification's wire names -/

/-- The wire name of a field: the last segment of the dot-separated path under which the report
carries it. -/
def wireName (path : GoString) : GoString := (stringsSplit path (charByte '.')).getLastD []

/-! ## The specification's geo-tag entries -/

/-- The entries under `data.location.geoTags` of a report: one for every tag source and every
tag name under it, with the metadata of the tag, in the order in which `reportGeoTags` visits
them. -/
def geoTagEntries (r : TransponderReportDataStreamV1) : List (GoString × GoString × Json) :=
  (r.json.Path (str "data.location.geoTags")).ChildrenMap.flatMap
    (fun sc => sc.2.ChildrenMap.map (fun tm => (sc.1, tm.1, tm.2)))

/-- The geo tag of an entry that has a numeric `geoTagId` and a numeric `timestamp`: the source,
the name, the identifier and the converted timestamp of the entry. -/
def geoTagOfEntry (e : GoString × GoString × Json) : Option GeoTagV1 :=
  match (e.2.2.Path (str "geoTagId")).asFloat64, (e.2.2.Path (str "timestamp")).asFloat64 with
  | some tagId, some time => some ⟨tagId, e.2.1, e.1, (nanoEpochTimeObject time).1⟩
  | _, _ => none

/-! # Properties -/

/-! ## The order of `sort.Strings` -/

theorem strLess_irrefl (a : GoString) : strLess a a = false := by
  induction a with
  | nil => rfl
  | cons x xs ih => simp [strLess, ih]

theorem StrLe_total (a b : GoString) : StrLe a b ∨ StrLe b a := by
  unfold StrLe
  induction a generalizing b with
  | nil => cases b <;> simp [strLess]
  | cons x xs ih =>
    cases b with
    | nil => simp [strLess]
    | cons y ys =>
      rcases lt_trichotomy x y with h | h | h
      · left; simp [strLess, h, not_lt_of_gt h]
      · subst h; simpa [strLess] using ih ys
      · right; simp [strLess, h, not_lt_of_gt h]

theorem StrLe_antisymm (a b : GoString) (h1 : StrLe a b) (h2 : StrLe b a) : a = b := by
  unfold StrLe at h1 h2
  induction a generalizing b with
  | nil => cases b with
    | nil => rfl
    | cons y ys => simp [strLess] at h2
  | cons x xs ih =>
    cases b with
    | nil => simp [strLess] at h1
    | cons y ys =>
      rcases lt_trichotomy x y with h | h | h
      · simp [strLess, h] at h2
      · subst h
        simp [strLess] at h1 h2
        rw [ih ys h1 h2]
      · simp [strLess, h] at h1

theorem StrLe_trans (a b c : GoString) (h1 : StrLe a b) (h2 : StrLe b c) : StrLe a c := by
  unfold StrLe at *
  induction a generalizing b c with
  | nil => cases c <;> simp [strLess]
  | cons x xs ih =>
    cases b with
    | nil => simp [strLess] at h1
    | cons y ys =>
      cases c with
      | nil => simp [strLess] at h2
      | cons z zs =>
        rcases lt_trichotomy x y with hxy | hxy | hxy
        · rcases lt_trichotomy y z with hyz | hyz | hyz
          · have hxz : x < z := lt_trans hxy hyz
            simp [strLess, hxz, not_lt_of_gt hxz]
          · subst hyz; simp [strLess, hxy, not_lt_of_gt hxy]
          · simp [strLess, hyz] at h2
        · subst hxy
          rcases lt_trichotomy x z with hyz | hyz | hyz
          · simp [strLess, hyz, not_lt_of_gt hyz]
          · subst hyz
            simp [strLess] at h1 h2 ⊢
            exact ih ys zs h1 h2
          · simp [strLess, hyz] at h2
        · simp [strLess, hxy] at h1

instance : IsTotal GoString StrLe := ⟨StrLe_total⟩
instance : IsTrans GoString StrLe := ⟨StrLe_trans⟩
instance : IsAntisymm GoString StrLe := ⟨StrLe_antisymm⟩

/-- Sorting does not depend on the order in which the keys were collected. -/
theorem sortStrings_perm {l₁ l₂ : List GoString} (h : l₁.Perm l₂) :
    sortStrings l₁ = sortStrings l₂ := by
  unfold sortStrings
  apply List.eq_of_perm_of_sorted (r := StrLe)
  · exact ((List.perm_insertionSort StrLe l₁).trans h).trans (List.perm_insertionSort StrLe l₂).symm
  · exact List.sorted_insertionSort StrLe l₁
  · exact List.sorted_insertionSort StrLe l₂

theorem sortStrings_sorted (l : List GoString) : (sortStrings l).Sorted StrLe :=
  List.sorted_insertionSort StrLe l

theorem sortStrings_perm_self (l : List GoString) : (sortStrings l).Perm l :=
  List.perm_insertionSort StrLe l

/-! ## Maps -/

theorem GoMap.get_eq_some_iff {m : GoMap} (hwf : m.WF) (k v : GoString) :
    m.get k = some v ↔ (k, v) ∈ m := by
  unfold GoMap.get
  induction m with
  | nil => simp
  | cons p m ih =>
    obtain ⟨k1, v1⟩ := p
    have hwf1 : GoMap.WF m := (List.nodup_cons.1 hwf).2
    have hk1 : k1 ∉ m.map Prod.fst := (List.nodup_cons.1 hwf).1
    by_cases hk : k = k1
    · subst hk
      simp only [List.lookup_cons, beq_self_eq_true, Option.some.injEq, List.mem_cons,
        Prod.mk.injEq, true_and]
      constructor
      · intro h; exact Or.inl h.symm
      · rintro (h | h)
        · exact h.symm
        · exact absurd (List.mem_map_of_mem Prod.fst h) hk1
    · have hb : (k == k1) = false := by simpa using hk
      simp [List.lookup_cons, hb, ih hwf1, hk]

theorem GoMap.WF_perm {m m1 : GoMap} (h : m.Perm m1) (hwf : m1.WF) : m.WF :=
  ((h.map Prod.fst).nodup_iff).2 hwf

/-- A lookup does not depend on the order of the entries. -/
theorem GoMap.get_perm {m m1 : GoMap} (h : m.Perm m1) (hwf : m1.WF) (k : GoString) :
    m.get k = m1.get k := by
  apply Option.ext
  intro v
  simp only [Option.mem_def]
  rw [GoMap.get_eq_some_iff (GoMap.WF_perm h hwf), GoMap.get_eq_some_iff hwf]
  exact h.mem_iff

theorem GoMap.index_perm {m m1 : GoMap} (h : m.Perm m1) (hwf : m1.WF) (k : GoString) :
    m.index k = m1.index k := by
  unfold GoMap.index; rw [GoMap.get_perm h hwf]

/-! ## Numbers -/

theorem roundHalfEven_of_nat (n e : Nat) : roundHalfEven (n * 2 ^ e) e = n := by
  have hpos : 0 < 2 ^ e := Nat.two_pow_pos e
  simp [roundHalfEven, Nat.mul_div_cancel _ hpos, hpos]

/-- An integer-valued non-negative float is printed as the decimal digits of its value. -/
theorem fmtFloat0_of_isNat (f : Float64) (n : Nat) (h : f.IsNat n) : fmtFloat0 f = decimal n := by
  obtain ⟨hneg, hm⟩ := h
  simp [fmtFloat0, hneg, hm, roundHalfEven_of_nat]

/-! ## String literals -/

theorem str_append (a b : String) : str (a ++ b) = str a ++ str b := by
  simp [str, String.toList, List.flatMap_append]

/-! ## websocket.go: the query string -/

theorem writeParams_congr {m m1 : GoMap} (h : ∀ k, m.index k = m1.index k) (len : Nat)
    (ks : List GoString) (i : Nat) (b : GoString) :
    writeParams m len ks i b = writeParams m1 len ks i b := by
  induction ks generalizing i b with
  | nil => rfl
  | cons k ks ih => simp only [writeParams, h, ih]

/-- The query string and the error of `params` do not depend on the order in which the map of
parameters is visited. -/
theorem paramsOfMap_perm {m m1 : GoMap} (h : m.Perm m1) (hwf : m1.WF) :
    (paramsOfMap m).1 = (paramsOfMap m1).1 ∧ (paramsOfMap m).2.2 = (paramsOfMap m1).2.2 := by
  have hlen : m.length = m1.length := h.length_eq
  have hkeys : sortStrings m.keys = sortStrings m1.keys := sortStrings_perm (h.map Prod.fst)
  have hw := writeParams_congr (GoMap.index_perm h hwf)
  unfold paramsOfMap
  simp only [hlen, hkeys, hw]
  split_ifs <;> simp

theorem paramKeyMap_WF (nr : NewWebsocketRequest) : nr.paramKeyMap.WF := by
  obtain ⟨p, r, c⟩ := nr
  generalize hc : fmtFloat0 c = v
  have hne : str "keepAlive" ≠ str "checkpoint" := by decide
  cases p <;> cases r <;>
    simp [NewWebsocketRequest.paramKeyMap, GoMap.WF, GoMap.set, hc, hne]

theorem params_value (nr : NewWebsocketRequest) :
    (paramsOfMap nr.paramKeyMap).2.2 = none ∧
    (paramsOfMap nr.paramKeyMap).1 =
      (match nr.passiveKeepAlive, nr.resumeCheckpoint with
        | false, false => str ""
        | true, false => str "?keepAlive=passive"
        | false, true => str "?checkpoint=" ++ fmtFloat0 nr.checkpointToResume
        | true, true =>
          str "?checkpoint=" ++ fmtFloat0 nr.checkpointToResume ++ str "&keepAlive=passive") := by
  obtain ⟨p, r, c⟩ := nr
  generalize hc : fmtFloat0 c = v
  have hne : str "keepAlive" ≠ str "checkpoint" := by decide
  have hne1 : str "checkpoint" ≠ str "keepAlive" := by decide
  have hs : sortStrings [str "keepAlive", str "checkpoint"] = [str "checkpoint", str "keepAlive"] := by
    decide
  cases p <;> cases r
  · constructor <;> rfl
  · constructor
    · rfl
    · simp [NewWebsocketRequest.paramKeyMap, hc, paramsOfMap, GoMap.set, GoMap.keys, sortStrings,
        writeParams, GoMap.index, GoMap.get]
      simp only [← List.append_assoc, ← str_append, String.reduceAppend]
  · constructor <;> rfl
  · constructor
    · simp [NewWebsocketRequest.paramKeyMap, hc, paramsOfMap, GoMap.set, hne]
    · have hb : (str "checkpoint" == str "keepAlive") = false := by decide
      simp [NewWebsocketRequest.paramKeyMap, hc, paramsOfMap, GoMap.set, GoMap.keys, hs,
        writeParams, GoMap.index, GoMap.get, hne, hne1, List.lookup_cons, hb]
      simp only [← List.append_assoc, ← str_append, String.reduceAppend]

/-- Claim C1. For every dial request and every order in which the map of optional parameters is
visited, `params` returns a nil error and the query string with its keys in ascending order:
empty without options, `?keepAlive=passive`, `?checkpoint=<c>` or
`?checkpoint=<c>&keepAlive=passive`, where `<c>` is the checkpoint printed without fractional
part, which for a non-negative integer-valued checkpoint is its decimal representation. -/
theorem params_sorted_query (nr : NewWebsocketRequest) (m : GoMap)
    (hm : m.Perm nr.paramKeyMap) :
    (paramsOfMap m).2.2 = none ∧
    (paramsOfMap m).1 =
      (match nr.passiveKeepAlive, nr.resumeCheckpoint with
        | false, false => str ""
        | true, false => str "?keepAlive=passive"
        | false, true => str "?checkpoint=" ++ fmtFloat0 nr.checkpointToResume
        | true, true =>
          str "?checkpoint=" ++ fmtFloat0 nr.checkpointToResume ++ str "&keepAlive=passive") ∧
    (∀ n : Nat, nr.checkpointToResume.IsNat n → fmtFloat0 nr.checkpointToResume = decimal n) := by
  obtain ⟨h1, h2⟩ := paramsOfMap_perm hm (paramKeyMap_WF nr)
  obtain ⟨h3, h4⟩ := params_value nr
  exact ⟨h2.trans h3, h1.trans h4, fun n hn => fmtFloat0_of_isNat _ n hn⟩

/-- Claim C1 at the request of the repository's test, with the map visited in the order opposite
to the sorted one. -/
theorem params_sorted_query_witness :
    (paramsOfMap [(str "keepAlive", str "passive"), (str "checkpoint", str "1700")]).2.2 = none ∧
    (paramsOfMap [(str "keepAlive", str "passive"), (str "checkpoint", str "1700")]).1 =
      str "?checkpoint=1700&keepAlive=passive" ∧
    (NewWebsocketRequest.params ⟨true, true, Float64.ofNat 1700⟩).1 =
      str "?checkpoint=1700&keepAlive=passive" := by
  have h := params_sorted_query ⟨true, true, Float64.ofNat 1700⟩
    [(str "keepAlive", str "passive"), (str "checkpoint", str "1700")] (by decide)
  exact ⟨h.1, by decide, by decide⟩

/-! ## websocket.go: the ingress queue -/

theorem Path_type (pj : Json) :
    pj.Path (str "type") = (pj.member (str "type")).getD .null := by
  have h : stringsSplit (str "type") (charByte '.') = [str "type"] := by decide
  unfold Json.Path
  rw [h]
  cases hm : pj.member (str "type") <;> simp [Json.Search, hm]

theorem Path_dataType (pj : Json) :
    pj.Path (str "dataType") = (pj.member (str "dataType")).getD .null := by
  have h : stringsSplit (str "dataType") (charByte '.') = [str "dataType"] := by decide
  unfold Json.Path
  rw [h]
  cases hm : pj.member (str "dataType") <;> simp [Json.Search, hm]

theorem asString_getD_eq_some (o : Option Json) (t : GoString) :
    (o.getD .null).asString = some t ↔ o = some (.str t) := by
  cases o with
  | none => simp [Json.asString]
  | some j => cases j <;> simp [Json.asString]

/-- Claim C2. For every parsed report and every state of the ingress queue,
`processStreamingJSON` returns true and appends exactly one envelope, carrying the report's
`type`, its `dataType` and the report itself, exactly when the report is an object whose members
`type` and `dataType` are both strings; otherwise it returns false and the queue is unchanged. -/
theorem processStreamingJSON_enqueues (pj : Json) (q : List ReportDataStreamV1) :
    ((processStreamingJSON pj q).1 = true ↔
      (∃ t, pj.member (str "type") = some (.str t)) ∧
        (∃ d, pj.member (str "dataType") = some (.str d))) ∧
    (∀ t d, pj.member (str "type") = some (.str t) →
      pj.member (str "dataType") = some (.str d) →
      processStreamingJSON pj q = (true, q ++ [⟨t, d, pj⟩])) ∧
    ((processStreamingJSON pj q).1 = false → processStreamingJSON pj q = (false, q)) := by
  unfold processStreamingJSON
  rw [Path_type, Path_dataType]
  cases ht : ((pj.member (str "type")).getD .null).asString with
  | none =>
    have h1 : ¬ ∃ t, pj.member (str "type") = some (.str t) := by
      rintro ⟨t, h⟩
      rw [(asString_getD_eq_some _ t).2 h] at ht
      exact absurd ht (by simp)
    refine ⟨?_, ?_, ?_⟩
    · simp [h1]
    · intro t d h _
      exact absurd ⟨t, h⟩ h1
    · simp
  | some t =>
    have h1 := (asString_getD_eq_some _ t).1 ht
    cases hd : ((pj.member (str "dataType")).getD .null).asString with
    | none =>
      have h2 : ¬ ∃ d, pj.member (str "dataType") = some (.str d) := by
        rintro ⟨d, h⟩
        rw [(asString_getD_eq_some _ d).2 h] at hd
        exact absurd hd (by simp)
      refine ⟨?_, ?_, ?_⟩
      · simp [h2]
      · intro t1 d _ h
        exact absurd ⟨d, h⟩ h2
      · simp
    | some d =>
      have h2 := (asString_getD_eq_some _ d).1 hd
      refine ⟨?_, ?_, ?_⟩
      · simp [h1, h2]
      · intro t1 d1 ht1 hd1
        rw [h1] at ht1
        rw [h2] at hd1
        simp only [Option.some.injEq, Json.str.injEq] at ht1 hd1
        subst ht1; subst hd1; rfl
      · simp

/-- Claim C2 at the report of the repository's test: one envelope is appended. -/
theorem processStreamingJSON_enqueues_witness :
    processStreamingJSON
        (.obj [(str "type", .str (str "REPORT_DATA")), (str "dataType", .str (str "status"))]) [] =
      (true, [⟨str "REPORT_DATA", str "status",
        .obj [(str "type", .str (str "REPORT_DATA")), (str "dataType", .str (str "status"))]⟩]) :=
  (processStreamingJSON_enqueues
    (.obj [(str "type", .str (str "REPORT_DATA")), (str "dataType", .str (str "status"))]) []).2.1
    (str "REPORT_DATA") (str "status") rfl rfl

/-! ## oauth.go: percent-encoding -/

set_option maxRecDepth 100000 in
theorem shouldEscape_iff : ∀ b : Byte, shouldEscape b = false ↔ b ∈ unreservedChars := by
  decide

set_option maxRecDepth 100000 in
theorem encode_byte_eq : ∀ b : Byte,
    (if shouldEscape b then str "%" ++ fmtHex02 b else [b]) = percentEncodeByte b := by
  decide

theorem PercentEncode_foldl (s buf : GoString) :
    s.foldl (fun buf b => if shouldEscape b then buf ++ (str "%" ++ fmtHex02 b) else buf ++ [b])
      buf = buf ++ s.flatMap percentEncodeByte := by
  induction s generalizing buf with
  | nil => simp
  | cons b s ih =>
    rw [List.foldl_cons, ih, List.flatMap_cons, ← encode_byte_eq b]
    by_cases h : shouldEscape b = true <;> simp [h]

theorem PercentEncode_eq (s : GoString) : PercentEncode s = s.flatMap percentEncodeByte := by
  unfold PercentEncode
  rw [PercentEncode_foldl]
  rfl

/-- A string of unreserved characters is its own encoding. -/
theorem PercentEncode_unreserved (s : GoString) (h : ∀ b ∈ s, b ∈ unreservedChars) :
    PercentEncode s = s := by
  rw [PercentEncode_eq]
  induction s with
  | nil => rfl
  | cons b s ih =>
    have hb : b ∈ unreservedChars := h b (List.mem_cons_self _ _)
    rw [List.flatMap_cons, ih (fun c hc => h c (List.mem_cons_of_mem _ hc))]
    simp [percentEncodeByte, hb]

/-- Claim C3. For every byte string, `PercentEncode` is the concatenation, byte by byte in
order, of the byte itself when it is unreserved and of `%` with the two uppercase hexadecimal
digits of its value otherwise; a string of unreserved characters only is returned unchanged. -/
theorem PercentEncode_bytewise (s : GoString) :
    PercentEncode s = s.flatMap percentEncodeByte ∧
    ((∀ b ∈ s, b ∈ unreservedChars) → PercentEncode s = s) :=
  ⟨PercentEncode_eq s, PercentEncode_unreserved s⟩

set_option maxRecDepth 100000 in
/-- Claim C3 on a string of unreserved characters, which is returned unchanged. -/
theorem PercentEncode_bytewise_witness :
    PercentEncode (str "oauth_nonce-1.0~") = str "oauth_nonce-1.0~" :=
  (PercentEncode_bytewise (str "oauth_nonce-1.0~")).2 (by decide)

theorem percent_not_unreserved : charByte '%' ∉ unreservedChars := by decide

theorem upperHexDigit_injective :
    ∀ i j : Fin 16, upperHexDigit i.val = upperHexDigit j.val → i = j := by decide

theorem hex_pair_injective (a b : Byte)
    (h1 : upperHexDigit (a.val / 16) = upperHexDigit (b.val / 16))
    (h2 : upperHexDigit (a.val % 16) = upperHexDigit (b.val % 16)) : a = b := by
  have ha : a.val / 16 < 16 := by omega
  have hb : b.val / 16 < 16 := by omega
  have ha1 : a.val % 16 < 16 := Nat.mod_lt _ (by decide)
  have hb1 : b.val % 16 < 16 := Nat.mod_lt _ (by decide)
  have e1 := upperHexDigit_injective ⟨a.val / 16, ha⟩ ⟨b.val / 16, hb⟩ h1
  have e2 := upperHexDigit_injective ⟨a.val % 16, ha1⟩ ⟨b.val % 16, hb1⟩ h2
  simp only [Fin.mk.injEq] at e1 e2
  apply Fin.ext
  omega

/-- The code of a byte is never a proper beginning of the code of another byte. -/
theorem percentEncodeByte_append_inj (a b : Byte) (x y : GoString)
    (h : percentEncodeByte a ++ x = percentEncodeByte b ++ y) : a = b ∧ x = y := by
  unfold percentEncodeByte at h
  by_cases ha : a ∈ unreservedChars <;> by_cases hb : b ∈ unreservedChars
  · simp only [ha, hb, if_true, List.singleton_append, List.cons.injEq] at h
    exact h
  · simp only [ha, hb, if_true, if_false, List.singleton_append, List.cons_append,
      List.cons.injEq] at h
    exact absurd (h.1 ▸ ha) percent_not_unreserved
  · simp only [ha, hb, if_true, if_false, List.singleton_append, List.cons_append,
      List.cons.injEq] at h
    exact absurd (h.1 ▸ hb) percent_not_unreserved
  · simp only [ha, hb, if_false, List.cons_append, List.cons.injEq, true_and,
      List.nil_append] at h
    exact ⟨hex_pair_injective a b h.1 h.2.1, h.2.2⟩

theorem PercentEncode_injective (s t : GoString) (h : PercentEncode s = PercentEncode t) :
    s = t := by
  rw [PercentEncode_eq, PercentEncode_eq] at h
  induction s generalizing t with
  | nil =>
    cases t with
    | nil => rfl
    | cons b t =>
      exfalso
      simp only [List.flatMap_nil, List.flatMap_cons] at h
      unfold percentEncodeByte at h
      split_ifs at h <;> simp at h
  | cons a s ih =>
    cases t with
    | nil =>
      exfalso
      simp only [List.flatMap_nil, List.flatMap_cons] at h
      unfold percentEncodeByte at h
      split_ifs at h <;> simp at h
    | cons b t =>
      simp only [List.flatMap_cons] at h
      obtain ⟨hab, hst⟩ := percentEncodeByte_append_inj a b _ _ h
      rw [hab, ih t hst]

/-! ## oauth.go: parameter maps -/

theorem GoMap.set_of_not_mem (m : GoMap) (k v : GoString) (h : k ∉ m.keys) :
    m.set k v = m ++ [(k, v)] := by
  induction m with
  | nil => rfl
  | cons p m ih =>
    obtain ⟨k1, v1⟩ := p
    simp only [GoMap.keys, List.map_cons, List.mem_cons, not_or] at h
    have hne : ¬ k1 = k := fun e => h.1 e.symm
    simp only [GoMap.set, hne, if_false, List.cons_append, List.cons.injEq, true_and]
    exact ih h.2

/-- The pair of a parameter after encoding. -/
theorem encodeParameters_foldl (l acc : GoMap)
    (h : GoMap.WF (acc ++ l.map (fun kv => (PercentEncode kv.1, PercentEncode kv.2)))) :
    l.foldl (fun encoded kv => encoded.set (PercentEncode kv.1) (PercentEncode kv.2)) acc =
      acc ++ l.map (fun kv => (PercentEncode kv.1, PercentEncode kv.2)) := by
  induction l generalizing acc with
  | nil => simp
  | cons p l ih =>
    have hk : PercentEncode p.1 ∉ acc.keys := by
      intro hmem
      unfold GoMap.WF at h
      simp only [List.map_append, List.map_cons] at h
      have := (List.nodup_append.1 h).2.2
      exact this hmem (List.mem_cons_self _ _)
    rw [List.foldl_cons, GoMap.set_of_not_mem _ _ _ hk, ih]
    · simp
    · simpa using h

theorem encoded_keys_nodup (m : GoMap) (hwf : m.WF) :
    GoMap.WF (m.map (fun kv => (PercentEncode kv.1, PercentEncode kv.2))) := by
  unfold GoMap.WF at *
  rw [List.map_map]
  have : (Prod.fst ∘ fun kv : GoString × GoString => (PercentEncode kv.1, PercentEncode kv.2)) =
      PercentEncode ∘ Prod.fst := rfl
  rw [this, ← List.map_map]
  exact List.Nodup.map (fun s t h => PercentEncode_injective s t h) hwf

/-- On a map, `encodeParameters` encodes every key and every value and merges no two entries. -/
theorem encodeParameters_eq (m : GoMap) (hwf : m.WF) :
    encodeParameters m = m.map (fun kv => (PercentEncode kv.1, PercentEncode kv.2)) := by
  unfold encodeParameters
  rw [encodeParameters_foldl m [] (by simpa using encoded_keys_nodup m hwf)]
  simp

theorem GoMap.map_index_keys (m : GoMap) (hwf : m.WF) :
    m.keys.map (fun k => (k, m.index k)) = m := by
  have h : ∀ k ∈ m.keys, (k, m.index k) ∈ m := by
    intro k hk
    obtain ⟨⟨k1, v⟩, hmem, rfl⟩ := List.mem_map.1 hk
    have := (GoMap.get_eq_some_iff hwf k1 v).2 hmem
    simp [GoMap.index, this, hmem]
  induction m with
  | nil => rfl
  | cons p m ih =>
    obtain ⟨k1, v1⟩ := p
    have hwf1 : GoMap.WF m := (List.nodup_cons.1 hwf).2
    have hk1 : k1 ∉ m.map Prod.fst := (List.nodup_cons.1 hwf).1
    simp only [GoMap.keys, List.map_cons, List.map_map, List.cons.injEq]
    constructor
    · simp [GoMap.index, GoMap.get]
    · have ih1 := ih hwf1 (fun k hk => by
        obtain ⟨⟨k2, v⟩, hmem, rfl⟩ := List.mem_map.1 hk
        have := (GoMap.get_eq_some_iff hwf1 k2 v).2 hmem
        simp [GoMap.index, this, hmem])
      conv_rhs => rw [← ih1]
      simp only [GoMap.keys, List.map_map]
      apply List.map_congr_left
      intro p hp
      have hne : p.1 ≠ k1 := fun e => hk1 (e ▸ List.mem_map_of_mem Prod.fst hp)
      have hb : (p.1 == k1) = false := by simpa using hne
      simp [GoMap.index, GoMap.get, List.lookup_cons, hb]

theorem exists_perm_of_perm_map {α β : Type} [DecidableEq α] (f : α → β) :
    ∀ (l1 : List β) (l : List α), l1.Perm (l.map f) → ∃ l2 : List α, l2.Perm l ∧ l2.map f = l1 := by
  intro l1
  induction l1 with
  | nil =>
    intro l h
    have : l = [] := by simpa using h.symm.eq_nil
    exact ⟨[], by simp [this], rfl⟩
  | cons b t ih =>
    intro l h
    have hb : b ∈ l.map f := h.subset (List.mem_cons_self _ _)
    obtain ⟨a, ha, rfl⟩ := List.mem_map.1 hb
    have hl : l.Perm (a :: l.erase a) := List.perm_cons_erase ha
    have ht : t.Perm ((l.erase a).map f) := by
      have h1 : (f a :: t).Perm (f a :: (l.erase a).map f) := h.trans (hl.map f)
      exact (List.perm_cons _).1 h1
    obtain ⟨t2, hp, hm⟩ := ih _ ht
    exact ⟨a :: t2, (hp.cons a).trans hl.symm, by simp [hm]⟩

/-- Strictly ascending byte order of strings. -/
theorem strLess_of_StrLe_of_ne {a b : GoString} (h : StrLe a b) (hne : a ≠ b) :
    strLess a b = true := by
  by_contra hc
  have h2 : StrLe b a := by unfold StrLe; simpa using hc
  exact hne (StrLe_antisymm a b h h2)

theorem sorted_strict_of_nodup {l : List GoString} (hs : l.Sorted StrLe) (hn : l.Nodup) :
    l.Sorted (fun a b => strLess a b = true) := by
  unfold List.Sorted at *
  have := hs.and hn
  exact this.imp (fun h => strLess_of_StrLe_of_ne h.1 h.2)

/-- The pairs of `sortParameters` do not depend on the order in which the map is visited. -/
theorem sortParameters_perm {m m1 : GoMap} (h : m.Perm m1) (hwf : m1.WF) (format : GoString) :
    sortParameters m format = sortParameters m1 format := by
  unfold sortParameters
  have hk : sortStrings m.keys = sortStrings m1.keys := sortStrings_perm (h.map Prod.fst)
  simp only [hk, GoMap.index_perm h hwf]

/-- The pairs of `sortParameters` are the entries of the map, formatted, in ascending order of
their keys. -/
theorem sortParameters_entries (m : GoMap) (hwf : m.WF) (format : GoString) :
    ∃ es : GoMap, es.Perm m ∧ (es.map Prod.fst).Sorted (fun a b => strLess a b = true) ∧
      sortParameters m format = es.map (fun kv => sprintf format [kv.1, kv.2]) := by
  refine ⟨(sortStrings m.keys).map (fun k => (k, m.index k)), ?_, ?_, ?_⟩
  · have h1 := (sortStrings_perm_self m.keys).map (fun k => (k, m.index k))
    rwa [GoMap.map_index_keys m hwf] at h1
  · have hk : ((sortStrings m.keys).map (fun k => (k, m.index k))).map Prod.fst =
        sortStrings m.keys := by
      rw [List.map_map]; exact List.map_id _
    rw [hk]
    exact sorted_strict_of_nodup (sortStrings_sorted _)
      ((sortStrings_perm_self m.keys).nodup_iff.2 hwf)
  · unfold sortParameters
    rw [List.map_map]; rfl

theorem encodeParameters_perm {m m1 : GoMap} (h : m.Perm m1) (hwf : m1.WF) :
    (encodeParameters m).Perm (encodeParameters m1) ∧ (encodeParameters m1).WF := by
  rw [encodeParameters_eq m (GoMap.WF_perm h hwf), encodeParameters_eq m1 hwf]
  exact ⟨h.map _, encoded_keys_nodup m1 hwf⟩

/-- The pairs built from the encoded map are the encoded entries of the map, formatted, in
ascending order of the encoded key. -/
theorem sortParameters_encoded (m : GoMap) (hwf : m.WF) (format : GoString) :
    ∃ es : GoMap, es.Perm m ∧
      (es.map (fun kv => PercentEncode kv.1)).Sorted (fun a b => strLess a b = true) ∧
      sortParameters (encodeParameters m) format =
        es.map (fun kv => sprintf format [PercentEncode kv.1, PercentEncode kv.2]) := by
  have hwfe := encoded_keys_nodup m hwf
  rw [encodeParameters_eq m hwf]
  obtain ⟨es1, hp1, hs1, he1⟩ := sortParameters_entries _ hwfe format
  obtain ⟨es, hp, hm⟩ := exists_perm_of_perm_map
    (fun kv : GoString × GoString => (PercentEncode kv.1, PercentEncode kv.2)) es1 m hp1
  refine ⟨es, hp, ?_, ?_⟩
  · rw [← hm, List.map_map] at hs1
    exact hs1
  · rw [he1, ← hm, List.map_map]; rfl

theorem sprintf_eq (a b : GoString) : sprintf (str "%s=%s") [a, b] = a ++ str "=" ++ b := by
  show a ++ (_ :: (b ++ [])) = _
  simp; rfl

theorem sprintf_quoted (a b : GoString) :
    sprintf (str "%s=\"%s\"") [a, b] = a ++ str "=\"" ++ b ++ str "\"" := by
  show a ++ (_ :: _ :: (b ++ [_])) = _
  simp; rfl

theorem sprintf_uri (a b c : GoString) :
    sprintf (str "%v://%v%v") [a, b, c] = a ++ str "://" ++ b ++ c := by
  show a ++ (_ :: _ :: _ :: (b ++ (c ++ []))) = _
  simp; rfl

set_option maxRecDepth 100000 in
/-- On every byte the byte-wise path of `strings.ToUpper` is the specification's `UPPERCASE`. -/
theorem upperByte_eq : ∀ b : Byte, upperByte b = uppercaseByte b := by
  decide

set_option maxRecDepth 100000 in
/-- On every byte the byte-wise path of `strings.ToLower` is the specification's `lowercase`. -/
theorem lowerByte_eq : ∀ b : Byte, lowerByte b = lowercaseByte b := by
  decide

theorem toUpper_eq (s : GoString) : toUpper s = uppercase s := by
  unfold toUpper uppercase
  exact List.map_congr_left (fun b _ => upperByte_eq b)

theorem toLower_eq (s : GoString) : toLower s = lowercase s := by
  unfold toLower lowercase
  exact List.map_congr_left (fun b _ => lowerByte_eq b)

/-- Claim C4. For every parameter map, `normalizedParameterString` is the pairs
`PercentEncode(k) + "=" + PercentEncode(v)`, one per entry, in ascending byte order of the
encoded key, joined with `&`; and for a request whose method, scheme and host are ASCII strings
`signatureBase` is the method in capital letters, the encoded base URI and the encoded parameter
string, joined with `&`. -/
theorem normalizedParameterString_sorted (req : Request) (params : GoMap) (hwf : params.WF) :
    (∃ es : GoMap, es.Perm params ∧
      (es.map (fun kv => PercentEncode kv.1)).Sorted (fun a b => strLess a b = true) ∧
      normalizedParameterString params =
        stringsJoin (es.map (fun kv => PercentEncode kv.1 ++ str "=" ++ PercentEncode kv.2))
          (str "&")) ∧
    (isASCII req.Method → isASCII req.URL.Scheme → isASCII req.URL.Host →
      signatureBase req params =
        uppercase req.Method ++ str "&" ++ PercentEncode (baseURI req) ++ str "&" ++
          PercentEncode (normalizedParameterString params)) := by
  constructor
  · obtain ⟨es, hp, hs, he⟩ := sortParameters_encoded params hwf (str "%s=%s")
    refine ⟨es, hp, hs, ?_⟩
    unfold normalizedParameterString
    rw [he]
    simp only [sprintf_eq]
  · intro _ _ _
    rw [← toUpper_eq]
    simp [signatureBase, stringsJoin, List.intercalate, List.intersperse]

set_option maxRecDepth 100000 in
/-- Claim C4 on the method `get` and a map of two parameters visited in descending order of
their keys. -/
theorem normalizedParameterString_sorted_witness :
    normalizedParameterString [(str "b", str "x y"), (str "a", str "1")] = str "a=1&b=x%20y" ∧
    signatureBase ⟨str "get", ⟨str "http", str "example.com", str "/ws"⟩⟩
        [(str "b", str "x y"), (str "a", str "1")] =
      str "GET&http%3A%2F%2Fexample.com%2Fws&a%3D1%26b%3Dx%2520y" :=
  ⟨by decide,
    ((normalizedParameterString_sorted ⟨str "get", ⟨str "http", str "example.com", str "/ws"⟩⟩
      [(str "b", str "x y"), (str "a", str "1")] (by decide)).2
        (by decide) (by decide) (by decide)).trans (by decide)⟩

/-- Claim C5 as stated fails: the key `a` is smaller than the key `{`, but the header lists the
pair of `{` first, because its encoding `%7B` is smaller than `a`. -/
theorem authHeaderValue_not_in_key_order :
    strLess (str "a") (str "\x7b") = true ∧
    authHeaderValue [(str "a", str "1"), (str "\x7b", str "2")] = str "OAuth %7B=\"2\", a=\"1\"" ∧
    authHeaderValue [(str "a", str "1"), (str "\x7b", str "2")] ≠
      authorizationPrefix ++ stringsJoin
        [PercentEncode (str "a") ++ str "=\"" ++ PercentEncode (str "1") ++ str "\"",
          PercentEncode (str "\x7b") ++ str "=\"" ++ PercentEncode (str "2") ++ str "\""]
        (str ", ") := by
  decide

/-- Claim C5, amended. For every OAuth parameter map, `authHeaderValue` is the prefix `OAuth `
followed by the pairs `PercentEncode(k) + "=\"" + PercentEncode(v) + "\""`, one per entry, in
ascending byte order of the encoded key, joined with `, `; when every key is made of unreserved
characters, as the `oauth_` names are, that is the ascending order of the keys themselves. -/
theorem authHeaderValue_sorted (oauthParams : GoMap) (hwf : oauthParams.WF) :
    ∃ es : GoMap, es.Perm oauthParams ∧
      (es.map (fun kv => PercentEncode kv.1)).Sorted (fun a b => strLess a b = true) ∧
      authHeaderValue oauthParams =
        str "OAuth " ++ stringsJoin
          (es.map (fun kv => PercentEncode kv.1 ++ str "=\"" ++ PercentEncode kv.2 ++ str "\""))
          (str ", ") ∧
      ((∀ kv ∈ oauthParams, ∀ b ∈ kv.1, b ∈ unreservedChars) →
        (es.map Prod.fst).Sorted (fun a b => strLess a b = true)) := by
  obtain ⟨es, hp, hs, he⟩ := sortParameters_encoded oauthParams hwf (str "%s=\"%s\"")
  refine ⟨es, hp, hs, ?_, ?_⟩
  · unfold authHeaderValue
    rw [he]
    simp only [sprintf_quoted]
    rfl
  · intro hu
    have hk : es.map (fun kv => PercentEncode kv.1) = es.map Prod.fst := by
      apply List.map_congr_left
      intro kv hkv
      exact PercentEncode_unreserved kv.1 (hu kv (hp.mem_iff.1 hkv))
    rw [← hk]
    exact hs

/-- Claim C5, amended, on the six parameters of a signed request. -/
theorem authHeaderValue_sorted_witness :
    ∃ es : GoMap,
      es.Perm [(str "oauth_version", str "1.0"), (str "oauth_nonce", str "n+1"),
        (str "oauth_consumer_key", str "key")] ∧
      (es.map (fun kv => PercentEncode kv.1)).Sorted (fun a b => strLess a b = true) ∧
      authHeaderValue [(str "oauth_version", str "1.0"), (str "oauth_nonce", str "n+1"),
          (str "oauth_consumer_key", str "key")] =
        str "OAuth " ++ stringsJoin
          (es.map (fun kv => PercentEncode kv.1 ++ str "=\"" ++ PercentEncode kv.2 ++ str "\""))
          (str ", ") ∧
      ((∀ kv ∈ [(str "oauth_version", str "1.0"), (str "oauth_nonce", str "n+1"),
          (str "oauth_consumer_key", str "key")], ∀ b ∈ kv.1, b ∈ unreservedChars) →
        (es.map Prod.fst).Sorted (fun a b => strLess a b = true)) :=
  authHeaderValue_sorted [(str "oauth_version", str "1.0"), (str "oauth_nonce", str "n+1"),
    (str "oauth_consumer_key", str "key")] (by decide)

/-- Claim C6. The header and the signed parameter string depend only on the set of key/value
pairs: for every parameter map and any two orders in which its entries are visited,
`authHeaderValue` gives the same header and `normalizedParameterString` the same string. -/
theorem header_independent_of_order (m1 m2 : GoMap) (hwf : m1.WF) (h : m2.Perm m1) :
    authHeaderValue m2 = authHeaderValue m1 ∧
    normalizedParameterString m2 = normalizedParameterString m1 := by
  obtain ⟨hp, hwfe⟩ := encodeParameters_perm h hwf
  unfold authHeaderValue normalizedParameterString
  rw [sortParameters_perm hp hwfe, sortParameters_perm hp hwfe]
  exact ⟨rfl, rfl⟩

/-- Claim C6 on two visiting orders of one parameter set with fixed timestamp and nonce. -/
theorem header_independent_of_order_witness :
    authHeaderValue [(str "oauth_nonce", str "abc"), (str "oauth_timestamp", str "1700000000"),
        (str "oauth_consumer_key", str "key")] =
      authHeaderValue [(str "oauth_consumer_key", str "key"), (str "oauth_nonce", str "abc"),
        (str "oauth_timestamp", str "1700000000")] ∧
    normalizedParameterString [(str "oauth_nonce", str "abc"),
        (str "oauth_timestamp", str "1700000000"), (str "oauth_consumer_key", str "key")] =
      normalizedParameterString [(str "oauth_consumer_key", str "key"), (str "oauth_nonce", str "abc"),
        (str "oauth_timestamp", str "1700000000")] :=
  header_independent_of_order _ _ (by decide) (by decide)

/-! ## oauth.go: the base URI -/

theorem toLower_append (a b : GoString) : toLower (a ++ b) = toLower a ++ toLower b := by
  simp [toLower]

set_option maxRecDepth 100000 in
theorem lowerByte_eq_colon : ∀ b : Byte, lowerByte b = charByte ':' → b = charByte ':' := by
  decide

theorem colon_not_mem_toLower (h : GoString) (hc : charByte ':' ∉ h) :
    charByte ':' ∉ toLower h := by
  intro hm
  obtain ⟨b, hb, hbe⟩ := List.mem_map.1 hm
  exact hc (lowerByte_eq_colon b hbe ▸ hb)

theorem splitAux_append (sep : Byte) (h rest cur : GoString) (hc : sep ∉ h) :
    splitAux sep (h ++ sep :: rest) cur = (cur.reverse ++ h) :: splitAux sep rest [] := by
  induction h generalizing cur with
  | nil => simp [splitAux]
  | cons b h ih =>
    simp only [List.mem_cons, not_or] at hc
    have hne : ¬ b = sep := fun e => hc.1 e.symm
    have e : splitAux sep (b :: h ++ sep :: rest) cur = splitAux sep (h ++ sep :: rest) (b :: cur) := by
      simp [splitAux, hne]
    rw [e, ih _ hc.2]
    simp

/-- Splitting `h:port` at the colon, for the two ports that are stripped. -/
theorem split_host_port (h port : GoString) (hc : charByte ':' ∉ h)
    (hp : stringsSplit port (charByte ':') = [port]) :
    stringsSplit (h ++ str ":" ++ port) (charByte ':') = [h, port] := by
  unfold stringsSplit at *
  have : h ++ str ":" ++ port = h ++ charByte ':' :: port := by
    rw [List.append_assoc]; rfl
  rw [this, splitAux_append _ _ _ _ hc, hp]
  simp

theorem baseURI_of_port (req : Request) (h port : GoString) (hc : charByte ':' ∉ h)
    (hl : toLower (str ":" ++ port) = str ":" ++ port)
    (hp : stringsSplit port (charByte ':') = [port])
    (hport : port = str "80" ∨ port = str "443")
    (hhost : req.URL.Host = h ++ str ":" ++ port) :
    baseURI req = toLower req.URL.Scheme ++ str "://" ++ toLower h ++ req.URL.escapedPath := by
  have hs : stringsSplit (toLower req.URL.Host) (charByte ':') = [toLower h, port] := by
    rw [hhost, List.append_assoc, toLower_append, hl, ← List.append_assoc]
    exact split_host_port _ _ (colon_not_mem_toLower h hc) hp
  unfold baseURI
  simp only [hs, sprintf_uri]
  simp [hport]

/-- Claim C7. For every request whose scheme and host are ASCII strings, whose scheme is http
and whose host is `h:80`, or whose scheme is https and whose host is `h:443`, with no colon in
`h`, `baseURI` is the scheme in small letters, `://`, `h` in small letters and the escaped
path: the port is stripped. -/
theorem baseURI_strips_default_port (req : Request) (h : GoString)
    (_hs : isASCII req.URL.Scheme) (_hh : isASCII req.URL.Host) (hc : charByte ':' ∉ h)
    (hreq : (lowercase req.URL.Scheme = str "http" ∧ req.URL.Host = h ++ str ":80") ∨
      (lowercase req.URL.Scheme = str "https" ∧ req.URL.Host = h ++ str ":443")) :
    baseURI req =
      lowercase req.URL.Scheme ++ str "://" ++ lowercase h ++ req.URL.escapedPath := by
  rw [← toLower_eq, ← toLower_eq]
  rcases hreq with ⟨_, hh⟩ | ⟨_, hh⟩
  · exact baseURI_of_port req h (str "80") hc (by decide) (by decide) (Or.inl rfl)
      (by rw [hh, List.append_assoc]; rfl)
  · exact baseURI_of_port req h (str "443") hc (by decide) (by decide) (Or.inr rfl)
      (by rw [hh, List.append_assoc]; rfl)

set_option maxRecDepth 100000 in
/-- Claim C7 on an https request to port 443. -/
theorem baseURI_strips_default_port_witness :
    baseURI ⟨str "GET", ⟨str "https", str "Api.Example.com:443", str "/v1/stream"⟩⟩ =
      str "https://api.example.com/v1/stream" :=
  (baseURI_strips_default_port
    ⟨str "GET", ⟨str "https", str "Api.Example.com:443", str "/v1/stream"⟩⟩
    (str "Api.Example.com") (by decide) (by decide) (by decide)
    (Or.inr ⟨by decide, by decide⟩)).trans (by decide)

/-! ## transponder_report_data.go: identifier resolution and the writer -/

theorem Json.Path_single (j : Json) (k : GoString)
    (h : stringsSplit k (charByte '.') = [k]) : j.Path k = (j.member k).getD .null := by
  unfold Json.Path
  rw [h]
  cases hm : j.member k <;> simp [Json.Search, hm]

theorem asFloat64_getD_eq_some (o : Option Json) (x : Float64) :
    (o.getD .null).asFloat64 = some x ↔ o = some (.num x) := by
  cases o with
  | none => simp [Json.asFloat64]
  | some j => cases j <;> simp [Json.asFloat64]

theorem GoMap.get_eq_none_iff (m : GoMap) (k : GoString) : m.get k = none ↔ k ∉ m.keys := by
  unfold GoMap.get GoMap.keys
  induction m with
  | nil => simp
  | cons p m ih =>
    obtain ⟨k1, v1⟩ := p
    by_cases hk : k = k1
    · subst hk; simp [List.lookup_cons]
    · have hb : (k == k1) = false := by simpa using hk
      simp [List.lookup_cons, hb, ih, hk]

theorem GoMap.mem_keys_iff (m : GoMap) (k : GoString) : k ∈ m.keys ↔ ∃ v, m.get k = some v := by
  rw [← not_iff_not, ← GoMap.get_eq_none_iff]
  cases m.get k <;> simp

/-- What `build` computes, in terms of the two members of the report and the two lookups. -/
theorem build_eq (r : TransponderReportDataStreamV1) (ids : NavajoAccountData) :
    r.build ids =
      match r.json.member (str "transponderId"), r.json.member (str "accountId") with
      | some (.num t), some (.num a) =>
        (match ids.clAccountIdMap.get (fmtFloat0 a), ids.clDeviceIdMap.get (fmtFloat0 t) with
          | some A, some D => ({ r with cwAccountId := A, cwDeviceWebId := D }, true)
          | _, _ => (r, false))
      | _, _ => (r, false) := by
  unfold TransponderReportDataStreamV1.build
  rw [Json.Path_single _ (str "transponderId") (by decide),
    Json.Path_single _ (str "accountId") (by decide)]
  cases ht : r.json.member (str "transponderId") with
  | none => simp [Json.asFloat64]
  | some jt =>
    cases ha : r.json.member (str "accountId") with
    | none => cases jt <;> simp [Json.asFloat64]
    | some ja =>
      cases jt <;> cases ja <;> simp [Json.asFloat64]
      rename_i t a
      unfold TransponderReportDataStreamV1.cartwheelMap
      cases ids.clAccountIdMap.get (fmtFloat0 a) <;>
        cases ids.clDeviceIdMap.get (fmtFloat0 t) <;> simp

/-- When `build` returns true. -/
theorem build_true_iff (r : TransponderReportDataStreamV1) (ids : NavajoAccountData) :
    (r.build ids).2 = true ↔
      ∃ t a, r.json.member (str "transponderId") = some (.num t) ∧
        r.json.member (str "accountId") = some (.num a) ∧
        fmtFloat0 a ∈ ids.clAccountIdMap.keys ∧ fmtFloat0 t ∈ ids.clDeviceIdMap.keys := by
  rw [build_eq]
  constructor
  · intro h
    split at h
    · rename_i t a ht ha
      split at h
      · rename_i A D hA hD
        exact ⟨t, a, ht, ha, (GoMap.mem_keys_iff _ _).2 ⟨A, hA⟩,
          (GoMap.mem_keys_iff _ _).2 ⟨D, hD⟩⟩
      · simp at h
    · simp at h
  · rintro ⟨t, a, ht, ha, hA, hD⟩
    obtain ⟨A, hA⟩ := (GoMap.mem_keys_iff _ _).1 hA
    obtain ⟨D, hD⟩ := (GoMap.mem_keys_iff _ _).1 hD
    simp [ht, ha, hA, hD]

/-- The two identifiers that a successful `build` stores in the envelope. -/
theorem build_fields (r : TransponderReportDataStreamV1) (ids : NavajoAccountData)
    (t a : Float64) (ht : r.json.member (str "transponderId") = some (.num t))
    (ha : r.json.member (str "accountId") = some (.num a)) (hb : (r.build ids).2 = true) :
    ids.clAccountIdMap.get (fmtFloat0 a) = some (r.build ids).1.cwAccountId ∧
      ids.clDeviceIdMap.get (fmtFloat0 t) = some (r.build ids).1.cwDeviceWebId := by
  revert hb
  rw [build_eq]
  simp only [ht, ha]
  cases hA : ids.clAccountIdMap.get (fmtFloat0 a) <;>
    cases hD : ids.clDeviceIdMap.get (fmtFloat0 t) <;> simp

/-- The writer drops an envelope that `build` rejects. -/
theorem writer_of_build_false (ids : NavajoAccountData) (r : TransponderReportDataStreamV1)
    (writes : List TransponderWrite) (h : (r.build ids).2 = false) :
    transponderReportWriterV1 ids r writes = writes := by
  unfold transponderReportWriterV1
  split
  · rfl
  · rename_i heq
    rw [heq] at h
    simp at h

/-- Claim C8. For every transponder envelope and every cache state, `build` returns true
exactly when `transponderId` and `accountId` are both numbers, the decimal rendering of the
account id is a key of the account map and that of the transponder id is a key of the device
map; on true, `cwAccountId` and `cwDeviceWebId` are the two mapped values; on false the writer
drops the report. -/
theorem build_resolves (r : TransponderReportDataStreamV1) (ids : NavajoAccountData)
    (writes : List TransponderWrite) :
    ((r.build ids).2 = true ↔
      ∃ t a, r.json.member (str "transponderId") = some (.num t) ∧
        r.json.member (str "accountId") = some (.num a) ∧
        fmtFloat0 a ∈ ids.clAccountIdMap.keys ∧ fmtFloat0 t ∈ ids.clDeviceIdMap.keys) ∧
    (∀ t a, r.json.member (str "transponderId") = some (.num t) →
      r.json.member (str "accountId") = some (.num a) → (r.build ids).2 = true →
      ids.clAccountIdMap.get (fmtFloat0 a) = some (r.build ids).1.cwAccountId ∧
        ids.clDeviceIdMap.get (fmtFloat0 t) = some (r.build ids).1.cwDeviceWebId) ∧
    ((r.build ids).2 = false → transponderReportWriterV1 ids r writes = writes) :=
  ⟨build_true_iff r ids, build_fields r ids, writer_of_build_false ids r writes⟩

/-- Claim C8 on the identifiers and the cache of the specification's first scenario. -/
theorem build_resolves_witness :
    GoMap.get [(str "100", str "A1")] (fmtFloat0 (Float64.ofNat 100)) =
        some (TransponderReportDataStreamV1.build
          ⟨str "REPORT_DATA", str "status", [], [],
            .obj [(str "transponderId", .num (Float64.ofNat 9000)),
              (str "accountId", .num (Float64.ofNat 100))]⟩
          ⟨[(str "100", str "A1")], [(str "9000", str "D9")], 1, 0⟩).1.cwAccountId ∧
      GoMap.get [(str "9000", str "D9")] (fmtFloat0 (Float64.ofNat 9000)) =
        some (TransponderReportDataStreamV1.build
          ⟨str "REPORT_DATA", str "status", [], [],
            .obj [(str "transponderId", .num (Float64.ofNat 9000)),
              (str "accountId", .num (Float64.ofNat 100))]⟩
          ⟨[(str "100", str "A1")], [(str "9000", str "D9")], 1, 0⟩).1.cwDeviceWebId :=
  (build_resolves
    ⟨str "REPORT_DATA", str "status", [], [],
      .obj [(str "transponderId", .num (Float64.ofNat 9000)),
        (str "accountId", .num (Float64.ofNat 100))]⟩
    ⟨[(str "100", str "A1")], [(str "9000", str "D9")], 1, 0⟩ []).2.1
    (Float64.ofNat 9000) (Float64.ofNat 100) rfl rfl (by decide)

theorem firestoreReference_eq (r : TransponderReportDataStreamV1) :
    r.firestoreReference =
      str "account/" ++ r.cwAccountId ++ str "/vehicle/" ++ r.cwDeviceWebId ++
        str "/report_data" := by
  simp [TransponderReportDataStreamV1.firestoreReference, stringsJoin, List.intercalate,
    List.intersperse]
  rfl

/-- Claim C9. For every envelope taken from the transponder queue and every cache state, the
writer issues at most one write; a write is issued only when `build` succeeded, and it goes to
the collection `account/{A}/vehicle/{D}/report_data`, where `A` is the account mapping of the
report's `accountId` and `D` the device mapping of its `transponderId`; an unresolved report is
never written. -/
theorem writer_writes_resolved (ids : NavajoAccountData) (rds : TransponderReportDataStreamV1)
    (writes : List TransponderWrite) :
    (transponderReportWriterV1 ids rds writes = writes ∨
      ∃ w, transponderReportWriterV1 ids rds writes = writes ++ [w]) ∧
    (∀ w, transponderReportWriterV1 ids rds writes = writes ++ [w] →
      (rds.build ids).2 = true ∧
      ∃ t a A D, rds.json.member (str "transponderId") = some (.num t) ∧
        rds.json.member (str "accountId") = some (.num a) ∧
        ids.clAccountIdMap.get (fmtFloat0 a) = some A ∧
        ids.clDeviceIdMap.get (fmtFloat0 t) = some D ∧
        w.ref = str "account/" ++ A ++ str "/vehicle/" ++ D ++ str "/report_data") ∧
    ((rds.build ids).2 = false → transponderReportWriterV1 ids rds writes = writes) := by
  have key : ∀ w, transponderReportWriterV1 ids rds writes = writes ++ [w] →
      (rds.build ids).2 = true ∧ w.ref = (rds.build ids).1.firestoreReference := by
    intro w hw
    unfold transponderReportWriterV1 at hw
    split at hw
    · simp at hw
    · rename_i r1 heq
      split at hw
      · simp at hw
      · rename_i record hrec
        simp only [List.append_cancel_left_eq, List.cons.injEq, and_true] at hw
        rw [heq, ← hw]
        exact ⟨rfl, rfl⟩
  refine ⟨?_, ?_, writer_of_build_false ids rds writes⟩
  · unfold transponderReportWriterV1
    split
    · exact Or.inl rfl
    · split
      · exact Or.inl rfl
      · exact Or.inr ⟨_, rfl⟩
  · intro w hw
    obtain ⟨hb, href⟩ := key w hw
    refine ⟨hb, ?_⟩
    obtain ⟨t, a, ht, ha, _, _⟩ := (build_true_iff rds ids).1 hb
    obtain ⟨hA, hD⟩ := build_fields rds ids t a ht ha hb
    exact ⟨t, a, _, _, ht, ha, hA, hD, by rw [href, firestoreReference_eq]⟩

/-- Claim C9 on the specification's first scenario: with the cache `100 → A1`, `9000 → D9`
the report of account 100 and transponder 9000 is written under
`account/A1/vehicle/D9/report_data`. -/
theorem writer_writes_resolved_witness :
    transponderReportWriterV1 ⟨[(str "100", str "A1")], [(str "9000", str "D9")], 1, 0⟩
        ⟨str "REPORT_DATA", str "status", [], [],
          .obj [(str "type", .str (str "REPORT_DATA")), (str "dataType", .str (str "status")),
            (str "transponderId", .num (Float64.ofNat 9000)),
            (str "accountId", .num (Float64.ofNat 100))]⟩ [] =
      [⟨str "account/A1/vehicle/D9/report_data", { Type_ := str "status" }⟩] ∧
    (TransponderReportDataStreamV1.build
        ⟨str "REPORT_DATA", str "status", [], [],
          .obj [(str "type", .str (str "REPORT_DATA")), (str "dataType", .str (str "status")),
            (str "transponderId", .num (Float64.ofNat 9000)),
            (str "accountId", .num (Float64.ofNat 100))]⟩
        ⟨[(str "100", str "A1")], [(str "9000", str "D9")], 1, 0⟩).2 = true :=
  ⟨by decide,
    ((writer_writes_resolved ⟨[(str "100", str "A1")], [(str "9000", str "D9")], 1, 0⟩
      ⟨str "REPORT_DATA", str "status", [], [],
        .obj [(str "type", .str (str "REPORT_DATA")), (str "dataType", .str (str "status")),
          (str "transponderId", .num (Float64.ofNat 9000)),
          (str "accountId", .num (Float64.ofNat 100))]⟩ []).2.1
      ⟨str "account/A1/vehicle/D9/report_data", { Type_ := str "status" }⟩ (by decide)).1⟩

/-! ## navajo.go: a refresh that fails -/

theorem navajoHttpClient_error_iff (send : GoString → HttpResult) (conf : NavajoAuthConfig)
    (endpoint : GoString) :
    (∃ e, navajoHttpClient send conf endpoint = .error e) ↔
      (send (conf.host ++ endpoint ++ str "?limit=10000")).ok200 = false := by
  unfold navajoHttpClient
  cases h : send (conf.host ++ endpoint ++ str "?limit=10000") with
  | failed err => simp only [h]; simp [HttpResult.ok200]
  | response code body =>
    by_cases hc : code = 200 <;> simp only [h] <;> simp [HttpResult.ok200, hc]

theorem navajoHttpClient_ok (send : GoString → HttpResult) (conf : NavajoAuthConfig)
    (endpoint : GoString) (body : Json)
    (h : send (conf.host ++ endpoint ++ str "?limit=10000") = .response 200 body) :
    navajoHttpClient send conf endpoint = .ok body := by
  simp only [navajoHttpClient, h]
  simp

/-- Claim C10 as stated fails: the devices request succeeds with one active device, the accounts
request returns status 500; the refresh counts as failed, but the device map has changed. -/
theorem failed_refresh_changes_device_map :
    (HttpResult.response 500 Json.null).ok200 = false ∧
    (buildNavajoIdMaps
      (fun url =>
        if url = str "http://navajo/v1/devices?limit=10000" then
          .response 200 (.arr [.obj [
            (str "state", .obj [(str "state", .str (str "ACTIVE"))]),
            (str "webId", .num (Float64.ofNat 5)),
            (str "currentTransponder", .obj [(str "transponderId", .num (Float64.ofNat 9000))])]])
        else .response 500 .null)
      ⟨str "http://navajo", [], []⟩ ⟨[], [], 0, 0⟩) = ⟨[], [(str "9000", str "5")], 0, 1⟩ ∧
    (buildNavajoIdMaps
      (fun url =>
        if url = str "http://navajo/v1/devices?limit=10000" then
          .response 200 (.arr [.obj [
            (str "state", .obj [(str "state", .str (str "ACTIVE"))]),
            (str "webId", .num (Float64.ofNat 5)),
            (str "currentTransponder", .obj [(str "transponderId", .num (Float64.ofNat 9000))])]])
        else .response 500 .null)
      ⟨str "http://navajo", [], []⟩ ⟨[], [], 0, 0⟩).clDeviceIdMap ≠
        (⟨[], [], 0, 0⟩ : NavajoAccountData).clDeviceIdMap := by
  decide

/-- Claim C10, amended. For every refresh in which either of the two directory requests fails or
returns a status other than 200, the failure counter increases by exactly one, the success
counter is unchanged and the account map is exactly what it was; the device map is exactly what
it was when the devices request is the one that fails, and when the devices request succeeded
it holds the entries of that listing on top of those it had. -/
theorem failed_refresh (send : GoString → HttpResult) (conf : NavajoAuthConfig)
    (ids : NavajoAccountData)
    (hfail : (send (conf.host ++ str "/v1/devices" ++ str "?limit=10000")).ok200 = false ∨
      (send (conf.host ++ str "/v1/accounts" ++ str "?limit=10000")).ok200 = false) :
    (buildNavajoIdMaps send conf ids).failedUpdates = ids.failedUpdates + 1 ∧
    (buildNavajoIdMaps send conf ids).successfulUpdates = ids.successfulUpdates ∧
    (buildNavajoIdMaps send conf ids).clAccountIdMap = ids.clAccountIdMap ∧
    ((send (conf.host ++ str "/v1/devices" ++ str "?limit=10000")).ok200 = false →
      (buildNavajoIdMaps send conf ids).clDeviceIdMap = ids.clDeviceIdMap) ∧
    (∀ body, send (conf.host ++ str "/v1/devices" ++ str "?limit=10000") = .response 200 body →
      (buildNavajoIdMaps send conf ids).clDeviceIdMap =
        body.Children.foldl deviceEntry ids.clDeviceIdMap) := by
  cases hd : navajoHttpClient send conf (str "/v1/devices") with
  | error e =>
    have hd1 := (navajoHttpClient_error_iff send conf (str "/v1/devices")).1 ⟨e, hd⟩
    refine ⟨?_, ?_, ?_, ?_, ?_⟩ <;> simp only [buildNavajoIdMaps, hd]
    · intro _; trivial
    · intro body hb
      rw [hb] at hd1
      simp [HttpResult.ok200] at hd1
  | ok dJson =>
    have hd1 : (send (conf.host ++ str "/v1/devices" ++ str "?limit=10000")).ok200 = true := by
      by_contra hc
      obtain ⟨e, he⟩ := (navajoHttpClient_error_iff send conf (str "/v1/devices")).2
        (by simpa using hc)
      rw [he] at hd
      cases hd
    have ha1 : (send (conf.host ++ str "/v1/accounts" ++ str "?limit=10000")).ok200 = false := by
      rcases hfail with h | h
      · rw [h] at hd1; cases hd1
      · exact h
    obtain ⟨e, ha⟩ := (navajoHttpClient_error_iff send conf (str "/v1/accounts")).2 ha1
    refine ⟨?_, ?_, ?_, ?_, ?_⟩ <;> simp only [buildNavajoIdMaps, hd, ha]
    · intro h; rw [h] at hd1; cases hd1
    · intro body hb
      rw [navajoHttpClient_ok send conf _ body hb] at hd
      cases hd
      rfl

/-- Claim C10, amended, on a refresh whose devices request gets no response: the cache keeps
both maps. -/
theorem failed_refresh_witness :
    buildNavajoIdMaps (fun _ => .failed (str "connection refused")) ⟨str "http://navajo", [], []⟩
        ⟨[(str "100", str "A1")], [(str "9000", str "D9")], 3, 0⟩ =
      ⟨[(str "100", str "A1")], [(str "9000", str "D9")], 3, 1⟩ ∧
    (buildNavajoIdMaps (fun _ => .failed (str "connection refused"))
        ⟨str "http://navajo", [], []⟩
        ⟨[(str "100", str "A1")], [(str "9000", str "D9")], 3, 0⟩).failedUpdates = 0 + 1 :=
  ⟨by decide,
    (failed_refresh (fun _ => .failed (str "connection refused")) ⟨str "http://navajo", [], []⟩
      ⟨[(str "100", str "A1")], [(str "9000", str "D9")], 3, 0⟩ (Or.inl rfl)).1⟩

/-! ## navajo.go: what a refresh writes -/

theorem Json.Path_pair (j : Json) (p a b : GoString)
    (h : stringsSplit p (charByte '.') = [a, b]) :
    j.Path p = (((j.member a).getD .null).member b).getD .null := by
  unfold Json.Path
  rw [h]
  cases hm : j.member a with
  | none =>
    have : Json.null.member b = none := rfl
    simp [Json.Search, hm, this]
  | some v => cases hv : v.member b <;> simp [Json.Search, hm, hv]

/-- What the loop body over the devices listing does, in terms of the members of the element. -/
theorem deviceEntry_eq (m : GoMap) (child : Json) :
    deviceEntry m child =
      match ((child.member (str "state")).getD .null).member (str "state"),
        child.member (str "webId"),
        ((child.member (str "currentTransponder")).getD .null).member (str "transponderId") with
      | some (.str st), some (.num w), some (.num t) =>
        if st = str "ACTIVE" then m.set (fmtFloat0 t) (fmtFloat0 w) else m
      | _, _, _ => m := by
  unfold deviceEntry
  rw [Json.Path_pair _ (str "state.state") (str "state") (str "state") (by decide),
    Json.Path_single _ (str "webId") (by decide),
    Json.Path_pair _ (str "currentTransponder.transponderId") (str "currentTransponder")
      (str "transponderId") (by decide)]
  have hne : str "ACTIVE" ≠ str "DEACTIVATED" := by decide
  cases hs : ((child.member (str "state")).getD .null).member (str "state") with
  | none => simp [Json.asString]
  | some js =>
    cases hw : child.member (str "webId") with
    | none => cases js <;> simp [Json.asString, Json.asFloat64]
    | some jw =>
      cases ht : ((child.member (str "currentTransponder")).getD .null).member
          (str "transponderId") with
      | none => cases js <;> cases jw <;> simp [Json.asString, Json.asFloat64]
      | some jt =>
        cases js <;> cases jw <;> cases jt <;> simp [Json.asString, Json.asFloat64]
        rename_i st w t
        intro h1
        have h2 : ¬ st = str "ACTIVE" := fun h2 => hne (h2.symm.trans h1)
        simp [h2]

theorem refresh_device_map (send : GoString → HttpResult) (conf : NavajoAuthConfig)
    (ids : NavajoAccountData) (body : Json)
    (h : send (conf.host ++ str "/v1/devices" ++ str "?limit=10000") = .response 200 body) :
    (buildNavajoIdMaps send conf ids).clDeviceIdMap =
      body.Children.foldl deviceEntry ids.clDeviceIdMap := by
  have hd := navajoHttpClient_ok send conf (str "/v1/devices") body h
  cases ha : navajoHttpClient send conf (str "/v1/accounts") <;>
    simp only [buildNavajoIdMaps, hd, ha]

/-- Claim C11 as stated fails: an element whose member `state` is the string `ACTIVE`, with
numeric `webId` and `currentTransponder.transponderId`, adds nothing, because the refresh reads
the state at the path `state.state`; the same element with the state nested is admitted. -/
theorem device_with_plain_state_ignored :
    deviceEntry []
        (.obj [(str "state", .str (str "ACTIVE")), (str "webId", .num (Float64.ofNat 5)),
          (str "currentTransponder",
            .obj [(str "transponderId", .num (Float64.ofNat 9000))])]) = [] ∧
    deviceEntry []
        (.obj [(str "state", .obj [(str "state", .str (str "ACTIVE"))]),
          (str "webId", .num (Float64.ofNat 5)),
          (str "currentTransponder",
            .obj [(str "transponderId", .num (Float64.ofNat 9000))])]) =
      [(str "9000", str "5")] := by
  decide

/-- Claim C11, amended. In a refresh whose devices request returns status 200, the device map
becomes the old map with the loop body applied to every element of the listing in turn; an
element writes the entry `decimal(currentTransponder.transponderId) → decimal(webId)` exactly
when the string at its path `state.state` equals `ACTIVE` and its `webId` and
`currentTransponder.transponderId` are numbers; every other element, one whose state is
`DEACTIVATED` included, adds and changes nothing. -/
theorem device_entry_admits (send : GoString → HttpResult) (conf : NavajoAuthConfig)
    (ids : NavajoAccountData) (m : GoMap) (child : Json) :
    (∀ body, send (conf.host ++ str "/v1/devices" ++ str "?limit=10000") = .response 200 body →
      (buildNavajoIdMaps send conf ids).clDeviceIdMap =
        body.Children.foldl deviceEntry ids.clDeviceIdMap) ∧
    (∀ w t, child.Path (str "state.state") = .str (str "ACTIVE") →
      child.Path (str "webId") = .num w →
      child.Path (str "currentTransponder.transponderId") = .num t →
      deviceEntry m child = m.set (fmtFloat0 t) (fmtFloat0 w)) ∧
    ((¬ ∃ w t, child.Path (str "state.state") = .str (str "ACTIVE") ∧
        child.Path (str "webId") = .num w ∧
        child.Path (str "currentTransponder.transponderId") = .num t) →
      deviceEntry m child = m) := by
  have hne : str "ACTIVE" ≠ str "DEACTIVATED" := by decide
  refine ⟨fun body h => refresh_device_map send conf ids body h, ?_, ?_⟩
  · intro w t hs hw ht
    simp [deviceEntry, hs, hw, ht, Json.asString, Json.asFloat64, hne]
  · intro h
    unfold deviceEntry
    generalize child.Path (str "state.state") = js at h ⊢
    generalize child.Path (str "webId") = jw at h ⊢
    generalize child.Path (str "currentTransponder.transponderId") = jt at h ⊢
    cases js <;> cases jw <;> cases jt <;> simp [Json.asString, Json.asFloat64]
    rename_i st w t
    intro _ hst
    exact absurd ⟨w, t, by rw [hst], rfl, rfl⟩ h

/-- Claim C11, amended, on an active device added to an empty map. -/
theorem device_entry_admits_witness :
    deviceEntry []
        (.obj [(str "state", .obj [(str "state", .str (str "ACTIVE"))]),
          (str "webId", .num (Float64.ofNat 5)),
          (str "currentTransponder",
            .obj [(str "transponderId", .num (Float64.ofNat 9000))])]) =
      GoMap.set [] (fmtFloat0 (Float64.ofNat 9000)) (fmtFloat0 (Float64.ofNat 5)) :=
  (device_entry_admits (fun _ => .failed []) ⟨[], [], []⟩ ⟨[], [], 0, 0⟩ []
    (.obj [(str "state", .obj [(str "state", .str (str "ACTIVE"))]),
      (str "webId", .num (Float64.ofNat 5)),
      (str "currentTransponder",
        .obj [(str "transponderId", .num (Float64.ofNat 9000))])])).2.1
    (Float64.ofNat 5) (Float64.ofNat 9000) rfl rfl rfl

/-! ## navajo.go: a refresh removes nothing -/

theorem GoMap.get_set (m : GoMap) (k v k1 : GoString) :
    (m.set k v).get k1 = if k1 = k then some v else m.get k1 := by
  unfold GoMap.get
  induction m with
  | nil =>
    by_cases h : k1 = k
    · subst h; simp [GoMap.set, List.lookup_cons]
    · have hb : (k1 == k) = false := by simpa using h
      simp [GoMap.set, List.lookup_cons, hb, h]
  | cons p m ih =>
    obtain ⟨k2, v2⟩ := p
    by_cases h2 : k2 = k
    · subst h2
      by_cases h : k1 = k2
      · subst h; simp [GoMap.set, List.lookup_cons]
      · have hb : (k1 == k2) = false := by simpa using h
        simp [GoMap.set, List.lookup_cons, hb, h]
    · by_cases h : k1 = k2
      · subst h
        have hne : ¬ k1 = k := h2
        simp [GoMap.set, List.lookup_cons, h2, hne]
      · have hb : (k1 == k2) = false := by simpa using h
        simp only [GoMap.set, h2, if_false, List.lookup_cons, hb]
        exact ih

theorem deviceEntry_writesOne : WritesOneEntry deviceEntry := by
  intro m c
  rw [deviceEntry_eq m, deviceEntry_eq []]
  split
  · split_ifs
    · exact Or.inr ⟨_, _, rfl, rfl⟩
    · exact Or.inl ⟨rfl, rfl⟩
  · exact Or.inl ⟨rfl, rfl⟩

theorem accountEntry_writesOne : WritesOneEntry accountEntry := by
  intro m c
  unfold accountEntry
  cases (c.Search [str "accountId"]).asFloat64 <;> cases (c.Search [str "apiId"]).asFloat64
  · exact Or.inl ⟨rfl, rfl⟩
  · exact Or.inl ⟨rfl, rfl⟩
  · exact Or.inl ⟨rfl, rfl⟩
  · exact Or.inr ⟨_, _, rfl, rfl⟩

/-- A listing loop keeps every key, and keeps the value of a key that no element writes. -/
theorem foldl_keeps (step : GoMap → Json → GoMap) (hstep : WritesOneEntry step)
    (cs : List Json) (m : GoMap) (k v : GoString) (h : m.get k = some v) :
    (∃ v1, (cs.foldl step m).get k = some v1) ∧
    ((∀ c ∈ cs, (step [] c).get k = none) → (cs.foldl step m).get k = some v) := by
  induction cs generalizing m v with
  | nil => exact ⟨⟨v, h⟩, fun _ => h⟩
  | cons c cs ih =>
    simp only [List.foldl_cons]
    rcases hstep m c with ⟨h1, _⟩ | ⟨k1, v1, h1, h2⟩
    · rw [h1]
      refine ⟨(ih m v h).1, fun hc => (ih m v h).2 (fun c1 hc1 => hc c1 (List.mem_cons_of_mem _ hc1))⟩
    · rw [h1]
      by_cases hk : k = k1
      · have hg : (m.set k1 v1).get k = some v1 := by rw [GoMap.get_set]; simp [hk]
        refine ⟨(ih _ v1 hg).1, fun hc => ?_⟩
        have := hc c (List.mem_cons_self _ _)
        rw [h2, hk] at this
        simp [GoMap.get, List.lookup_cons] at this
      · have hg : (m.set k1 v1).get k = some v := by rw [GoMap.get_set]; simp [hk, h]
        refine ⟨(ih _ v hg).1, fun hc => (ih _ v hg).2 (fun c1 hc1 => hc c1 (List.mem_cons_of_mem _ hc1))⟩

/-- The maps after a refresh, whatever the two requests give. -/
theorem refresh_maps (send : GoString → HttpResult) (conf : NavajoAuthConfig)
    (ids : NavajoAccountData) :
    ((buildNavajoIdMaps send conf ids).clDeviceIdMap = ids.clDeviceIdMap ∨
      ∃ body, send (conf.host ++ str "/v1/devices" ++ str "?limit=10000") = .response 200 body ∧
        (buildNavajoIdMaps send conf ids).clDeviceIdMap =
          body.Children.foldl deviceEntry ids.clDeviceIdMap) ∧
    ((buildNavajoIdMaps send conf ids).clAccountIdMap = ids.clAccountIdMap ∨
      ∃ body, send (conf.host ++ str "/v1/accounts" ++ str "?limit=10000") = .response 200 body ∧
        (buildNavajoIdMaps send conf ids).clAccountIdMap =
          body.Children.foldl accountEntry ids.clAccountIdMap) := by
  have key : ∀ endpoint body, navajoHttpClient send conf endpoint = .ok body →
      send (conf.host ++ endpoint ++ str "?limit=10000") = .response 200 body := by
    intro endpoint body h
    unfold navajoHttpClient at h
    cases hs : send (conf.host ++ endpoint ++ str "?limit=10000") with
    | failed err => simp only [hs] at h; cases h
    | response code b =>
      simp only [hs] at h
      by_cases hc : code = 200
      · subst hc
        simp at h
        rw [h]
      · simp [hc] at h
  cases hd : navajoHttpClient send conf (str "/v1/devices") with
  | error e => simp only [buildNavajoIdMaps, hd]; exact ⟨Or.inl trivial, Or.inl trivial⟩
  | ok dJson =>
    cases ha : navajoHttpClient send conf (str "/v1/accounts") with
    | error e =>
      simp only [buildNavajoIdMaps, hd, ha]
      exact ⟨Or.inr ⟨dJson, key _ _ hd, rfl⟩, Or.inl trivial⟩
    | ok aJson =>
      simp only [buildNavajoIdMaps, hd, ha]
      exact ⟨Or.inr ⟨dJson, key _ _ hd, rfl⟩, Or.inr ⟨aJson, key _ _ ha, rfl⟩⟩

/-- Claim C12. A refresh never removes entries: for every cache state and every pair of
directory responses, each key of the device map and of the account map is still present after
the refresh, and it keeps its value unless an element of the new listing writes that key. -/
theorem refresh_keeps_entries (send : GoString → HttpResult) (conf : NavajoAuthConfig)
    (ids : NavajoAccountData) (k v : GoString) :
    (ids.clDeviceIdMap.get k = some v →
      (∃ v1, (buildNavajoIdMaps send conf ids).clDeviceIdMap.get k = some v1) ∧
      ((∀ body, send (conf.host ++ str "/v1/devices" ++ str "?limit=10000") = .response 200 body →
          ∀ c ∈ body.Children, (deviceEntry [] c).get k = none) →
        (buildNavajoIdMaps send conf ids).clDeviceIdMap.get k = some v)) ∧
    (ids.clAccountIdMap.get k = some v →
      (∃ v1, (buildNavajoIdMaps send conf ids).clAccountIdMap.get k = some v1) ∧
      ((∀ body, send (conf.host ++ str "/v1/accounts" ++ str "?limit=10000") = .response 200 body →
          ∀ c ∈ body.Children, (accountEntry [] c).get k = none) →
        (buildNavajoIdMaps send conf ids).clAccountIdMap.get k = some v)) := by
  obtain ⟨hd, ha⟩ := refresh_maps send conf ids
  constructor
  · intro h
    rcases hd with hd | ⟨body, hb, hd⟩
    · rw [hd]; exact ⟨⟨v, h⟩, fun _ => h⟩
    · rw [hd]
      have := foldl_keeps deviceEntry deviceEntry_writesOne body.Children _ k v h
      exact ⟨this.1, fun hc => this.2 (hc body hb)⟩
  · intro h
    rcases ha with ha | ⟨body, hb, ha⟩
    · rw [ha]; exact ⟨⟨v, h⟩, fun _ => h⟩
    · rw [ha]
      have := foldl_keeps accountEntry accountEntry_writesOne body.Children _ k v h
      exact ⟨this.1, fun hc => this.2 (hc body hb)⟩

/-- Claim C12 on a device that turns from `ACTIVE` to `DEACTIVATED`: after the refresh its
transponder still resolves to the same device. -/
theorem refresh_keeps_entries_witness :
    (buildNavajoIdMaps
      (fun url =>
        if url = str "http://navajo/v1/devices?limit=10000" then
          .response 200 (.arr [.obj [
            (str "state", .obj [(str "state", .str (str "DEACTIVATED"))]),
            (str "webId", .num (Float64.ofNat 5)),
            (str "currentTransponder", .obj [(str "transponderId", .num (Float64.ofNat 9000))])]])
        else .response 200 (.arr []))
      ⟨str "http://navajo", [], []⟩
      ⟨[(str "100", str "A1")], [(str "9000", str "5")], 1, 0⟩).clDeviceIdMap.get (str "9000") =
      some (str "5") :=
  ((refresh_keeps_entries _ ⟨str "http://navajo", [], []⟩
    ⟨[(str "100", str "A1")], [(str "9000", str "5")], 1, 0⟩ (str "9000") (str "5")).1
      (by decide)).2 (by
        intro body hb
        have e : body = .arr [.obj [
            (str "state", .obj [(str "state", .str (str "DEACTIVATED"))]),
            (str "webId", .num (Float64.ofNat 5)),
            (str "currentTransponder",
              .obj [(str "transponderId", .num (Float64.ofNat 9000))])]] := by
          have h1 : (str "http://navajo" ++ str "/v1/devices" ++ str "?limit=10000" =
              str "http://navajo/v1/devices?limit=10000") = True := by decide
          simp only [h1, if_true, HttpResult.response.injEq, true_and] at hb
          exact hb.symm
        subst e
        intro c hc
        simp only [Json.Children, List.mem_singleton] at hc
        subst hc
        decide)

/-! ## websocket.go: the checkpoint cursor -/

theorem updateCheckpoint_eq (p : WebsocketIngestionProgress) (j : Json) :
    p.updateCheckpoint j =
      match j.member (str "checkpoint") with
      | some (.num c) => ({ p with checkpoint := c }, true)
      | _ => (p, false) := by
  unfold WebsocketIngestionProgress.updateCheckpoint
  rw [Json.Path_single _ (str "checkpoint") (by decide)]
  cases hm : j.member (str "checkpoint") with
  | none => simp [Json.asFloat64]
  | some v => cases v <;> simp [Json.asFloat64]

/-- A pass over a parsed frame that is not a keep-alive: the report is offered to the ingress
queue and the checkpoint is read, and the loop goes on. -/
theorem readPumpPass_report (maxJSONParseErrors : Float64) (i : PumpInput) (s : PumpState)
    (j : Json) (hctx : i.ctxDone = false) (hread : i.read = .message (some j))
    (hk : j.isEmptyObject = false) :
    readPumpPass maxJSONParseErrors i s =
      ({ s with firestoreAssembly := (processStreamingJSON j s.firestoreAssembly).2,
                progress := (s.progress.updateCheckpoint j).1 }, none) := by
  simp [readPumpPass, hctx, hread, hk]

/-- Claim C13. For every successfully parsed frame that is not a keep-alive and carries a
numeric `checkpoint` c, the cursor after the pass of `readPump` equals c, whether
`processStreamingJSON` accepted the report or not; when the frame carries no numeric
`checkpoint`, `updateCheckpoint` returns false and the cursor is unchanged. -/
theorem cursor_after_report (maxJSONParseErrors : Float64) (i : PumpInput) (s : PumpState)
    (j : Json) (hctx : i.ctxDone = false) (hread : i.read = .message (some j))
    (hk : j.isEmptyObject = false) :
    (∀ c, j.member (str "checkpoint") = some (.num c) →
      (readPumpPass maxJSONParseErrors i s).1.progress.checkpoint = c ∧
        (readPumpPass maxJSONParseErrors i s).1.firestoreAssembly =
          (processStreamingJSON j s.firestoreAssembly).2) ∧
    ((¬ ∃ c, j.member (str "checkpoint") = some (.num c)) →
      (s.progress.updateCheckpoint j).2 = false ∧
        (s.progress.updateCheckpoint j).1 = s.progress ∧
        (readPumpPass maxJSONParseErrors i s).1.progress.checkpoint =
          s.progress.checkpoint) := by
  rw [readPumpPass_report maxJSONParseErrors i s j hctx hread hk, updateCheckpoint_eq]
  constructor
  · intro c hc
    simp [hc]
  · intro hn
    cases hm : j.member (str "checkpoint") with
    | none => simp
    | some v =>
      cases v <;> simp
      rename_i c
      exact hn ⟨c, hm⟩

/-- Claim C13 on two frames with checkpoint 7, one that the router accepts and one without
`type` that is rejected: the cursor is 7 after either. -/
theorem cursor_after_report_witness :
    (readPumpPass (Float64.ofNat 100)
        ⟨false, .message (some (.obj [(str "type", .str (str "REPORT_DATA")),
          (str "dataType", .str (str "status")), (str "checkpoint", .num (Float64.ofNat 7))])),
          Time.unixNano 0, true⟩
        ⟨{}, 0, [], []⟩).1.progress.checkpoint = Float64.ofNat 7 ∧
    (readPumpPass (Float64.ofNat 100)
        ⟨false, .message (some (.obj [(str "checkpoint", .num (Float64.ofNat 7))])),
          Time.unixNano 0, true⟩
        ⟨{}, 0, [], []⟩).1.progress.checkpoint = Float64.ofNat 7 :=
  ⟨((cursor_after_report (Float64.ofNat 100)
      ⟨false, .message (some (.obj [(str "type", .str (str "REPORT_DATA")),
        (str "dataType", .str (str "status")), (str "checkpoint", .num (Float64.ofNat 7))])),
        Time.unixNano 0, true⟩
      ⟨{}, 0, [], []⟩
      (.obj [(str "type", .str (str "REPORT_DATA")),
        (str "dataType", .str (str "status")), (str "checkpoint", .num (Float64.ofNat 7))])
      rfl rfl rfl).1 (Float64.ofNat 7) rfl).1,
    by decide⟩

theorem Float64.le_refl (a : Float64) : Float64.le a a := Int.le_refl _

/-- What a pass does to the cursor: it keeps it, or the loop goes on with the cursor at the
checkpoint that the frame advertises. -/
theorem readPumpPass_cursor (maxJSONParseErrors : Float64) (i : PumpInput) (s : PumpState) :
    ((readPumpPass maxJSONParseErrors i s).1.progress.checkpoint = s.progress.checkpoint ∧
      ((readPumpPass maxJSONParseErrors i s).2 = none → i.advertised = none)) ∨
    ((readPumpPass maxJSONParseErrors i s).2 = none ∧
      i.advertised = some (readPumpPass maxJSONParseErrors i s).1.progress.checkpoint) := by
  obtain ⟨ctxDone, read, now, writeOk⟩ := i
  cases ctxDone with
  | true => left; simp [readPumpPass]
  | false =>
    cases read with
    | error => left; simp [readPumpPass]
    | message parsed =>
      cases parsed with
      | none =>
        left
        simp only [readPumpPass, PumpInput.advertised]
        split_ifs <;> simp [Json.isEmptyObject, processStreamingJSON,
          WebsocketIngestionProgress.updateCheckpoint, Json.Path, Json.Search, Json.member,
          Json.asFloat64, Json.asString]
      | some j =>
        cases hk : j.isEmptyObject with
        | true =>
          left
          cases writeOk <;> simp [readPumpPass, PumpInput.advertised, hk]
        | false =>
          rw [readPumpPass_report maxJSONParseErrors _ s j rfl rfl hk]
          simp only [PumpInput.advertised, hk]
          unfold WebsocketIngestionProgress.updateCheckpoint
          cases (j.Path (str "checkpoint")).asFloat64 with
          | none => left; simp
          | some c => right; simp

/-- Claim C14 as stated fails: a session that receives a report with checkpoint 7 and then one
with checkpoint 3 has the cursor at 7 and then at 3, which is smaller. -/
theorem cursor_decreases :
    readPumpCursors (Float64.ofNat 100)
        [⟨false, .message (some (.obj [(str "checkpoint", .num (Float64.ofNat 7))])),
            Time.unixNano 0, true⟩,
          ⟨false, .message (some (.obj [(str "checkpoint", .num (Float64.ofNat 3))])),
            Time.unixNano 0, true⟩]
        ⟨{}, 0, [], []⟩ = [Float64.ofNat 7, Float64.ofNat 3] ∧
    Float64.lt (Float64.ofNat 3) (Float64.ofNat 7) := by
  decide

/-- Claim C14, amended. Within one `readPump` session a pass that goes on leaves the cursor at
the checkpoint that its frame advertises, or where it was when the frame advertises none, and a
pass that ends the session leaves the cursor where it was; so for every sequence of frames the
cursor never decreases provided the checkpoints advertised by the server, starting from the
cursor at the start of the session, never decrease. -/
theorem cursor_follows_server (maxJSONParseErrors : Float64) (inputs : List PumpInput)
    (s : PumpState) :
    (∀ i : PumpInput, (readPumpPass maxJSONParseErrors i s).2 = none →
      (readPumpPass maxJSONParseErrors i s).1.progress.checkpoint =
        i.advertised.getD s.progress.checkpoint) ∧
    (∀ i : PumpInput, (readPumpPass maxJSONParseErrors i s).2 ≠ none →
      (readPumpPass maxJSONParseErrors i s).1.progress.checkpoint = s.progress.checkpoint) ∧
    (List.Chain Float64.le s.progress.checkpoint (inputs.filterMap PumpInput.advertised) →
      List.Chain Float64.le s.progress.checkpoint
        (readPumpCursors maxJSONParseErrors inputs s)) := by
  refine ⟨?_, ?_, ?_⟩
  · intro i hi
    rcases readPumpPass_cursor maxJSONParseErrors i s with ⟨h1, h2⟩ | ⟨_, h2⟩
    · rw [h1, h2 hi]; rfl
    · rw [h2]; rfl
  · intro i hi
    rcases readPumpPass_cursor maxJSONParseErrors i s with ⟨h1, _⟩ | ⟨h1, _⟩
    · exact h1
    · exact absurd h1 hi
  · induction inputs generalizing s with
    | nil => intro _; exact List.Chain.nil
    | cons i rest ih =>
      intro hc
      unfold readPumpCursors
      rcases readPumpPass_cursor maxJSONParseErrors i s with ⟨h1, h2⟩ | ⟨h1, h2⟩
      · cases hp : readPumpPass maxJSONParseErrors i s with
        | mk s1 r =>
          rw [hp] at h1 h2
          simp only at h1 h2
          cases r with
          | some b =>
            simp only
            rw [h1]
            exact List.Chain.cons (Float64.le_refl _) List.Chain.nil
          | none =>
            simp only
            have ha := h2 rfl
            rw [List.filterMap_cons, ha] at hc
            simp only at hc
            rw [h1]
            refine List.Chain.cons (Float64.le_refl _) ?_
            have := ih s1 (by rw [h1]; exact hc)
            rwa [h1] at this
      · cases hp : readPumpPass maxJSONParseErrors i s with
        | mk s1 r =>
          rw [hp] at h1 h2
          simp only at h1 h2
          subst h1
          simp only
          rw [List.filterMap_cons, h2] at hc
          simp only at hc
          obtain ⟨hle, hrest⟩ := List.chain_cons.1 hc
          exact List.Chain.cons hle (ih s1 hrest)

/-- Claim C14, amended, on a session whose server advertises 3 and then 7. -/
theorem cursor_follows_server_witness :
    List.Chain Float64.le Float64.zero
      (readPumpCursors (Float64.ofNat 100)
        [⟨false, .message (some (.obj [(str "checkpoint", .num (Float64.ofNat 3))])),
            Time.unixNano 0, true⟩,
          ⟨false, .message (some (.obj [(str "checkpoint", .num (Float64.ofNat 7))])),
            Time.unixNano 0, true⟩]
        ⟨{}, 0, [], []⟩) :=
  (cursor_follows_server (Float64.ofNat 100)
    [⟨false, .message (some (.obj [(str "checkpoint", .num (Float64.ofNat 3))])),
        Time.unixNano 0, true⟩,
      ⟨false, .message (some (.obj [(str "checkpoint", .num (Float64.ofNat 7))])),
        Time.unixNano 0, true⟩]
    ⟨{}, 0, [], []⟩).2.2
    (show List.Chain Float64.le Float64.zero [Float64.ofNat 3, Float64.ofNat 7] from
      List.Chain.cons (by decide) (List.Chain.cons (by decide) List.Chain.nil))

/-! ## websocket.go: the dial request of a new session -/

theorem websocketIngestorRequest_passive (progress : WebsocketIngestionProgress)
    (nr : NewWebsocketRequest) (h : nr.passiveKeepAlive = false) :
    (websocketIngestorRequest progress nr).passiveKeepAlive = false := by
  unfold websocketIngestorRequest
  split_ifs <;> simp [h]

theorem foldl_request_passive (passes : List WebsocketIngestionProgress)
    (nr : NewWebsocketRequest) (h : nr.passiveKeepAlive = false) :
    (passes.foldl (fun nr progress => websocketIngestorRequest progress nr) nr).passiveKeepAlive =
      false := by
  induction passes generalizing nr with
  | nil => exact h
  | cons p ps ih => exact ih _ (websocketIngestorRequest_passive p nr h)

/-- The dial request never asks for the passive keep-alive. -/
theorem websocketIngestorRequests_passive (passes : List WebsocketIngestionProgress) :
    (websocketIngestorRequests passes).passiveKeepAlive = false :=
  foldl_request_passive passes _ rfl

/-- Claim C15. For every progress object, in every pass of the supervisor's loop, the dial
request built for the new session has no checkpoint parameter, and the empty query string, when
`checkpoint == 0`; otherwise it has `resumeCheckpoint` set and `checkpointToResume` equal to the
checkpoint of the progress object, and the dialled URL ends in `?checkpoint=` followed by that
value printed without fractional part, which for an integer-valued checkpoint is its decimal
representation. -/
theorem dial_request_checkpoint (passes : List WebsocketIngestionProgress)
    (progress : WebsocketIngestionProgress) (wsUrl : GoString) :
    (Float64.eq progress.checkpoint Float64.zero →
      (websocketIngestorRequest progress (websocketIngestorRequests passes)).resumeCheckpoint =
          false ∧
        (websocketIngestorRequest progress (websocketIngestorRequests passes)).params.1 =
          str "" ∧
        websocketURL wsUrl (websocketIngestorRequest progress (websocketIngestorRequests passes)) =
          wsUrl) ∧
    (¬ Float64.eq progress.checkpoint Float64.zero →
      (websocketIngestorRequest progress (websocketIngestorRequests passes)).resumeCheckpoint =
          true ∧
        (websocketIngestorRequest progress
          (websocketIngestorRequests passes)).checkpointToResume = progress.checkpoint ∧
        websocketURL wsUrl (websocketIngestorRequest progress (websocketIngestorRequests passes)) =
          wsUrl ++ (str "?checkpoint=" ++ fmtFloat0 progress.checkpoint) ∧
        (∀ n : Nat, progress.checkpoint.IsNat n →
          fmtFloat0 progress.checkpoint = decimal n)) := by
  have hp := websocketIngestorRequests_passive passes
  constructor
  · intro h0
    have e : websocketIngestorRequest progress (websocketIngestorRequests passes) =
        { websocketIngestorRequests passes with
          passiveKeepAlive := false, resumeCheckpoint := false } := by
      simp [websocketIngestorRequest, h0]
    have hv := (params_value (websocketIngestorRequest progress
      (websocketIngestorRequests passes))).2
    rw [e] at hv ⊢
    simp only at hv
    refine ⟨rfl, hv, ?_⟩
    unfold websocketURL NewWebsocketRequest.params
    rw [hv]
    exact List.append_nil _
  · intro h0
    have e : websocketIngestorRequest progress (websocketIngestorRequests passes) =
        ⟨false, true, progress.checkpoint⟩ := by
      simp [websocketIngestorRequest, h0, hp]
    have hv := (params_value (websocketIngestorRequest progress
      (websocketIngestorRequests passes))).2
    rw [e] at hv ⊢
    simp only at hv
    refine ⟨rfl, rfl, ?_, fun n hn => fmtFloat0_of_isNat _ n hn⟩
    unfold websocketURL NewWebsocketRequest.params
    rw [hv]

/-- Claim C15 on a progress object whose last observed checkpoint is 7. -/
theorem dial_request_checkpoint_witness :
    websocketURL (str "wss://stream/ws")
        (websocketIngestorRequest ⟨Time.zero, Float64.ofNat 7⟩ (websocketIngestorRequests [])) =
      str "wss://stream/ws" ++ (str "?checkpoint=" ++ fmtFloat0 (Float64.ofNat 7)) :=
  ((dial_request_checkpoint [] ⟨Time.zero, Float64.ofNat 7⟩ (str "wss://stream/ws")).2
    (by decide)).2.2.1

/-! ## report_data_streamer.go: the router -/

theorem router_report_data (rds : ReportDataStreamV1) (qs : RouterQueues)
    (h : rds.reportType = str "REPORT_DATA") :
    firestoreAssemblyRouter rds qs =
      { qs with transponderReportsV1 := qs.transponderReportsV1 ++
          [{ reportType := rds.reportType, reportDataType := rds.reportDataType,
             json := rds.json }] } := by
  simp [firestoreAssemblyRouter, h, ReportDataStreamV1.transponderReportDataStreamV1]

theorem router_eld_record (rds : ReportDataStreamV1) (qs : RouterQueues)
    (h : rds.reportType = str "ELD_RECORD") :
    firestoreAssemblyRouter rds qs =
      { qs with eldReportsV1 := qs.eldReportsV1 ++
          [{ reportType := rds.reportType, reportDataType := rds.reportDataType,
             json := rds.json }] } := by
  have hne : str "ELD_RECORD" ≠ str "REPORT_DATA" := by decide
  simp [firestoreAssemblyRouter, h, hne, ReportDataStreamV1.eldReportDataStreamV1]

theorem router_other (rds : ReportDataStreamV1) (qs : RouterQueues)
    (h1 : rds.reportType ≠ str "REPORT_DATA") (h2 : rds.reportType ≠ str "ELD_RECORD") :
    firestoreAssemblyRouter rds qs = qs := by
  simp [firestoreAssemblyRouter, h1, h2]

/-- Claim C16. For every envelope taken from the ingress queue, the router forwards it to
exactly one queue or to none: an envelope of type `REPORT_DATA` is appended to the transponder
queue only, one of type `ELD_RECORD` to the ELD queue only, and one of any type other than
`REPORT_DATA`, `ELD_RECORD` and `VIDEO_EVENT` to no queue; a forwarded envelope keeps its
`reportType`, its `reportDataType` and its payload. -/
theorem router_forwards (rds : ReportDataStreamV1) (qs : RouterQueues) :
    (rds.reportType = str "REPORT_DATA" →
      firestoreAssemblyRouter rds qs =
        { qs with transponderReportsV1 := qs.transponderReportsV1 ++
            [{ reportType := rds.reportType, reportDataType := rds.reportDataType,
               json := rds.json }] }) ∧
    (rds.reportType = str "ELD_RECORD" →
      firestoreAssemblyRouter rds qs =
        { qs with eldReportsV1 := qs.eldReportsV1 ++
            [{ reportType := rds.reportType, reportDataType := rds.reportDataType,
               json := rds.json }] }) ∧
    (rds.reportType ≠ str "REPORT_DATA" → rds.reportType ≠ str "ELD_RECORD" →
      rds.reportType ≠ str "VIDEO_EVENT" → firestoreAssemblyRouter rds qs = qs) :=
  ⟨router_report_data rds qs, router_eld_record rds qs,
    fun h1 h2 _ => router_other rds qs h1 h2⟩

/-- Claim C16 on a status report, which enters the transponder queue. -/
theorem router_forwards_witness :
    firestoreAssemblyRouter ⟨str "REPORT_DATA", str "status", .null⟩ ⟨[], [], []⟩ =
      ⟨[{ reportType := str "REPORT_DATA", reportDataType := str "status", json := .null }],
        [], []⟩ :=
  (router_forwards ⟨str "REPORT_DATA", str "status", .null⟩ ⟨[], [], []⟩).1 rfl

/-- Claim C17 as stated fails: an envelope of type `VIDEO_EVENT` leaves the video queue empty,
and every other queue as well. -/
theorem video_event_not_forwarded :
    (firestoreAssemblyRouter ⟨str "VIDEO_EVENT", str "video_upload", .null⟩
      ⟨[], [], []⟩).videoReportsV1 = [] ∧
    firestoreAssemblyRouter ⟨str "VIDEO_EVENT", str "video_upload", .null⟩ ⟨[], [], []⟩ =
      ⟨[], [], []⟩ :=
  ⟨rfl, rfl⟩

/-- Claim C17, amended. For every envelope of type `VIDEO_EVENT` taken from the ingress queue,
the router forwards it to no queue: the video case of the router is disabled, and the envelope
falls to the default case, where it is logged and dropped. -/
theorem video_event_dropped (rds : ReportDataStreamV1) (qs : RouterQueues)
    (h : rds.reportType = str "VIDEO_EVENT") :
    firestoreAssemblyRouter rds qs = qs ∧
    (firestoreAssemblyRouter rds qs).videoReportsV1 = qs.videoReportsV1 := by
  have h1 : rds.reportType ≠ str "REPORT_DATA" := by rw [h]; decide
  have h2 : rds.reportType ≠ str "ELD_RECORD" := by rw [h]; decide
  rw [router_other rds qs h1 h2]
  exact ⟨rfl, rfl⟩

/-- Claim C17, amended, on a video event met by queues that already hold an envelope. -/
theorem video_event_dropped_witness :
    (firestoreAssemblyRouter ⟨str "VIDEO_EVENT", str "video_upload", .null⟩
      ⟨[], [{ reportType := str "VIDEO_EVENT", reportDataType := str "x", json := .null }],
        []⟩).videoReportsV1 =
      [{ reportType := str "VIDEO_EVENT", reportDataType := str "x", json := .null }] :=
  (video_event_dropped ⟨str "VIDEO_EVENT", str "video_upload", .null⟩
    ⟨[], [{ reportType := str "VIDEO_EVENT", reportDataType := str "x", json := .null }], []⟩
    rfl).2

/-! ## websocket.go: what enters the router -/

/-- What `processStreamingJSON` computes, in terms of the two members of the report. -/
theorem processStreamingJSON_eq (pj : Json) (q : List ReportDataStreamV1) :
    processStreamingJSON pj q =
      match pj.member (str "type"), pj.member (str "dataType") with
      | some (.str t), some (.str d) => (true, q ++ [⟨t, d, pj⟩])
      | _, _ => (false, q) := by
  unfold processStreamingJSON
  rw [Path_type, Path_dataType]
  cases ht : pj.member (str "type") with
  | none => simp [Json.asString]
  | some jt =>
    cases hd : pj.member (str "dataType") with
    | none => cases jt <;> simp [Json.asString]
    | some jd => cases jt <;> cases jd <;> simp [Json.asString]

/-- Claim C18 as stated fails: a report whose `type` and `dataType` are the empty string is
placed on the ingress queue, with an empty `reportType` and an empty `reportDataType`. -/
theorem empty_type_enqueued :
    processStreamingJSON (.obj [(str "type", .str (str "")), (str "dataType", .str (str ""))])
        [] =
      (true, [⟨str "", str "",
        .obj [(str "type", .str (str "")), (str "dataType", .str (str ""))]⟩]) ∧
    (str "" : GoString) = [] :=
  ⟨rfl, rfl⟩

/-- Claim C18, amended. Every envelope that `processStreamingJSON` places on the ingress queue
carries as `reportType` and `reportDataType` the strings that are the report's members `type`
and `dataType`, and the report as payload; the two members must be JSON strings, and they may
be empty. -/
theorem enqueued_envelope_fields (pj : Json) (q : List ReportDataStreamV1)
    (e : ReportDataStreamV1) (h : (processStreamingJSON pj q).2 = q ++ [e]) :
    pj.member (str "type") = some (.str e.reportType) ∧
    pj.member (str "dataType") = some (.str e.reportDataType) ∧
    e.json = pj ∧ (processStreamingJSON pj q).1 = true := by
  rw [processStreamingJSON_eq] at h ⊢
  split at h
  · rename_i t d ht hd
    simp only [List.append_cancel_left_eq, List.cons.injEq, and_true] at h
    subst h
    simp [ht, hd]
  · simp at h

/-- Claim C18, amended, on a report with an empty `type`. -/
theorem enqueued_envelope_fields_witness :
    (Json.obj [(str "type", .str (str "")), (str "dataType", .str (str "status"))]).member
        (str "type") = some (.str (str "")) :=
  (enqueued_envelope_fields
    (.obj [(str "type", .str (str "")), (str "dataType", .str (str "status"))]) []
    ⟨str "", str "status",
      .obj [(str "type", .str (str "")), (str "dataType", .str (str "status"))]⟩ rfl).1

/-! ## transponder_report_data.go: the kinds of a record -/

theorem validDataType_iff (r : TransponderReportDataStreamV1) :
    r.validDataType = true ↔ r.reportDataType ∈ transponderKinds := by
  simp [TransponderReportDataStreamV1.validDataType, transponderKinds]

set_option maxRecDepth 100000 in
theorem sprintf_not_compatible (a b : GoString) :
    sprintf
        (str ("ERROR: Unable to marshall streaming JSON record to " ++
          "FirestoreTransponderReportV1 struct: dataType is not compatible: %s:%s"))
        [a, b] =
      str ("ERROR: Unable to marshall streaming JSON record to " ++
          "FirestoreTransponderReportV1 struct: dataType is not compatible: ") ++
        (a ++ (str ":" ++ b)) := by
  have h : sprintf
        (str ("ERROR: Unable to marshall streaming JSON record to " ++
          "FirestoreTransponderReportV1 struct: dataType is not compatible: %s:%s"))
        [a, b] =
      str ("ERROR: Unable to marshall streaming JSON record to " ++
          "FirestoreTransponderReportV1 struct: dataType is not compatible: ") ++
        (a ++ (str ":" ++ (b ++ []))) := rfl
  rw [h, List.append_nil]

/-- Claim C19. For every transponder envelope, `firestoreRecord` returns an error, whose
message says that the dataType is not compatible, exactly when `reportDataType` is not one of
the recognised kinds `status`, `parking`, `stopped`, `trip_report`, `hard_accel`,
`hard_braking`, `hard_cornering`, `overspeeding`, `idling`; for a recognised kind it returns a
record and no error, whatever the payload. -/
theorem firestoreRecord_kinds (r : TransponderReportDataStreamV1) :
    ((∃ e, r.firestoreRecord = .error e) ↔ r.reportDataType ∉ transponderKinds) ∧
    (r.reportDataType ∈ transponderKinds → ∃ record, r.firestoreRecord = .ok record) ∧
    (r.reportDataType ∉ transponderKinds →
      r.firestoreRecord = .error
        (str ("ERROR: Unable to marshall streaming JSON record to " ++
            "FirestoreTransponderReportV1 struct: dataType is not compatible: ") ++
          (r.reportType ++ (str ":" ++ r.reportDataType)))) := by
  have hok : r.reportDataType ∈ transponderKinds → ∃ record, r.firestoreRecord = .ok record := by
    intro h
    have hv := (validDataType_iff r).2 h
    unfold TransponderReportDataStreamV1.firestoreRecord
    rw [if_pos hv]
    exact ⟨_, rfl⟩
  have herr : r.reportDataType ∉ transponderKinds →
      r.firestoreRecord = .error
        (str ("ERROR: Unable to marshall streaming JSON record to " ++
            "FirestoreTransponderReportV1 struct: dataType is not compatible: ") ++
          (r.reportType ++ (str ":" ++ r.reportDataType))) := by
    intro h
    have hv : ¬ r.validDataType = true := fun hv => h ((validDataType_iff r).1 hv)
    unfold TransponderReportDataStreamV1.firestoreRecord
    rw [if_neg hv]
    simp only [sprintf_not_compatible]
  refine ⟨⟨?_, fun h => ⟨_, herr h⟩⟩, hok, herr⟩
  rintro ⟨e, he⟩ hmem
  obtain ⟨record, hr⟩ := hok hmem
  rw [hr] at he
  cases he

/-- Claim C19 on a report of the kind `status`, which gives a record. -/
theorem firestoreRecord_kinds_witness :
    ∃ record, TransponderReportDataStreamV1.firestoreRecord
      ⟨str "REPORT_DATA", str "status", [], [], .null⟩ = .ok record :=
  (firestoreRecord_kinds ⟨str "REPORT_DATA", str "status", [], [], .null⟩).2.1 (by decide)

/-! ## eld_report_data.go: identifier resolution -/

theorem member_getD_null_eq_some (o : Option Json) (k : GoString) (v : Json) :
    (o.getD .null).member k = some v ↔ ∃ d, o = some d ∧ d.member k = some v := by
  cases o with
  | none => simp [Json.member]
  | some d => simp

/-- What the `build` of an ELD envelope computes, in terms of the members of the report and
the lookup. -/
theorem eld_build_eq (r : EldReportDataStreamV1) (ids : NavajoAccountData) :
    r.build ids =
      match r.json.member (str "accountId"),
        ((r.json.member (str "data")).getD .null).member (str "userId") with
      | some (.num a), some (.num u) =>
        (match ids.clAccountIdMap.get (fmtFloat0 a) with
          | some A => ({ r with cwAccountId := A, clUserId := fmtFloat0 u }, true)
          | none => (r, false))
      | _, _ => (r, false) := by
  unfold EldReportDataStreamV1.build
  rw [Json.Path_single _ (str "accountId") (by decide),
    Json.Path_pair _ (str "data.userId") (str "data") (str "userId") (by decide)]
  cases ha : r.json.member (str "accountId") with
  | none => simp [Json.asFloat64]
  | some ja =>
    cases hu : ((r.json.member (str "data")).getD .null).member (str "userId") with
    | none => cases ja <;> simp [Json.asFloat64]
    | some ju =>
      cases ja <;> cases ju <;> simp [Json.asFloat64]
      rename_i a u
      unfold EldReportDataStreamV1.cartwheelMap
      cases ids.clAccountIdMap.get (fmtFloat0 a) <;> simp

theorem eld_firestoreReference_eq (r : EldReportDataStreamV1) :
    r.firestoreReference =
      str "account/" ++ r.cwAccountId ++ str "/driver/" ++ r.clUserId ++ str "/report_data" := by
  simp [EldReportDataStreamV1.firestoreReference, stringsJoin, List.intercalate,
    List.intersperse]
  rfl

/-- Claim C20. For every ELD envelope and every cache state, `build` returns true exactly when
`accountId` and `data.userId` are both numbers and the decimal rendering of the account id is a
key of the account map; on true, `cwAccountId` is the mapped account value and `clUserId` is the
decimal rendering of `data.userId` itself, so the destination is
`account/{cwAccountId}/driver/{userId}/report_data`. -/
theorem eld_build_resolves (r : EldReportDataStreamV1) (ids : NavajoAccountData) :
    ((r.build ids).2 = true ↔
      ∃ a u d, r.json.member (str "accountId") = some (.num a) ∧
        r.json.member (str "data") = some d ∧ d.member (str "userId") = some (.num u) ∧
        fmtFloat0 a ∈ ids.clAccountIdMap.keys) ∧
    (∀ a u d, r.json.member (str "accountId") = some (.num a) →
      r.json.member (str "data") = some d → d.member (str "userId") = some (.num u) →
      (r.build ids).2 = true →
      ids.clAccountIdMap.get (fmtFloat0 a) = some (r.build ids).1.cwAccountId ∧
        (r.build ids).1.clUserId = fmtFloat0 u ∧
        (r.build ids).1.firestoreReference =
          str "account/" ++ (r.build ids).1.cwAccountId ++ str "/driver/" ++ fmtFloat0 u ++
            str "/report_data") := by
  constructor
  · rw [eld_build_eq]
    constructor
    · intro h
      split at h
      · rename_i a u ha hu
        obtain ⟨d, hd, hdu⟩ := (member_getD_null_eq_some _ _ _).1 hu
        split at h
        · rename_i A hA
          exact ⟨a, u, d, ha, hd, hdu, (GoMap.mem_keys_iff _ _).2 ⟨A, hA⟩⟩
        · simp at h
      · simp at h
    · rintro ⟨a, u, d, ha, hd, hdu, hA⟩
      obtain ⟨A, hA⟩ := (GoMap.mem_keys_iff _ _).1 hA
      have hu := (member_getD_null_eq_some (r.json.member (str "data")) (str "userId")
        (.num u)).2 ⟨d, hd, hdu⟩
      simp [ha, hu, hA]
  · intro a u d ha hd hdu
    have hu := (member_getD_null_eq_some (r.json.member (str "data")) (str "userId")
      (.num u)).2 ⟨d, hd, hdu⟩
    rw [eld_firestoreReference_eq, eld_build_eq]
    simp only [ha, hu]
    cases hA : ids.clAccountIdMap.get (fmtFloat0 a) <;> simp

/-- Claim C20 on the specification's second scenario: the cache `200 → A2` and the user id 55
give `account/A2/driver/55/report_data`. -/
theorem eld_build_resolves_witness :
    (EldReportDataStreamV1.build
        ⟨str "ELD_RECORD", str "navigation", [], [], [],
          .obj [(str "accountId", .num (Float64.ofNat 200)),
            (str "data", .obj [(str "userId", .num (Float64.ofNat 55))])]⟩
        ⟨[(str "200", str "A2")], [], 1, 0⟩).1.firestoreReference =
      str "account/A2/driver/55/report_data" :=
  ((eld_build_resolves
      ⟨str "ELD_RECORD", str "navigation", [], [], [],
        .obj [(str "accountId", .num (Float64.ofNat 200)),
          (str "data", .obj [(str "userId", .num (Float64.ofNat 55))])]⟩
      ⟨[(str "200", str "A2")], [], 1, 0⟩).2
    (Float64.ofNat 200) (Float64.ofNat 55) (.obj [(str "userId", .num (Float64.ofNat 55))])
    rfl rfl rfl (by decide)).2.2.trans (by decide)

/-! ## eld_report_data.go: the writer -/

/-- The writes of a pass of the ELD writer: none, or one for a navigation envelope that `build`
accepted, to the reference of the built envelope. -/
theorem eld_writer_writes (ids : NavajoAccountData) (setFails : Bool)
    (rds : EldReportDataStreamV1) (st : EldWriterState) :
    (eldReportWriterV1 ids setFails rds st).writes = st.writes ∨
    (rds.reportDataType = str "navigation" ∧ (rds.build ids).2 = true ∧
      ∃ record, (eldReportWriterV1 ids setFails rds st).writes =
        st.writes ++ [⟨(rds.build ids).1.firestoreReference, record⟩]) := by
  unfold eldReportWriterV1
  by_cases hn : rds.reportDataType = str "navigation"
  · simp only [hn, ne_eq, not_true_eq_false, if_false]
    cases hb : rds.build ids with
    | mk r1 ok =>
      cases ok with
      | false => left; rfl
      | true =>
        simp only
        cases hr : r1.firestoreRecord with
        | error e => left; rfl
        | ok record =>
          right
          refine ⟨trivial, trivial, record, ?_⟩
          cases setFails <;> rfl
  · left
    simp [hn]

/-- Claim C21. For every envelope taken from the ELD queue whose dataType is not `navigation`,
the ELD writer calls no `build`, issues no write and logs no warning or error: its pass changes
nothing; a write is issued only for the dataType `navigation` and an envelope that `build`
accepted, and a pass issues at most one. -/
theorem eld_writer_navigation_only (ids : NavajoAccountData) (setFails : Bool)
    (rds : EldReportDataStreamV1) (st : EldWriterState) :
    (rds.reportDataType ≠ str "navigation" →
      eldReportWriterV1 ids setFails rds st = st) ∧
    ((eldReportWriterV1 ids setFails rds st).writes = st.writes ∨
      ∃ w, (eldReportWriterV1 ids setFails rds st).writes = st.writes ++ [w]) ∧
    (∀ w, (eldReportWriterV1 ids setFails rds st).writes = st.writes ++ [w] →
      rds.reportDataType = str "navigation" ∧ (rds.build ids).2 = true) := by
  refine ⟨fun hn => ?_, ?_, ?_⟩
  · simp [eldReportWriterV1, hn]
  · rcases eld_writer_writes ids setFails rds st with h | ⟨_, _, record, h⟩
    · exact Or.inl h
    · exact Or.inr ⟨_, h⟩
  · intro w hw
    rcases eld_writer_writes ids setFails rds st with h | ⟨h1, h2, _, _⟩
    · rw [h] at hw
      have := congrArg List.length hw
      simp at this
    · exact ⟨h1, h2⟩

/-- Claim C21 on an ELD envelope of the kind `duty_status`, which the writer passes over. -/
theorem eld_writer_navigation_only_witness :
    eldReportWriterV1 ⟨[(str "200", str "A2")], [], 1, 0⟩ false
        ⟨str "ELD_RECORD", str "duty_status", [], [], [],
          .obj [(str "accountId", .num (Float64.ofNat 200)),
            (str "data", .obj [(str "userId", .num (Float64.ofNat 55))])]⟩ ⟨[], 0, 0⟩ =
      ⟨[], 0, 0⟩ :=
  (eld_writer_navigation_only ⟨[(str "200", str "A2")], [], 1, 0⟩ false
    ⟨str "ELD_RECORD", str "duty_status", [], [], [],
      .obj [(str "accountId", .num (Float64.ofNat 200)),
        (str "data", .obj [(str "userId", .num (Float64.ofNat 55))])]⟩ ⟨[], 0, 0⟩).1
    (by decide)

/-! ## util.go: timestamps -/

/-- Claim C22 as stated fails: the wire timestamp -1.5 gives the instant of epoch millisecond
-1, and its floor is -2; the wire timestamp 10^13 gives an instant before the epoch, because
the count of nanoseconds wraps around in 64 bits. -/
theorem timestamp_not_floor :
    (nanoEpochTimeObject ⟨true, 3, 1⟩).1.epochMilli = some (-1) ∧
    Float64.floor ⟨true, 3, 1⟩ = -2 ∧
    (nanoEpochTimeObject (Float64.ofNat 10000000000000)).1.epochMilli =
      some (-8446744073710) ∧
    Float64.floor (Float64.ofNat 10000000000000) = 10000000000000 := by
  decide

theorem wrapInt64_of_int64 (x : Int) (h0 : -9223372036854775808 ≤ x)
    (h1 : x < 9223372036854775808) : wrapInt64 x = x := by
  unfold wrapInt64
  norm_num
  omega

/-- The part of a float that `int64(ts)` keeps, before the range check: the magnitude without
its fraction, with the sign. -/
theorem truncation_cases (ts : Float64) :
    let v : Int := if ts.neg then -((ts.mant / 2 ^ ts.exp : Nat) : Int)
      else ((ts.mant / 2 ^ ts.exp : Nat) : Int)
    (Float64.le Float64.zero ts ∨ ts.IsWhole → v = Float64.floor ts) ∧
    (¬ (Float64.le Float64.zero ts ∨ ts.IsWhole) → v = Float64.floor ts + 1) := by
  intro v
  have hpos : 0 < 2 ^ ts.exp := by positivity
  have hposz : (0 : Int) < ((2 ^ ts.exp : Nat) : Int) := by exact_mod_cast hpos
  have hcast : ((2 : Int) ^ ts.exp) = ((2 ^ ts.exp : Nat) : Int) := by push_cast; rfl
  have hdm := Nat.div_add_mod ts.mant (2 ^ ts.exp)
  have hml := Nat.mod_lt ts.mant hpos
  by_cases hn : ts.neg = true
  · have hv : v = -((ts.mant / 2 ^ ts.exp : Nat) : Int) := by simp [v, hn]
    have hnum : ts.num = -(ts.mant : Int) := by simp [Float64.num, hn]
    have hle : Float64.le Float64.zero ts ↔ ts.mant = 0 := by
      unfold Float64.le Float64.zero
      rw [hnum]
      simp only [Float64.num]
      simp
    by_cases hw : ts.mant % 2 ^ ts.exp = 0
    · have hfl : Float64.floor ts = -((ts.mant / 2 ^ ts.exp : Nat) : Int) := by
        unfold Float64.floor
        rw [hnum, hcast]
        have hm : (ts.mant : Int) = ((2 ^ ts.exp : Nat) : Int) * ((ts.mant / 2 ^ ts.exp : Nat) : Int) := by
          have : ts.mant = 2 ^ ts.exp * (ts.mant / 2 ^ ts.exp) := by omega
          exact_mod_cast this
        rw [hm, ← mul_neg, Int.mul_ediv_cancel_left _ (ne_of_gt hposz)]
      refine ⟨fun _ => by rw [hv, hfl], fun h => absurd (Or.inr hw) h⟩
    · have hfl : Float64.floor ts = -((ts.mant / 2 ^ ts.exp : Nat) : Int) - 1 := by
        unfold Float64.floor
        rw [hnum, hcast]
        have hm : -(ts.mant : Int) = (((2 ^ ts.exp : Nat) : Int) - ((ts.mant % 2 ^ ts.exp : Nat) : Int)) +
            ((2 ^ ts.exp : Nat) : Int) * (-((ts.mant / 2 ^ ts.exp : Nat) : Int) - 1) := by
          have : (ts.mant : Int) = ((2 ^ ts.exp : Nat) : Int) * ((ts.mant / 2 ^ ts.exp : Nat) : Int) +
              ((ts.mant % 2 ^ ts.exp : Nat) : Int) := by exact_mod_cast hdm.symm
          rw [this]; ring
        rw [hm, Int.add_mul_ediv_left _ _ (ne_of_gt hposz)]
        have hr : (((2 ^ ts.exp : Nat) : Int) - ((ts.mant % 2 ^ ts.exp : Nat) : Int)) /
            ((2 ^ ts.exp : Nat) : Int) = 0 := by
          apply Int.ediv_eq_zero_of_lt
          · have : ((ts.mant % 2 ^ ts.exp : Nat) : Int) < ((2 ^ ts.exp : Nat) : Int) := by
              exact_mod_cast hml
            omega
          · have : (0 : Int) < ((ts.mant % 2 ^ ts.exp : Nat) : Int) := by
              exact_mod_cast Nat.pos_of_ne_zero hw
            omega
        rw [hr]; ring
      refine ⟨fun h => ?_, fun _ => by rw [hv, hfl]; ring⟩
      rcases h with h | h
      · have h0 := hle.1 h
        exact absurd (by rw [h0]; simp) hw
      · exact absurd h hw
  · have hv : v = ((ts.mant / 2 ^ ts.exp : Nat) : Int) := by simp [v, hn]
    have hnum : ts.num = (ts.mant : Int) := by simp [Float64.num, hn]
    have hfl : Float64.floor ts = ((ts.mant / 2 ^ ts.exp : Nat) : Int) := by
      unfold Float64.floor
      rw [hnum]
      push_cast
      rfl
    have hle : Float64.le Float64.zero ts := by
      unfold Float64.le Float64.zero
      rw [hnum]
      simp [Float64.num]
    exact ⟨fun _ => by rw [hv, hfl], fun h => absurd (Or.inl hle) h⟩

/-- What `nanoEpochTimeObject` returns for a timestamp that is not negative or is whole, and
whose floor times one million fits 64 bits. -/
theorem nanoEpochTimeObject_of_range (ts : Float64)
    (h0 : Float64.le Float64.zero ts ∨ ts.IsWhole)
    (hlo : -9223372036854 ≤ Float64.floor ts) (hhi : Float64.floor ts ≤ 9223372036854) :
    nanoEpochTimeObject ts = (Time.unixNano (Float64.floor ts * 1000000), none) := by
  have hv := (truncation_cases ts).1 h0
  have hconv : int64OfFloat ts = Float64.floor ts := by
    unfold int64OfFloat
    simp only
    simp only at hv
    rw [hv]
    have h63 : (2 : Int) ^ 63 = 9223372036854775808 := by norm_num
    rw [if_pos ⟨by rw [h63]; omega, by rw [h63]; omega⟩]
  unfold nanoEpochTimeObject
  simp only [hconv]
  rw [wrapInt64_of_int64 _ (by omega) (by omega)]

/-- The epoch millisecond of the instant that `nanoEpochTimeObject` returns is the floor of the
timestamp only in the range of `nanoEpochTimeObject_of_range`. -/
theorem epochMilli_eq_floor_only (ts : Float64)
    (h : (nanoEpochTimeObject ts).1.epochMilli = some (Float64.floor ts)) :
    (Float64.le Float64.zero ts ∨ ts.IsWhole) ∧
      -9223372036854 ≤ Float64.floor ts ∧ Float64.floor ts ≤ 9223372036854 := by
  have hc := truncation_cases ts
  simp only at hc
  unfold nanoEpochTimeObject Time.epochMilli int64OfFloat wrapInt64 at h
  simp only [Option.some.injEq] at h
  have h63 : (2 : Int) ^ 63 = 9223372036854775808 := by norm_num
  have h64 : (2 : Int) ^ 64 = 18446744073709551616 := by norm_num
  rw [h63, h64] at h
  generalize (if ts.neg = true then -((ts.mant / 2 ^ ts.exp : Nat) : Int)
      else ((ts.mant / 2 ^ ts.exp : Nat) : Int)) = v at h hc
  generalize Float64.floor ts = f at h hc ⊢
  by_cases hr : Float64.le Float64.zero ts ∨ ts.IsWhole
  · have hv := hc.1 hr
    refine ⟨hr, ?_⟩
    subst hv
    split_ifs at h with hin
    · omega
    · omega
  · have hv := hc.2 hr
    exfalso
    subst hv
    split_ifs at h with hin
    · omega
    · omega

/-- Claim C22, amended. `nanoEpochTimeObject` always returns a nil error. For every wire
timestamp ms that is not negative or is a whole number, and whose floor lies between
-9223372036854 and 9223372036854 (so that the count of nanoseconds fits 64 bits), it returns
the UTC instant `floor(ms)` times one million nanoseconds after the epoch, whose
epoch-millisecond value is `floor(ms)`; and for every other timestamp the epoch-millisecond
value of the returned instant is not `floor(ms)`. -/
theorem timestamp_floor (ts : Float64) :
    (nanoEpochTimeObject ts).2 = none ∧
    ((Float64.le Float64.zero ts ∨ ts.IsWhole) → -9223372036854 ≤ Float64.floor ts →
      Float64.floor ts ≤ 9223372036854 →
      nanoEpochTimeObject ts = (Time.unixNano (Float64.floor ts * 1000000), none) ∧
      (nanoEpochTimeObject ts).1.epochMilli = some (Float64.floor ts)) ∧
    (¬ ((Float64.le Float64.zero ts ∨ ts.IsWhole) ∧ -9223372036854 ≤ Float64.floor ts ∧
        Float64.floor ts ≤ 9223372036854) →
      (nanoEpochTimeObject ts).1.epochMilli ≠ some (Float64.floor ts)) := by
  refine ⟨rfl, fun h0 hlo hhi => ?_, fun hn h => hn (epochMilli_eq_floor_only ts h)⟩
  have hres := nanoEpochTimeObject_of_range ts h0 hlo hhi
  refine ⟨hres, ?_⟩
  rw [hres]
  simp [Time.epochMilli]

/-- Claim C22, amended, on the timestamp of the specification's first scenario, which is
2023-11-14T22:13:20Z, and on the negative whole timestamp -1000, one second before the
epoch. -/
theorem timestamp_floor_witness :
    nanoEpochTimeObject (Float64.ofNat 1700000000000) =
      (Time.unixNano 1700000000000000000, none) ∧
    utcDateTime 1700000000000000000 = (2023, 11, 14, 22, 13, 20) ∧
    nanoEpochTimeObject ⟨true, 1000, 0⟩ = (Time.unixNano (-1000000000), none) ∧
    (nanoEpochTimeObject ⟨true, 1000, 0⟩).1.epochMilli = some (-1000) ∧
    Float64.floor ⟨true, 1000, 0⟩ = -1000 :=
  ⟨((timestamp_floor (Float64.ofNat 1700000000000)).2.1 (by decide) (by decide) (by decide)).1,
    by decide,
    ((timestamp_floor ⟨true, 1000, 0⟩).2.1 (by decide) (by decide) (by decide)).1,
    ((timestamp_floor ⟨true, 1000, 0⟩).2.1 (by decide) (by decide) (by decide)).2,
    by decide⟩

/-! ## websocket.go: the parse-error budget -/

theorem budget_lt_iff (maxJSONParseErrors : Float64) (N c : Nat)
    (hN : maxJSONParseErrors.IsNat N) :
    Float64.lt maxJSONParseErrors (Float64.ofNat c) ↔ N < c := by
  obtain ⟨hneg, hm⟩ := hN
  have hpos : (0 : Int) < 2 ^ maxJSONParseErrors.exp := by positivity
  unfold Float64.lt Float64.num Float64.ofNat
  simp only [hneg, hm, Bool.false_eq_true, if_false, pow_zero, mul_one]
  push_cast
  constructor
  · intro h
    have := lt_of_mul_lt_mul_right h (le_of_lt hpos)
    exact_mod_cast this
  · intro h
    have h1 : (N : Int) < (c : Int) := by exact_mod_cast h
    exact mul_lt_mul_of_pos_right h1 hpos

/-- A pass over an unparseable frame counts it, and ends the session with false exactly when
the count has passed the budget. -/
theorem readPumpPass_unparseable (maxJSONParseErrors : Float64) (N : Nat)
    (hN : maxJSONParseErrors.IsNat N) (i : PumpInput) (s : PumpState)
    (hctx : i.ctxDone = false) (hread : i.read = .message none) :
    readPumpPass maxJSONParseErrors i s =
      ({ s with unparseableSamples := s.unparseableSamples + 1 },
        if N < s.unparseableSamples + 1 then some false else none) := by
  have hlt := budget_lt_iff maxJSONParseErrors N (s.unparseableSamples + 1) hN
  unfold readPumpPass
  simp only [hctx, hread, Bool.false_eq_true, if_false, Option.isNone_none, true_and]
  by_cases h : N < s.unparseableSamples + 1
  · rw [if_pos (hlt.2 h), if_pos h]
  · rw [if_neg (fun hc => h (hlt.1 hc)), if_neg h]
    simp [Json.isEmptyObject, processStreamingJSON, WebsocketIngestionProgress.updateCheckpoint,
      Json.Path, Json.Search, Json.member, Json.asFloat64, Json.asString]

/-- A plain pass over a frame that parses goes on and leaves the count alone. -/
theorem readPumpPass_parsed (maxJSONParseErrors : Float64) (i : PumpInput) (s : PumpState)
    (j : Json) (hctx : i.ctxDone = false) (hread : i.read = .message (some j))
    (hw : i.writeOk = true) :
    (readPumpPass maxJSONParseErrors i s).2 = none ∧
    (readPumpPass maxJSONParseErrors i s).1.unparseableSamples = s.unparseableSamples := by
  unfold readPumpPass
  simp only [hctx, hread, hw, Bool.false_eq_true, if_false, Option.isNone_some, false_and,
    Option.getD_some, if_true]
  split_ifs <;> exact ⟨rfl, rfl⟩

/-- A session of plain passes: as long as the count stays within the budget the session goes
on, and the count grows by the number of unparseable frames. -/
theorem readPumpLoop_within_budget (maxJSONParseErrors : Float64) (N : Nat)
    (hN : maxJSONParseErrors.IsNat N) (inputs : List PumpInput) (s : PumpState)
    (hplain : ∀ i ∈ inputs, i.plain)
    (hb : s.unparseableSamples + inputs.countP PumpInput.unparseable ≤ N) :
    (readPumpLoop maxJSONParseErrors inputs s).2 = none ∧
    (readPumpLoop maxJSONParseErrors inputs s).1.unparseableSamples =
      s.unparseableSamples + inputs.countP PumpInput.unparseable := by
  induction inputs generalizing s with
  | nil => exact ⟨rfl, rfl⟩
  | cons i rest ih =>
    obtain ⟨hctx, ⟨parsed, hread⟩, hw⟩ := hplain i (List.mem_cons_self _ _)
    have hrest : ∀ i ∈ rest, i.plain := fun x hx => hplain x (List.mem_cons_of_mem _ hx)
    unfold readPumpLoop
    cases parsed with
    | none =>
      have hu : i.unparseable = true := by simp [PumpInput.unparseable, hread]
      rw [List.countP_cons_of_pos _ _ hu] at hb ⊢
      rw [readPumpPass_unparseable maxJSONParseErrors N hN i s hctx hread]
      have hnot : ¬ N < s.unparseableSamples + 1 := by omega
      simp only [hnot, if_false]
      have := ih { s with unparseableSamples := s.unparseableSamples + 1 } hrest
        (by simp only; omega)
      refine ⟨this.1, ?_⟩
      rw [this.2]
      simp only
      omega
    | some j =>
      have hu : ¬ i.unparseable = true := by simp [PumpInput.unparseable, hread]
      rw [List.countP_cons_of_neg _ _ hu] at hb ⊢
      obtain ⟨h1, h2⟩ := readPumpPass_parsed maxJSONParseErrors i s j hctx hread hw
      cases hp : readPumpPass maxJSONParseErrors i s with
      | mk s1 res =>
        rw [hp] at h1 h2
        simp only at h1 h2
        subst h1
        simp only
        have := ih s1 hrest (by omega)
        rw [h2] at this
        exact this

theorem readPumpLoop_cons_none (maxJSONParseErrors : Float64) (i : PumpInput)
    (rest : List PumpInput) (s s1 : PumpState)
    (h : readPumpPass maxJSONParseErrors i s = (s1, none)) :
    readPumpLoop maxJSONParseErrors (i :: rest) s = readPumpLoop maxJSONParseErrors rest s1 := by
  rw [readPumpLoop, h]

theorem readPumpLoop_cons_some (maxJSONParseErrors : Float64) (i : PumpInput)
    (rest : List PumpInput) (s s1 : PumpState) (b : Bool)
    (h : readPumpPass maxJSONParseErrors i s = (s1, some b)) :
    readPumpLoop maxJSONParseErrors (i :: rest) s = (s1, some b) := by
  rw [readPumpLoop, h]

theorem readPumpLoop_append (maxJSONParseErrors : Float64) (xs ys : List PumpInput)
    (s : PumpState) (h : (readPumpLoop maxJSONParseErrors xs s).2 = none) :
    readPumpLoop maxJSONParseErrors (xs ++ ys) s =
      readPumpLoop maxJSONParseErrors ys (readPumpLoop maxJSONParseErrors xs s).1 := by
  induction xs generalizing s with
  | nil => rfl
  | cons i rest ih =>
    simp only [List.cons_append]
    cases hp : readPumpPass maxJSONParseErrors i s with
    | mk s1 res =>
      cases res with
      | some b =>
        rw [readPumpLoop_cons_some _ _ _ _ _ _ hp] at h
        simp at h
      | none =>
        rw [readPumpLoop_cons_none _ _ _ _ _ hp] at h ⊢
        rw [readPumpLoop_cons_none _ _ _ _ _ hp]
        exact ih s1 h

/-- A session of plain passes that has used the budget up ends with false on the next
unparseable frame. -/
theorem readPumpLoop_budget_exceeded (maxJSONParseErrors : Float64) (N : Nat)
    (hN : maxJSONParseErrors.IsNat N) (inputs : List PumpInput) (last : PumpInput)
    (s : PumpState) (hplain : ∀ i ∈ inputs, i.plain)
    (hlast : last.ctxDone = false ∧ last.read = .message none)
    (hb : s.unparseableSamples + inputs.countP PumpInput.unparseable ≤ N)
    (hfull : N ≤ s.unparseableSamples + inputs.countP PumpInput.unparseable) :
    (readPumpLoop maxJSONParseErrors (inputs ++ [last]) s).2 = some false := by
  obtain ⟨h1, h2⟩ := readPumpLoop_within_budget maxJSONParseErrors N hN inputs s hplain hb
  rw [readPumpLoop_append _ _ _ _ h1]
  have hlt : N < (readPumpLoop maxJSONParseErrors inputs s).1.unparseableSamples + 1 := by
    rw [h2]; omega
  have hp := readPumpPass_unparseable maxJSONParseErrors N hN last
    (readPumpLoop maxJSONParseErrors inputs s).1 hlast.1 hlast.2
  rw [if_pos hlt] at hp
  rw [readPumpLoop_cons_some _ _ _ _ _ _ hp]

/-- Claim C23. With the budget N and a session that starts with no parse error counted,
`readPump` keeps the session running through the first N unparseable frames and returns false
on the next unparseable frame, the (N+1)-th. -/
theorem budget_first_session (maxJSONParseErrors : Float64) (N : Nat)
    (hN : maxJSONParseErrors.IsNat N) (inputs : List PumpInput) (last : PumpInput)
    (s : PumpState) (hs : s.unparseableSamples = 0) (hplain : ∀ i ∈ inputs, i.plain)
    (hlast : last.ctxDone = false ∧ last.read = .message none) :
    (inputs.countP PumpInput.unparseable ≤ N →
      (readPump maxJSONParseErrors false inputs s).2 = none) ∧
    (inputs.countP PumpInput.unparseable = N →
      (readPump maxJSONParseErrors false (inputs ++ [last]) s).2 = some false) := by
  constructor
  · intro h
    exact (readPumpLoop_within_budget maxJSONParseErrors N hN inputs s hplain
      (by rw [hs]; omega)).1
  · intro h
    exact readPumpLoop_budget_exceeded maxJSONParseErrors N hN inputs last s hplain hlast
      (by rw [hs]; omega) (by rw [hs]; omega)

/-- Claim C23 on the specification's sixth scenario: 101 malformed frames with the budget 100
end the session. -/
theorem budget_first_session_witness :
    (readPump (Float64.ofNat 100) false
      (List.replicate 100 ⟨false, .message none, Time.unixNano 0, true⟩ ++
        [⟨false, .message none, Time.unixNano 0, true⟩])
      ⟨{}, 0, [], []⟩).2 = some false :=
  (budget_first_session (Float64.ofNat 100) 100 ⟨rfl, by simp [Float64.ofNat]⟩
    (List.replicate 100 ⟨false, .message none, Time.unixNano 0, true⟩)
    ⟨false, .message none, Time.unixNano 0, true⟩ ⟨{}, 0, [], []⟩ rfl
    (by
      intro i hi
      rw [List.eq_of_mem_replicate hi]
      exact ⟨rfl, ⟨none, rfl⟩, rfl⟩)
    ⟨rfl, rfl⟩).2
    (by simp [List.countP_replicate, PumpInput.unparseable])

theorem readPumpPass_count_le (maxJSONParseErrors : Float64) (i : PumpInput) (s : PumpState) :
    s.unparseableSamples ≤ (readPumpPass maxJSONParseErrors i s).1.unparseableSamples := by
  obtain ⟨ctxDone, read, now, writeOk⟩ := i
  cases ctxDone with
  | true => simp [readPumpPass]
  | false =>
    cases read with
    | error => simp [readPumpPass]
    | message parsed =>
      cases parsed with
      | none =>
        simp only [readPumpPass]
        split_ifs <;> simp [Json.isEmptyObject]
      | some j =>
        simp only [readPumpPass]
        split_ifs <;> simp

theorem readPumpLoop_count_le (maxJSONParseErrors : Float64) (inputs : List PumpInput)
    (s : PumpState) :
    s.unparseableSamples ≤ (readPumpLoop maxJSONParseErrors inputs s).1.unparseableSamples := by
  induction inputs generalizing s with
  | nil => exact Nat.le_refl _
  | cons i rest ih =>
    have h1 := readPumpPass_count_le maxJSONParseErrors i s
    cases hp : readPumpPass maxJSONParseErrors i s with
    | mk s1 res =>
      rw [hp] at h1
      cases res with
      | some b => rw [readPumpLoop_cons_some _ _ _ _ _ _ hp]; exact h1
      | none =>
        rw [readPumpLoop_cons_none _ _ _ _ _ hp]
        exact Nat.le_trans h1 (ih s1)

/-- No session resets the count of parse errors. -/
theorem readPumpSessions_count_le (maxJSONParseErrors : Float64)
    (history : List (List PumpInput)) (s : PumpState) :
    s.unparseableSamples ≤
      (readPumpSessions maxJSONParseErrors history s).unparseableSamples := by
  induction history generalizing s with
  | nil => exact Nat.le_refl _
  | cons session rest ih =>
    unfold readPumpSessions
    refine Nat.le_trans ?_ (ih _)
    simp only [readPump, Bool.false_eq_true, if_false]
    exact readPumpLoop_count_le maxJSONParseErrors session s

/-- Claim C24 as stated fails: with the budget 2, after a session that was aborted on its third
unparseable frame, the next session is aborted on its first unparseable frame. -/
theorem budget_not_per_session :
    (readPump (Float64.ofNat 2) false
      [⟨false, .message none, Time.unixNano 0, true⟩,
        ⟨false, .message none, Time.unixNano 0, true⟩,
        ⟨false, .message none, Time.unixNano 0, true⟩] ⟨{}, 0, [], []⟩).2 = some false ∧
    (readPump (Float64.ofNat 2) false [⟨false, .message none, Time.unixNano 0, true⟩]
      (readPumpSessions (Float64.ofNat 2)
        [[⟨false, .message none, Time.unixNano 0, true⟩,
          ⟨false, .message none, Time.unixNano 0, true⟩,
          ⟨false, .message none, Time.unixNano 0, true⟩]] ⟨{}, 0, [], []⟩)).2 = some false := by
  decide

/-- Claim C24, amended. The parse-error budget is shared by all sessions of the process: the
count of unparseable frames is never reset, so for every history of earlier sessions a newly
started session that begins with c errors counted tolerates N - c further unparseable frames
and aborts on the next one, and it aborts on its first unparseable frame once c has reached
N. -/
theorem budget_shared_by_sessions (maxJSONParseErrors : Float64) (N : Nat)
    (hN : maxJSONParseErrors.IsNat N) (history : List (List PumpInput)) (s0 : PumpState)
    (inputs : List PumpInput) (last : PumpInput) (hplain : ∀ i ∈ inputs, i.plain)
    (hlast : last.ctxDone = false ∧ last.read = .message none) :
    s0.unparseableSamples ≤
      (readPumpSessions maxJSONParseErrors history s0).unparseableSamples ∧
    ((readPumpSessions maxJSONParseErrors history s0).unparseableSamples +
        inputs.countP PumpInput.unparseable ≤ N →
      (readPump maxJSONParseErrors false inputs
        (readPumpSessions maxJSONParseErrors history s0)).2 = none) ∧
    ((readPumpSessions maxJSONParseErrors history s0).unparseableSamples +
        inputs.countP PumpInput.unparseable = N →
      (readPump maxJSONParseErrors false (inputs ++ [last])
        (readPumpSessions maxJSONParseErrors history s0)).2 = some false) ∧
    (N ≤ (readPumpSessions maxJSONParseErrors history s0).unparseableSamples →
      (readPump maxJSONParseErrors false [last]
        (readPumpSessions maxJSONParseErrors history s0)).2 = some false) := by
  refine ⟨readPumpSessions_count_le _ _ _, ?_, ?_, ?_⟩
  · intro h
    exact (readPumpLoop_within_budget maxJSONParseErrors N hN inputs _ hplain h).1
  · intro h
    exact readPumpLoop_budget_exceeded maxJSONParseErrors N hN inputs last _ hplain hlast
      (by omega) (by omega)
  · intro h
    have hp := readPumpPass_unparseable maxJSONParseErrors N hN last
      (readPumpSessions maxJSONParseErrors history s0) hlast.1 hlast.2
    rw [if_pos (by omega)] at hp
    simp only [readPump, Bool.false_eq_true, if_false]
    rw [readPumpLoop_cons_some _ _ _ _ _ _ hp]

/-- Claim C24, amended, on a session that follows one with one unparseable frame: with the
budget 2 it runs through one further unparseable frame and aborts on the next. -/
theorem budget_shared_by_sessions_witness :
    (readPump (Float64.ofNat 2) false
      ([⟨false, .message none, Time.unixNano 0, true⟩] ++
        [⟨false, .message none, Time.unixNano 0, true⟩])
      (readPumpSessions (Float64.ofNat 2)
        [[⟨false, .message none, Time.unixNano 0, true⟩]] ⟨{}, 0, [], []⟩)).2 = some false :=
  (budget_shared_by_sessions (Float64.ofNat 2) 2 ⟨rfl, by simp [Float64.ofNat]⟩
    [[⟨false, .message none, Time.unixNano 0, true⟩]] ⟨{}, 0, [], []⟩
    [⟨false, .message none, Time.unixNano 0, true⟩]
    ⟨false, .message none, Time.unixNano 0, true⟩
    (by
      intro i hi
      rw [List.mem_singleton.1 hi]
      exact ⟨rfl, ⟨none, rfl⟩, rfl⟩)
    ⟨rfl, rfl⟩).2.2.1 (by decide)

/-- The record that `firestoreRecord` returns for a recognised kind, field by field: the value
its extractor gave, or the zero value when the extractor reported failure. -/
theorem firestoreRecord_eq (r : TransponderReportDataStreamV1) (hv : r.validDataType = true) :
    r.firestoreRecord = .ok
      { ConfigId := r.reportConfigId.getD Float64.zero
        Duration := r.reportDuration.getD Float64.zero
        EventStart := r.reportEventStart.getD Time.zero
        InProgress := r.reportInProgress.getD false
        LocationAccuracy := r.reportLocationAccuracy.getD Float64.zero
        Heading := r.reportLocationHeading.getD Float64.zero
        LatLng := r.reportGeoObj
        BatteryVoltage := r.reportBatteryVoltage.getD Float64.zero
        CellSignalStrength := r.reportCellSignalStrength.getD Float64.zero
        IsLowBattery := r.reportIsLowBattery.getD false
        Odometer := r.reportOdometer.getD Float64.zero
        Speed := r.reportSpeed.getD Float64.zero
        SpeedLimit := r.reportSpeedLimit.getD Float64.zero
        ReportTimestamp := r.reportDataTimestamp.getD Time.zero
        Serial := r.reportSerial.getD Float64.zero
        GeoTags := r.reportGeoTags.getD []
        Type_ := r.reportDataType } := by
  unfold TransponderReportDataStreamV1.firestoreRecord
  rw [if_pos hv]
  lift_lets
  intro fb0 fb1 fb2 fb3 fb4 fb5 fb6 fb7 fb8 fb9 fb10 fb11 fb12 fb13 fb14 fb15 fb16 fb17
  have h1 : fb1 = { fb0 with ConfigId := r.reportConfigId.getD fb0.ConfigId } := by
    show (match r.reportConfigId with
      | some v => { fb0 with ConfigId := v }
      | none => fb0) = _
    cases r.reportConfigId <;> rfl
  have h2 : fb2 = { fb1 with Duration := r.reportDuration.getD fb1.Duration } := by
    show (match r.reportDuration with
      | some v => { fb1 with Duration := v }
      | none => fb1) = _
    cases r.reportDuration <;> rfl
  have h3 : fb3 = { fb2 with EventStart := r.reportEventStart.getD fb2.EventStart } := by
    show (match r.reportEventStart with
      | some v => { fb2 with EventStart := v }
      | none => fb2) = _
    cases r.reportEventStart <;> rfl
  have h4 : fb4 = { fb3 with InProgress := r.reportInProgress.getD fb3.InProgress } := by
    show (match r.reportInProgress with
      | some v => { fb3 with InProgress := v }
      | none => fb3) = _
    cases r.reportInProgress <;> rfl
  have h5 : fb5 = { fb4 with LocationAccuracy := r.reportLocationAccuracy.getD fb4.LocationAccuracy } := by
    show (match r.reportLocationAccuracy with
      | some v => { fb4 with LocationAccuracy := v }
      | none => fb4) = _
    cases r.reportLocationAccuracy <;> rfl
  have h6 : fb6 = { fb5 with Heading := r.reportLocationHeading.getD fb5.Heading } := by
    show (match r.reportLocationHeading with
      | some v => { fb5 with Heading := v }
      | none => fb5) = _
    cases r.reportLocationHeading <;> rfl
  have h7 : fb7 = { fb6 with LatLng := (r.reportGeoObj).orElse (fun _ => fb6.LatLng) } := by
    show (match r.reportGeoObj with
      | some v => { fb6 with LatLng := some v }
      | none => fb6) = _
    cases r.reportGeoObj <;> rfl
  have h8 : fb8 = { fb7 with BatteryVoltage := r.reportBatteryVoltage.getD fb7.BatteryVoltage } := by
    show (match r.reportBatteryVoltage with
      | some v => { fb7 with BatteryVoltage := v }
      | none => fb7) = _
    cases r.reportBatteryVoltage <;> rfl
  have h9 : fb9 = { fb8 with CellSignalStrength := r.reportCellSignalStrength.getD fb8.CellSignalStrength } := by
    show (match r.reportCellSignalStrength with
      | some v => { fb8 with CellSignalStrength := v }
      | none => fb8) = _
    cases r.reportCellSignalStrength <;> rfl
  have h10 : fb10 = { fb9 with IsLowBattery := r.reportIsLowBattery.getD fb9.IsLowBattery } := by
    show (match r.reportIsLowBattery with
      | some v => { fb9 with IsLowBattery := v }
      | none => fb9) = _
    cases r.reportIsLowBattery <;> rfl
  have h11 : fb11 = { fb10 with Odometer := r.reportOdometer.getD fb10.Odometer } := by
    show (match r.reportOdometer with
      | some v => { fb10 with Odometer := v }
      | none => fb10) = _
    cases r.reportOdometer <;> rfl
  have h12 : fb12 = { fb11 with Speed := r.reportSpeed.getD fb11.Speed } := by
    show (match r.reportSpeed with
      | some v => { fb11 with Speed := v }
      | none => fb11) = _
    cases r.reportSpeed <;> rfl
  have h13 : fb13 = { fb12 with SpeedLimit := r.reportSpeedLimit.getD fb12.SpeedLimit } := by
    show (match r.reportSpeedLimit with
      | some v => { fb12 with SpeedLimit := v }
      | none => fb12) = _
    cases r.reportSpeedLimit <;> rfl
  have h14 : fb14 = { fb13 with ReportTimestamp := r.reportDataTimestamp.getD fb13.ReportTimestamp } := by
    show (match r.reportDataTimestamp with
      | some v => { fb13 with ReportTimestamp := v }
      | none => fb13) = _
    cases r.reportDataTimestamp <;> rfl
  have h15 : fb15 = { fb14 with GeoTags := r.reportGeoTags.getD fb14.GeoTags } := by
    show (match r.reportGeoTags with
      | some v => { fb14 with GeoTags := v }
      | none => fb14) = _
    cases r.reportGeoTags <;> rfl
  have h16 : fb16 = { fb15 with Serial := r.reportSerial.getD fb15.Serial } := by
    show (match r.reportSerial with
      | some v => { fb15 with Serial := v }
      | none => fb15) = _
    cases r.reportSerial <;> rfl
  have h17 : fb17 = { fb16 with Type_ := r.reportDataType } := rfl
  have h0 : fb0 = {} := rfl
  clear_value fb0 fb1 fb2 fb3 fb4 fb5 fb6 fb7 fb8 fb9 fb10 fb11 fb12 fb13 fb14 fb15 fb16 fb17
  rw [h17]; try dsimp only
  rw [h16]; try dsimp only
  rw [h15]; try dsimp only
  rw [h14]; try dsimp only
  rw [h13]; try dsimp only
  rw [h12]; try dsimp only
  rw [h11]; try dsimp only
  rw [h10]; try dsimp only
  rw [h9]; try dsimp only
  rw [h8]; try dsimp only
  rw [h7]; try dsimp only
  rw [h6]; try dsimp only
  rw [h5]; try dsimp only
  rw [h4]; try dsimp only
  rw [h3]; try dsimp only
  rw [h2]; try dsimp only
  rw [h1]; try dsimp only
  rw [h0]
  cases r.reportGeoObj <;> rfl
/-! ## firestore.go: what a stored document holds -/

/-- Looking a tag up in a document: the field's value when the field is not left out; no tag
occurs twice in the list of fields. -/
theorem lookup_documentOf (k : GoString) (fields : List (GoString × Option FsValue))
    (h : (fields.map Prod.fst).Nodup) :
    List.lookup k (documentOf fields) = (List.lookup k fields).bind id := by
  induction fields with
  | nil => rfl
  | cons kv rest ih =>
    obtain ⟨k1, v⟩ := kv
    rw [List.map_cons, List.nodup_cons] at h
    have ih := ih h.2
    unfold documentOf at ih ⊢
    by_cases hk : k = k1
    · subst hk
      have hnone : List.lookup k rest = none := by
        rw [List.lookup_eq_none_iff]
        intro p hp
        rw [bne_iff_ne]
        intro hpk
        exact h.1 (List.mem_map.2 ⟨p, hp, hpk.symm⟩)
      cases v with
      | none =>
        simp only [List.filterMap_cons, Option.map_none']
        rw [ih, hnone]
        simp [List.lookup]
      | some x => simp [List.filterMap_cons, List.lookup]
    · have hb : (k == k1) = false := by simpa using hk
      cases v with
      | none =>
        simp only [List.filterMap_cons, Option.map_none']
        rw [ih]
        simp [List.lookup, hb]
      | some x =>
        simp only [List.filterMap_cons, Option.map_some']
        simp only [List.lookup, hb]
        exact ih

theorem transponder_fields_nodup (record : FirestoreTransponderReportV1) :
    (record.fields.map Prod.fst).Nodup := by
  show [str "configId", str "duration", str "eventStart", str "inProgress",
    str "locationAccuracy", str "heading", str "address", str "dotOrientation", str "latLng",
    str "batteryVoltage", str "cellSignalStrength", str "isLowBatteryVoltage", str "odometer",
    str "speed", str "speedLimit", str "reportTimestamp", str "serial", str "type",
    str "fsCreateTimestamp", str "geoTags"].Nodup
  decide

theorem eld_fields_nodup (record : FirestoreEldReportV1) :
    (record.fields.map Prod.fst).Nodup := by
  show [str "usDotNumber", str "userId", str "userName", str "transponderId",
    str "terminalNumber", str "serverRxTimestamp", str "eventId", str "recordId",
    str "recordTimestamp", str "recordStatus", str "recordOrigin", str "eventStartTimestamp",
    str "eventEndTimestamp", str "navigationEvent", str "vehicleMode", str "locationType",
    str "location", str "geoDescription", str "meters", str "isDiagnosticActive",
    str "isMalfunctionActive", str "type", str "fsCreateTimestamp"].Nodup
  decide

/-- The value stored under a tag of a transponder record. -/
theorem transponder_document_lookup (record : FirestoreTransponderReportV1) (k : GoString) :
    List.lookup k record.document = (List.lookup k record.fields).bind id :=
  lookup_documentOf k record.fields (transponder_fields_nodup record)

/-- The value stored under a tag of an ELD record. -/
theorem eld_document_lookup (record : FirestoreEldReportV1) (k : GoString) :
    List.lookup k record.document = (List.lookup k record.fields).bind id :=
  lookup_documentOf k record.fields (eld_fields_nodup record)

theorem eld_firestoreRecord_type (r : EldReportDataStreamV1) (record : FirestoreEldReportV1)
    (h : r.firestoreRecord = .ok record) : record.Type_ = r.reportDataType := by
  unfold EldReportDataStreamV1.firestoreRecord at h
  split at h
  · cases h
    rfl
  · cases h

/-- Claim C25. For every transponder record and every ELD record that `firestoreRecord` returns
without error, the field `Type` equals the `dataType` of the envelope, and the stored document
holds it under the tag `type` (which has no `omitempty`), whatever its value. -/
theorem record_type_stored (t : TransponderReportDataStreamV1) (e : EldReportDataStreamV1) :
    (∀ record, t.firestoreRecord = .ok record →
      record.Type_ = t.reportDataType ∧
      List.lookup (str "type") record.document = some (.string t.reportDataType)) ∧
    (∀ record, e.firestoreRecord = .ok record →
      record.Type_ = e.reportDataType ∧
      List.lookup (str "type") record.document = some (.string e.reportDataType)) := by
  constructor
  · intro record h
    have hv : t.validDataType = true := by
      by_contra hv
      unfold TransponderReportDataStreamV1.firestoreRecord at h
      rw [if_neg hv] at h
      cases h
    rw [firestoreRecord_eq t hv] at h
    cases h
    refine ⟨rfl, ?_⟩
    rw [transponder_document_lookup]
    rfl
  · intro record h
    have ht := eld_firestoreRecord_type e record h
    refine ⟨ht, ?_⟩
    rw [eld_document_lookup, ← ht]
    rfl

/-- Claim C25 on a status report and a navigation report without payload: the documents hold
the tag `type` with the dataType. -/
theorem record_type_stored_witness :
    List.lookup (str "type")
      (FirestoreTransponderReportV1.document { Type_ := str "status" }) =
        some (.string (str "status")) ∧
    List.lookup (str "type")
      (FirestoreEldReportV1.document { Type_ := str "navigation" }) =
        some (.string (str "navigation")) :=
  ⟨((record_type_stored ⟨str "REPORT_DATA", str "status", [], [], .null⟩
      ⟨str "ELD_RECORD", str "navigation", [], [], [], .null⟩).1
      { Type_ := str "status" } rfl).2,
    ((record_type_stored ⟨str "REPORT_DATA", str "status", [], [], .null⟩
      ⟨str "ELD_RECORD", str "navigation", [], [], [], .null⟩).2
      { Type_ := str "navigation" } rfl).2⟩
theorem firestoreRecord_valid (r : TransponderReportDataStreamV1)
    (record : FirestoreTransponderReportV1) (hr : r.firestoreRecord = .ok record) :
    r.validDataType = true := by
  by_contra hv
  unfold TransponderReportDataStreamV1.firestoreRecord at hr
  rw [if_neg hv] at hr
  cases hr

/-- The numeric fields of a returned record and of its document. -/
theorem number_field_eq (r : TransponderReportDataStreamV1)
    (record : FirestoreTransponderReportV1) (hr : r.firestoreRecord = .ok record) :
    ∀ f ∈ transponderNumberFields,
      f.get record = ((r.json.Path f.path).asFloat64).getD Float64.zero ∧
      List.lookup f.tag record.document = omitEmptyFloat (f.get record) := by
  rw [firestoreRecord_eq r (firestoreRecord_valid r record hr)] at hr
  cases hr
  intro f hf
  simp only [transponderNumberFields, List.mem_cons, List.mem_singleton, List.not_mem_nil,
    or_false] at hf
  rcases hf with rfl | rfl | rfl | rfl | rfl | rfl | rfl | rfl | rfl | rfl <;>
    exact ⟨rfl, by rw [transponder_document_lookup]; rfl⟩

/-- The timestamp fields of a returned record and of its document. -/
theorem time_field_eq (r : TransponderReportDataStreamV1)
    (record : FirestoreTransponderReportV1) (hr : r.firestoreRecord = .ok record) :
    ∀ f ∈ transponderTimeFields,
      f.get record =
        (((r.json.Path f.path).asFloat64).map (fun x => (nanoEpochTimeObject x).1)).getD
          Time.zero ∧
      List.lookup f.tag record.document = omitEmptyTime (f.get record) := by
  rw [firestoreRecord_eq r (firestoreRecord_valid r record hr)] at hr
  cases hr
  intro f hf
  simp only [transponderTimeFields, List.mem_cons, List.mem_singleton, List.not_mem_nil,
    or_false] at hf
  rcases hf with rfl | rfl
  · refine ⟨?_, by rw [transponder_document_lookup]; rfl⟩
    show r.reportEventStart.getD Time.zero = _
    unfold TransponderReportDataStreamV1.reportEventStart
    cases (r.json.Path (str "data.eventStart")).asFloat64 <;> rfl
  · refine ⟨?_, by rw [transponder_document_lookup]; rfl⟩
    show r.reportDataTimestamp.getD Time.zero = _
    unfold TransponderReportDataStreamV1.reportDataTimestamp
    cases (r.json.Path (str "data.reportTimestamp")).asFloat64 <;> rfl

/-- The boolean fields of a returned record and of its document. -/
theorem bool_field_eq (r : TransponderReportDataStreamV1)
    (record : FirestoreTransponderReportV1) (hr : r.firestoreRecord = .ok record) :
    ∀ f ∈ transponderBoolFields,
      f.get record = ((r.json.Path f.path).asBool).getD false ∧
      List.lookup f.tag record.document = omitEmptyBool (f.get record) := by
  rw [firestoreRecord_eq r (firestoreRecord_valid r record hr)] at hr
  cases hr
  intro f hf
  simp only [transponderBoolFields, List.mem_cons, List.mem_singleton, List.not_mem_nil,
    or_false] at hf
  rcases hf with rfl | rfl <;>
    exact ⟨rfl, by rw [transponder_document_lookup]; rfl⟩

/-- The position and the geo tags of a returned record and of its document. -/
theorem latlng_geotags_eq (r : TransponderReportDataStreamV1)
    (record : FirestoreTransponderReportV1) (hr : r.firestoreRecord = .ok record) :
    record.LatLng = r.reportGeoObj ∧ record.GeoTags = r.reportGeoTags.getD [] ∧
    List.lookup (str "latLng") record.document = omitEmptyLatLng record.LatLng ∧
    List.lookup (str "geoTags") record.document = omitEmptyGeoTags record.GeoTags := by
  rw [firestoreRecord_eq r (firestoreRecord_valid r record hr)] at hr
  cases hr
  exact ⟨rfl, rfl, by rw [transponder_document_lookup]; rfl,
    by rw [transponder_document_lookup]; rfl⟩

theorem omitEmptyFloat_zero : omitEmptyFloat Float64.zero = none := by
  simp [omitEmptyFloat, Float64.eq]

theorem omitEmptyFloat_of_ne (x : Float64) (h : ¬ Float64.eq x Float64.zero) :
    omitEmptyFloat x = some (.number x) := by
  simp [omitEmptyFloat, h]

/-- Claim C26. For every transponder report of a recognised kind `firestoreRecord` returns a
record, and for every extracted field, when the field is missing from the payload or has the
wrong JSON type (the extractor's type assertion fails), the field of the record keeps its zero
value and its tag is not in the stored document: the numeric fields, the two timestamps, the
two booleans, the position when the latitude or the longitude fails, and the geo tags when
they are absent or one of them is malformed. -/
theorem absent_fields_omitted (r : TransponderReportDataStreamV1)
    (hk : r.reportDataType ∈ transponderKinds) :
    ∃ record, r.firestoreRecord = .ok record ∧
    (∀ f ∈ transponderNumberFields, (r.json.Path f.path).asFloat64 = none →
      f.get record = Float64.zero ∧ List.lookup f.tag record.document = none) ∧
    (∀ f ∈ transponderTimeFields, (r.json.Path f.path).asFloat64 = none →
      f.get record = Time.zero ∧ List.lookup f.tag record.document = none) ∧
    (∀ f ∈ transponderBoolFields, (r.json.Path f.path).asBool = none →
      f.get record = false ∧ List.lookup f.tag record.document = none) ∧
    ((r.json.Path (str "data.location.latitude")).asFloat64 = none ∨
        (r.json.Path (str "data.location.longitude")).asFloat64 = none →
      record.LatLng = none ∧ List.lookup (str "latLng") record.document = none) ∧
    ((r.json.Path (str "data.location.geoTags")).ChildrenMap = [] ∨ r.reportGeoTags = none →
      record.GeoTags = [] ∧ List.lookup (str "geoTags") record.document = none) := by
  obtain ⟨record, hr⟩ : ∃ record, r.firestoreRecord = .ok record :=
    ⟨_, firestoreRecord_eq r ((validDataType_iff r).2 hk)⟩
  refine ⟨record, hr, ?_, ?_, ?_, ?_, ?_⟩
  · intro f hf h
    obtain ⟨h1, h2⟩ := number_field_eq r record hr f hf
    rw [h] at h1
    have h1 : f.get record = Float64.zero := h1
    rw [h2, h1]
    exact ⟨rfl, omitEmptyFloat_zero⟩
  · intro f hf h
    obtain ⟨h1, h2⟩ := time_field_eq r record hr f hf
    rw [h] at h1
    have h1 : f.get record = Time.zero := h1
    rw [h2, h1]
    exact ⟨rfl, rfl⟩
  · intro f hf h
    obtain ⟨h1, h2⟩ := bool_field_eq r record hr f hf
    rw [h] at h1
    have h1 : f.get record = false := h1
    rw [h2, h1]
    exact ⟨rfl, rfl⟩
  · intro h
    obtain ⟨h1, _, h3, _⟩ := latlng_geotags_eq r record hr
    have hg : r.reportGeoObj = none := by
      unfold TransponderReportDataStreamV1.reportGeoObj
      rcases h with h | h
      · rw [h]
      · rw [h]
        cases (r.json.Path (str "data.location.latitude")).asFloat64 <;> rfl
    rw [hg] at h1
    rw [h3, h1]
    exact ⟨rfl, rfl⟩
  · intro h
    obtain ⟨_, h2, _, h4⟩ := latlng_geotags_eq r record hr
    have hg : r.reportGeoTags.getD [] = [] := by
      rcases h with h | h
      · unfold TransponderReportDataStreamV1.reportGeoTags
        rw [h]
        rfl
      · rw [h]
        rfl
    rw [hg] at h2
    rw [h4, h2]
    exact ⟨rfl, rfl⟩

/-- Claim C26 on a status report whose payload has the text `fast` for the speed: the record
is returned, its speed is 0 and the document has no tag `speed`. -/
theorem absent_fields_omitted_witness :
    ∃ record,
      TransponderReportDataStreamV1.firestoreRecord
        ⟨str "REPORT_DATA", str "status", [], [],
          .obj [(str "data", .obj [(str "parameters",
            .obj [(str "speed", .str (str "fast"))])])]⟩ = .ok record ∧
      record.Speed = Float64.zero ∧ List.lookup (str "speed") record.document = none :=
  (absent_fields_omitted
    ⟨str "REPORT_DATA", str "status", [], [],
      .obj [(str "data", .obj [(str "parameters",
        .obj [(str "speed", .str (str "fast"))])])]⟩ (by decide)).elim
    fun record h => ⟨record, h.1,
      h.2.1 ⟨str "data.parameters.speed", str "speed", fun r => r.Speed⟩
        (by simp [transponderNumberFields]) rfl⟩

/-- Claim C27 as stated fails: a status report with `data.parameters.speed` = 0,
`data.inProgress` = false, `data.location.latitude` = 45 without a longitude and
`data.reportTimestamp` = 10^13, all present with the expected JSON type, gives a record whose
stored document has neither the tag `speed` nor the tag `inProgress` nor the tag `latLng`, and
whose `reportTimestamp` is an instant before the epoch, not the wire value. -/
theorem present_zero_not_stored :
    ∃ record,
      TransponderReportDataStreamV1.firestoreRecord
        ⟨str "REPORT_DATA", str "status", [], [],
          .obj [(str "data", .obj [(str "inProgress", .bool false),
            (str "location", .obj [(str "latitude", .num (Float64.ofNat 45))]),
            (str "parameters", .obj [(str "speed", .num (Float64.ofNat 0))]),
            (str "reportTimestamp", .num (Float64.ofNat 10000000000000))])]⟩ =
        .ok record ∧
      Json.Path
        (.obj [(str "data", .obj [(str "inProgress", .bool false),
          (str "location", .obj [(str "latitude", .num (Float64.ofNat 45))]),
          (str "parameters", .obj [(str "speed", .num (Float64.ofNat 0))]),
          (str "reportTimestamp", .num (Float64.ofNat 10000000000000))])])
        (str "data.parameters.speed") = .num (Float64.ofNat 0) ∧
      Json.Path
        (.obj [(str "data", .obj [(str "inProgress", .bool false),
          (str "location", .obj [(str "latitude", .num (Float64.ofNat 45))]),
          (str "parameters", .obj [(str "speed", .num (Float64.ofNat 0))]),
          (str "reportTimestamp", .num (Float64.ofNat 10000000000000))])])
        (str "data.inProgress") = .bool false ∧
      Json.Path
        (.obj [(str "data", .obj [(str "inProgress", .bool false),
          (str "location", .obj [(str "latitude", .num (Float64.ofNat 45))]),
          (str "parameters", .obj [(str "speed", .num (Float64.ofNat 0))]),
          (str "reportTimestamp", .num (Float64.ofNat 10000000000000))])])
        (str "data.location.latitude") = .num (Float64.ofNat 45) ∧
      Json.Path
        (.obj [(str "data", .obj [(str "inProgress", .bool false),
          (str "location", .obj [(str "latitude", .num (Float64.ofNat 45))]),
          (str "parameters", .obj [(str "speed", .num (Float64.ofNat 0))]),
          (str "reportTimestamp", .num (Float64.ofNat 10000000000000))])])
        (str "data.reportTimestamp") = .num (Float64.ofNat 10000000000000) ∧
      List.lookup (str "speed") record.document = none ∧
      List.lookup (str "inProgress") record.document = none ∧
      List.lookup (str "latLng") record.document = none ∧
      List.lookup (str "reportTimestamp") record.document =
        some (.timestamp (-8446744073709551616)) :=
  ⟨{ ReportTimestamp := .unixNano (-8446744073709551616), Type_ := str "status" },
    rfl, rfl, rfl, rfl, rfl, rfl, rfl, rfl, rfl⟩

/-- Claim C27, amended. For every transponder report of a recognised kind `firestoreRecord`
returns a record, and for every scalar field that is present in the payload with its expected
JSON type the field of the record holds the wire value. A number is stored with the wire value
unless it equals 0, and a boolean unless it is false: these the `omitempty` tag leaves out of
the document. A timestamp is always stored, the wire value 0 included, as the instant
`int64(ms)` times one million nanoseconds in 64 bits, which is `floor(ms)` milliseconds after
the epoch when ms is not negative or is whole and its floor lies between -9223372036854 and
9223372036854. The latitude and the longitude are stored together as the point `latLng`, zeros
included, and not at all when one of them is missing or no number. -/
theorem present_fields_set (r : TransponderReportDataStreamV1)
    (hk : r.reportDataType ∈ transponderKinds) :
    ∃ record, r.firestoreRecord = .ok record ∧
    (∀ f ∈ transponderNumberFields, ∀ x, r.json.Path f.path = .num x →
      f.get record = x ∧
      (¬ Float64.eq x Float64.zero →
        List.lookup f.tag record.document = some (.number x)) ∧
      (Float64.eq x Float64.zero → List.lookup f.tag record.document = none)) ∧
    (∀ f ∈ transponderTimeFields, ∀ x, r.json.Path f.path = .num x →
      f.get record = (nanoEpochTimeObject x).1 ∧
      List.lookup f.tag record.document =
        some (.timestamp (wrapInt64 (int64OfFloat x * 1000000))) ∧
      (Float64.le Float64.zero x ∨ x.IsWhole → -9223372036854 ≤ Float64.floor x →
        Float64.floor x ≤ 9223372036854 →
        List.lookup f.tag record.document =
          some (.timestamp (Float64.floor x * 1000000)))) ∧
    (∀ f ∈ transponderBoolFields, ∀ b, r.json.Path f.path = .bool b →
      f.get record = b ∧
      List.lookup f.tag record.document = if b then some (.boolean true) else none) ∧
    (∀ lat long, r.json.Path (str "data.location.latitude") = .num lat →
      r.json.Path (str "data.location.longitude") = .num long →
      record.LatLng = some ⟨lat, long⟩ ∧
      List.lookup (str "latLng") record.document = some (.geoPoint ⟨lat, long⟩)) ∧
    ((r.json.Path (str "data.location.latitude")).asFloat64 = none ∨
        (r.json.Path (str "data.location.longitude")).asFloat64 = none →
      record.LatLng = none ∧ List.lookup (str "latLng") record.document = none) := by
  obtain ⟨record, hr⟩ : ∃ record, r.firestoreRecord = .ok record :=
    ⟨_, firestoreRecord_eq r ((validDataType_iff r).2 hk)⟩
  refine ⟨record, hr, ?_, ?_, ?_, ?_, ?_⟩
  · intro f hf x h
    obtain ⟨h1, h2⟩ := number_field_eq r record hr f hf
    rw [h] at h1
    have h1 : f.get record = x := h1
    rw [h2, h1]
    refine ⟨rfl, omitEmptyFloat_of_ne x, fun h0 => ?_⟩
    simp [omitEmptyFloat, h0]
  · intro f hf x h
    obtain ⟨h1, h2⟩ := time_field_eq r record hr f hf
    rw [h] at h1
    have h1 : f.get record = (nanoEpochTimeObject x).1 := h1
    rw [h2, h1]
    refine ⟨rfl, rfl, fun h0 hlo hhi => ?_⟩
    rw [nanoEpochTimeObject_of_range x h0 hlo hhi]
    rfl
  · intro f hf b h
    obtain ⟨h1, h2⟩ := bool_field_eq r record hr f hf
    rw [h] at h1
    have h1 : f.get record = b := h1
    rw [h2, h1]
    refine ⟨rfl, ?_⟩
    cases b <;> rfl
  · intro lat long hlat hlong
    obtain ⟨h1, _, h3, _⟩ := latlng_geotags_eq r record hr
    have hg : r.reportGeoObj = some ⟨lat, long⟩ := by
      unfold TransponderReportDataStreamV1.reportGeoObj
      rw [hlat, hlong]
      rfl
    rw [hg] at h1
    rw [h3, h1]
    exact ⟨rfl, rfl⟩
  · intro h
    obtain ⟨h1, _, h3, _⟩ := latlng_geotags_eq r record hr
    have hg : r.reportGeoObj = none := by
      unfold TransponderReportDataStreamV1.reportGeoObj
      rcases h with h | h
      · rw [h]
      · rw [h]
        cases (r.json.Path (str "data.location.latitude")).asFloat64 <;> rfl
    rw [hg] at h1
    rw [h3, h1]
    exact ⟨rfl, rfl⟩

/-- Claim C27, amended, on the specification's example and on zeros: a status report with
`data.parameters.speed` = 42, `data.reportTimestamp` = 0 and the position 0, 0 is stored with
`speed` = 42, the instant of the epoch and the point 0, 0. -/
theorem present_fields_set_witness :
    ∃ record,
      TransponderReportDataStreamV1.firestoreRecord
        ⟨str "REPORT_DATA", str "status", [], [],
          .obj [(str "data", .obj [
            (str "location", .obj [(str "latitude", .num (Float64.ofNat 0)),
              (str "longitude", .num (Float64.ofNat 0))]),
            (str "parameters", .obj [(str "speed", .num (Float64.ofNat 42))]),
            (str "reportTimestamp", .num (Float64.ofNat 0))])]⟩ = .ok record ∧
      record.Speed = Float64.ofNat 42 ∧
      List.lookup (str "speed") record.document = some (.number (Float64.ofNat 42)) ∧
      List.lookup (str "reportTimestamp") record.document = some (.timestamp 0) ∧
      List.lookup (str "latLng") record.document =
        some (.geoPoint ⟨Float64.ofNat 0, Float64.ofNat 0⟩) :=
  (present_fields_set
    ⟨str "REPORT_DATA", str "status", [], [],
      .obj [(str "data", .obj [
        (str "location", .obj [(str "latitude", .num (Float64.ofNat 0)),
          (str "longitude", .num (Float64.ofNat 0))]),
        (str "parameters", .obj [(str "speed", .num (Float64.ofNat 42))]),
        (str "reportTimestamp", .num (Float64.ofNat 0))])]⟩ (by decide)).elim
    fun record h => ⟨record, h.1,
      (h.2.1 ⟨str "data.parameters.speed", str "speed", fun r => r.Speed⟩
        (by simp [transponderNumberFields]) (Float64.ofNat 42) rfl).1,
      (h.2.1 ⟨str "data.parameters.speed", str "speed", fun r => r.Speed⟩
        (by simp [transponderNumberFields]) (Float64.ofNat 42) rfl).2.1 (by decide),
      (h.2.2.1 ⟨str "data.reportTimestamp", str "reportTimestamp", fun r => r.ReportTimestamp⟩
        (by simp [transponderTimeFields]) (Float64.ofNat 0) rfl).2.2 (by decide) (by decide)
        (by decide),
      (h.2.2.2.2.1 (Float64.ofNat 0) (Float64.ofNat 0) rfl rfl).2⟩

/-! ## The identifiers of a destination path -/

theorem decimal_ne_nil (n : Nat) : decimal n ≠ [] := by
  have h : 0 < (Nat.toDigits 10 n).length := by
    unfold Nat.toDigits
    rw [Nat.toDigitsCore]
    split_ifs
    · simp
    · rw [Nat.toDigitsCore_lens_eq]
      omega
  intro hnil
  unfold decimal at hnil
  rw [List.map_eq_nil_iff] at hnil
  rw [hnil] at h
  simp at h

theorem fmtFloat0_ne_nil (f : Float64) : fmtFloat0 f ≠ [] := by
  unfold fmtFloat0
  intro h
  exact decimal_ne_nil _ (List.append_eq_nil.1 h).2

theorem GoMap.set_valuesNonEmpty (m : GoMap) (k v : GoString) (hm : m.ValuesNonEmpty)
    (hv : v ≠ []) : (m.set k v).ValuesNonEmpty := by
  induction m with
  | nil =>
    intro kv hkv
    simp only [GoMap.set, List.mem_singleton] at hkv
    rw [hkv]
    exact hv
  | cons p m ih =>
    obtain ⟨k1, v1⟩ := p
    have hm1 : GoMap.ValuesNonEmpty m := fun kv hkv => hm kv (List.mem_cons_of_mem _ hkv)
    intro kv hkv
    unfold GoMap.set at hkv
    split_ifs at hkv
    · rcases List.mem_cons.1 hkv with h | h
      · rw [h]
        exact hv
      · exact hm1 kv h
    · rcases List.mem_cons.1 hkv with h | h
      · rw [h]
        exact hm (k1, v1) (List.mem_cons_self _ _)
      · exact ih hm1 kv h

theorem GoMap.get_ne_nil (m : GoMap) (hm : m.ValuesNonEmpty) (k v : GoString)
    (h : m.get k = some v) : v ≠ [] := by
  induction m with
  | nil => simp [GoMap.get] at h
  | cons p m ih =>
    obtain ⟨k1, v1⟩ := p
    unfold GoMap.get at h ih
    by_cases hk : k = k1
    · subst hk
      simp only [List.lookup, beq_self_eq_true, Option.some.injEq] at h
      rw [← h]
      exact hm (k, v1) (List.mem_cons_self _ _)
    · have hb : (k == k1) = false := by simpa using hk
      simp only [List.lookup, hb] at h
      exact ih (fun kv hkv => hm kv (List.mem_cons_of_mem _ hkv)) h

theorem deviceEntry_valuesNonEmpty (m : GoMap) (c : Json) (hm : m.ValuesNonEmpty) :
    (deviceEntry m c).ValuesNonEmpty := by
  rw [deviceEntry_eq]
  split
  · split_ifs
    · exact GoMap.set_valuesNonEmpty m _ _ hm (fmtFloat0_ne_nil _)
    · exact hm
  · exact hm

theorem accountEntry_valuesNonEmpty (m : GoMap) (c : Json) (hm : m.ValuesNonEmpty) :
    (accountEntry m c).ValuesNonEmpty := by
  unfold accountEntry
  cases (c.Search [str "accountId"]).asFloat64 <;> cases (c.Search [str "apiId"]).asFloat64
  · exact hm
  · exact hm
  · exact hm
  · exact GoMap.set_valuesNonEmpty m _ _ hm (fmtFloat0_ne_nil _)

theorem foldl_valuesNonEmpty (step : GoMap → Json → GoMap)
    (hstep : ∀ m c, GoMap.ValuesNonEmpty m → (step m c).ValuesNonEmpty) (cs : List Json)
    (m : GoMap) (hm : m.ValuesNonEmpty) : (cs.foldl step m).ValuesNonEmpty := by
  induction cs generalizing m with
  | nil => exact hm
  | cons c cs ih => exact ih _ (hstep m c hm)

/-- A refresh keeps the values of both maps non-empty. -/
theorem buildNavajoIdMaps_valuesNonEmpty (send : GoString → HttpResult)
    (conf : NavajoAuthConfig) (ids : NavajoAccountData)
    (h : ids.clAccountIdMap.ValuesNonEmpty ∧ ids.clDeviceIdMap.ValuesNonEmpty) :
    (buildNavajoIdMaps send conf ids).clAccountIdMap.ValuesNonEmpty ∧
      (buildNavajoIdMaps send conf ids).clDeviceIdMap.ValuesNonEmpty := by
  obtain ⟨hd, ha⟩ := refresh_maps send conf ids
  constructor
  · rcases ha with ha | ⟨body, _, ha⟩
    · rw [ha]
      exact h.1
    · rw [ha]
      exact foldl_valuesNonEmpty _ accountEntry_valuesNonEmpty _ _ h.1
  · rcases hd with hd | ⟨body, _, hd⟩
    · rw [hd]
      exact h.2
    · rw [hd]
      exact foldl_valuesNonEmpty _ deviceEntry_valuesNonEmpty _ _ h.2

/-- Every cache that the refreshes of a run reach has non-empty values in both maps. -/
theorem cacheAfter_valuesNonEmpty (conf : NavajoAuthConfig)
    (refreshes : List (GoString → HttpResult)) :
    (cacheAfter conf refreshes).clAccountIdMap.ValuesNonEmpty ∧
      (cacheAfter conf refreshes).clDeviceIdMap.ValuesNonEmpty := by
  unfold cacheAfter
  have key : ∀ (ids : NavajoAccountData),
      (ids.clAccountIdMap.ValuesNonEmpty ∧ ids.clDeviceIdMap.ValuesNonEmpty) →
      (refreshes.foldl (fun ids send => buildNavajoIdMaps send conf ids) ids
        ).clAccountIdMap.ValuesNonEmpty ∧
      (refreshes.foldl (fun ids send => buildNavajoIdMaps send conf ids) ids
        ).clDeviceIdMap.ValuesNonEmpty := by
    induction refreshes with
    | nil => exact fun ids h => h
    | cons send rest ih =>
      intro ids h
      exact ih _ (buildNavajoIdMaps_valuesNonEmpty send conf ids h)
  exact key _ ⟨fun kv hkv => (by cases hkv), fun kv hkv => (by cases hkv)⟩

/-- A write of the transponder writer goes to the reference of the envelope that `build`
accepted. -/
theorem writer_write_ref (ids : NavajoAccountData) (rds : TransponderReportDataStreamV1)
    (writes : List TransponderWrite) (w : TransponderWrite)
    (hw : transponderReportWriterV1 ids rds writes = writes ++ [w]) :
    (rds.build ids).2 = true ∧ w.ref = (rds.build ids).1.firestoreReference := by
  unfold transponderReportWriterV1 at hw
  split at hw
  · simp at hw
  · rename_i r1 heq
    split at hw
    · simp at hw
    · rename_i record hrec
      simp only [List.append_cancel_left_eq, List.cons.injEq, and_true] at hw
      rw [heq, ← hw]
      exact ⟨rfl, rfl⟩

/-- The two identifiers that a successful `build` of an ELD envelope stores in it. -/
theorem eld_build_fields (r : EldReportDataStreamV1) (ids : NavajoAccountData)
    (hb : (r.build ids).2 = true) :
    (∃ a, ids.clAccountIdMap.get a = some (r.build ids).1.cwAccountId) ∧
      ∃ u, (r.build ids).1.clUserId = fmtFloat0 u := by
  revert hb
  rw [eld_build_eq]
  split
  · rename_i a u ha hu
    cases hA : ids.clAccountIdMap.get (fmtFloat0 a) with
    | none => simp
    | some A =>
      intro _
      constructor
      · exact Exists.intro (fmtFloat0 a) hA
      · exact Exists.intro u rfl
  · simp

/-- Claim C28. In every cache state reached from two empty maps by a sequence of refreshes,
every write of the transponder writer goes to `account/{A}/vehicle/{D}/report_data` with `A` and
`D` non-empty, and every write of the ELD writer goes to `account/{A}/driver/{U}/report_data`
with `A` and `U` non-empty. -/
theorem write_paths_nonempty (conf : NavajoAuthConfig)
    (refreshes : List (GoString → HttpResult)) :
    (∀ (rds : TransponderReportDataStreamV1) (writes : List TransponderWrite)
        (w : TransponderWrite),
      transponderReportWriterV1 (cacheAfter conf refreshes) rds writes = writes ++ [w] →
      ∃ A D, A ≠ [] ∧ D ≠ [] ∧
        w.ref = str "account/" ++ A ++ str "/vehicle/" ++ D ++ str "/report_data") ∧
    (∀ (setFails : Bool) (rds : EldReportDataStreamV1) (st : EldWriterState) (w : EldWrite),
      (eldReportWriterV1 (cacheAfter conf refreshes) setFails rds st).writes =
        st.writes ++ [w] →
      ∃ A U, A ≠ [] ∧ U ≠ [] ∧
        w.ref = str "account/" ++ A ++ str "/driver/" ++ U ++ str "/report_data") := by
  obtain ⟨hA, hD⟩ := cacheAfter_valuesNonEmpty conf refreshes
  constructor
  · intro rds writes w hw
    obtain ⟨hb, href⟩ := writer_write_ref _ rds writes w hw
    obtain ⟨t, a, ht, ha, _, _⟩ := (build_true_iff rds _).1 hb
    obtain ⟨h1, h2⟩ := build_fields rds _ t a ht ha hb
    exact ⟨_, _, GoMap.get_ne_nil _ hA _ _ h1, GoMap.get_ne_nil _ hD _ _ h2,
      by rw [href, firestoreReference_eq]⟩
  · intro setFails rds st w hw
    rcases eld_writer_writes (cacheAfter conf refreshes) setFails rds st with h | ⟨_, hb, _, h⟩
    · rw [h] at hw
      have := congrArg List.length hw
      simp at this
    · rw [h] at hw
      simp only [List.append_cancel_left_eq, List.cons.injEq, and_true] at hw
      obtain ⟨⟨a, h1⟩, ⟨u, h2⟩⟩ := eld_build_fields rds _ hb
      refine ⟨(rds.build (cacheAfter conf refreshes)).1.cwAccountId, fmtFloat0 u,
        GoMap.get_ne_nil _ hA _ _ h1, ?_, ?_⟩
      · exact fmtFloat0_ne_nil u
      · rw [← hw, eld_firestoreReference_eq, h2]

/-- Claim C28 on a run with one refresh that lists the device 5 with transponder 9000 and the
account 7 with the API identifier 100: the status report of transponder 9000 and account 100 is
written to `account/7/vehicle/5/report_data`, both identifiers non-empty. -/
theorem write_paths_nonempty_witness :
    transponderReportWriterV1
        (cacheAfter ⟨str "http://navajo", [], []⟩
          [fun url =>
            if url = str "http://navajo/v1/devices?limit=10000" then
              .response 200 (.arr [.obj [
                (str "state", .obj [(str "state", .str (str "ACTIVE"))]),
                (str "webId", .num (Float64.ofNat 5)),
                (str "currentTransponder",
                  .obj [(str "transponderId", .num (Float64.ofNat 9000))])]])
            else
              .response 200 (.arr [.obj [(str "accountId", .num (Float64.ofNat 7)),
                (str "apiId", .num (Float64.ofNat 100))]])])
        ⟨str "REPORT_DATA", str "status", [], [],
          .obj [(str "transponderId", .num (Float64.ofNat 9000)),
            (str "accountId", .num (Float64.ofNat 100))]⟩ [] =
      [] ++ [⟨str "account/7/vehicle/5/report_data", { Type_ := str "status" }⟩] ∧
    ∃ A D, A ≠ [] ∧ D ≠ [] ∧
      str "account/7/vehicle/5/report_data" =
        str "account/" ++ A ++ str "/vehicle/" ++ D ++ str "/report_data" :=
  ⟨by decide,
    (write_paths_nonempty ⟨str "http://navajo", [], []⟩
      [fun url =>
        if url = str "http://navajo/v1/devices?limit=10000" then
          .response 200 (.arr [.obj [
            (str "state", .obj [(str "state", .str (str "ACTIVE"))]),
            (str "webId", .num (Float64.ofNat 5)),
            (str "currentTransponder",
              .obj [(str "transponderId", .num (Float64.ofNat 9000))])]])
        else
          .response 200 (.arr [.obj [(str "accountId", .num (Float64.ofNat 7)),
            (str "apiId", .num (Float64.ofNat 100))]])]).1
      ⟨str "REPORT_DATA", str "status", [], [],
        .obj [(str "transponderId", .num (Float64.ofNat 9000)),
          (str "accountId", .num (Float64.ofNat 100))]⟩ []
      ⟨str "account/7/vehicle/5/report_data", { Type_ := str "status" }⟩ (by decide)⟩
/-! ## oauth.go: the nonce -/

theorem base64Char_mem (val : Nat) : base64Char val ∈ encodeStd := by
  unfold base64Char
  have hlen : encodeStd.length = 64 := by decide
  have hlt : val % 64 < encodeStd.length := by rw [hlen]; exact Nat.mod_lt _ (by decide)
  rw [List.getD_eq_getElem _ _ hlt]
  exact List.getElem_mem hlt

theorem base64Encode_raw_aux (n : Nat) : ∀ b : GoString, b.length ≤ n →
    (∀ c ∈ base64Encode false b, c ∈ encodeStd) ∧
      (base64Encode false b).length = (4 * b.length + 2) / 3 := by
  induction n with
  | zero =>
    intro b hb
    have hnil : b = [] := List.length_eq_zero.1 (Nat.le_zero.1 hb)
    subst hnil
    rw [base64Encode]
    exact ⟨fun c hc => (by cases hc), rfl⟩
  | succ n ih =>
    intro b hb
    match b, hb with
    | [], _ =>
      rw [base64Encode]
      exact ⟨fun c hc => (by cases hc), rfl⟩
    | [a], _ =>
      rw [base64Encode]
      constructor
      · intro x hx
        simp only [Bool.false_eq_true, if_false, List.append_nil, List.mem_cons,
          List.mem_singleton, List.not_mem_nil, or_false] at hx
        rcases hx with h | h
        · rw [h]; exact base64Char_mem _
        · rw [h]; exact base64Char_mem _
      · simp
    | [a, b], _ =>
      rw [base64Encode]
      constructor
      · intro x hx
        simp only [Bool.false_eq_true, if_false, List.append_nil, List.mem_cons,
          List.mem_singleton, List.not_mem_nil, or_false] at hx
        rcases hx with h | h | h
        · rw [h]; exact base64Char_mem _
        · rw [h]; exact base64Char_mem _
        · rw [h]; exact base64Char_mem _
      · simp
    | a :: b :: c :: rest, hb =>
      have hrest : rest.length ≤ n := by
        simp only [List.length_cons] at hb
        omega
      obtain ⟨ih1, ih2⟩ := ih rest hrest
      rw [base64Encode]
      constructor
      · intro x hx
        simp only [List.mem_cons] at hx
        rcases hx with h | h | h | h | h
        · rw [h]; exact base64Char_mem _
        · rw [h]; exact base64Char_mem _
        · rw [h]; exact base64Char_mem _
        · rw [h]; exact base64Char_mem _
        · exact ih1 x h
      · simp only [List.length_cons, ih2]
        omega

/-- The characters and the length of an encoding without padding. -/
theorem base64Encode_raw (b : GoString) :
    (∀ c ∈ base64Encode false b, c ∈ encodeStd) ∧
      (base64Encode false b).length = (4 * b.length + 2) / 3 :=
  base64Encode_raw_aux b.length b (Nat.le_refl _)

/-- Claim C30 as stated fails: the nonce of 32 bytes `0xFF` contains the character `/`, which
is not in the URL-safe alphabet. -/
theorem nonce_not_url_safe :
    charByte '/' ∈ nonce (List.replicate 32 255) ∧ charByte '/' ∉ encodeURL := by
  decide

/-- Claim C30, amended. For every 32 bytes of randomness the nonce is their base64 encoding in
the standard alphabet without padding (`base64.RawStdEncoding`): a string of 43 characters, each
one of `A`-`Z`, `a`-`z`, `0`-`9`, `+` and `/`, and none of them `=`. -/
theorem nonce_raw_std (b : GoString) (h : b.length = 32) :
    nonce b = base64Encode false b ∧ (nonce b).length = 43 ∧
    (∀ c ∈ nonce b, c ∈ encodeStd) ∧ charByte '=' ∉ nonce b := by
  have hraw := base64Encode_raw b
  refine ⟨rfl, ?_, hraw.1, ?_⟩
  · show (base64Encode false b).length = 43
    rw [hraw.2, h]
  · intro hmem
    have hstd : charByte '=' ∉ encodeStd := by decide
    exact hstd (hraw.1 _ hmem)

/-- Claim C30, amended, on 32 bytes `0x00`: the nonce is the letter `A` 43 times. -/
theorem nonce_raw_std_witness :
    (nonce (List.replicate 32 0)).length = 43 ∧
    nonce (List.replicate 32 0) = List.replicate 43 (charByte 'A') :=
  ⟨(nonce_raw_std (List.replicate 32 0) (by decide)).2.1, by decide⟩
/-! ## websocket.go: what is signed and what the header carries -/

theorem Websocket_of_url (authConf : CLAPIOauthConfig) (parseURL : GoString → Option URL)
    (hmacSha1 : GoString → GoString → GoString) (unixNow : Int) (random : GoString)
    (nr : NewWebsocketRequest) (u : URL)
    (hu : parseURL (authConf.url ++ nr.params.1) = some u) :
    Websocket authConf parseURL hmacSha1 unixNow random nr =
      some
        { signedParams := oAuthParams authConf unixNow random ++ nr.paramKeyMap,
          signatureBase :=
            signatureBase ⟨str "GET", u⟩ (oAuthParams authConf unixNow random ++ nr.paramKeyMap),
          headerParams := oAuthParams authConf unixNow random ++
            [(str "oauth_signature",
              (hmacSign hmacSha1 authConf.OauthConsumerSecret OauthTokenSecret
                (signatureBase ⟨str "GET", u⟩
                  (oAuthParams authConf unixNow random ++ nr.paramKeyMap))).1)],
          authorization := authHeaderValue (oAuthParams authConf unixNow random ++
            [(str "oauth_signature",
              (hmacSign hmacSha1 authConf.OauthConsumerSecret OauthTokenSecret
                (signatureBase ⟨str "GET", u⟩
                  (oAuthParams authConf unixNow random ++ nr.paramKeyMap))).1)]),
          url := authConf.wsUrl ++ nr.params.1 } := by
  obtain ⟨ka, rc, cp⟩ := nr
  unfold Websocket
  cases ka <;> cases rc <;>
  · simp only
    rw [hu]
    rfl

theorem Websocket_of_no_url (authConf : CLAPIOauthConfig) (parseURL : GoString → Option URL)
    (hmacSha1 : GoString → GoString → GoString) (unixNow : Int) (random : GoString)
    (nr : NewWebsocketRequest)
    (hu : parseURL (authConf.url ++ nr.params.1) = none) :
    Websocket authConf parseURL hmacSha1 unixNow random nr = none := by
  obtain ⟨ka, rc, cp⟩ := nr
  unfold Websocket
  cases ka <;> cases rc <;>
  · simp only
    rw [hu]

theorem hmacSign_fst (hmacSha1 : GoString → GoString → GoString)
    (consumerSecret tokenSecret message : GoString) :
    (hmacSign hmacSha1 consumerSecret tokenSecret message).1 =
      base64Encode true (hmacSha1 (consumerSecret ++ str "&" ++ tokenSecret) message) := by
  simp [hmacSign, stringsJoin, List.intercalate, List.intersperse]

theorem signatureBase_get (u : URL) (params : GoMap) :
    signatureBase ⟨str "GET", u⟩ params =
      str "GET" ++ str "&" ++ PercentEncode (baseURI ⟨str "GET", u⟩) ++ str "&" ++
        PercentEncode (normalizedParameterString params) := by
  have hg : toUpper (str "GET") = str "GET" := by decide
  simp [signatureBase, stringsJoin, List.intercalate, List.intersperse, hg]

/-- Claim C29. When `http.NewRequest` cannot parse the URL of the helper request, `Websocket`
panics. Otherwise, for every dial request whose URL has an ASCII scheme and host: the parameter
set that is signed consists of the five OAuth parameters and every optional query parameter of
the request (`keepAlive`, `checkpoint`); the signature base string is `GET`, the encoded base
URI and the encoded normalised string of that set, joined with `&`; the parameter
`oauth_signature` of the header is the base64 text of the HMAC of that base string under the
key `consumer secret & token secret`; the other parameters of the header are the five OAuth
parameters with their values; so the header has exactly the keys `oauth_consumer_key`,
`oauth_nonce`, `oauth_signature`, `oauth_signature_method`, `oauth_timestamp` and
`oauth_version`, each once, and never `keepAlive` or `checkpoint`; and the `Authorization`
header is `authHeaderValue` of these parameters. -/
theorem dial_signs_query_params (authConf : CLAPIOauthConfig)
    (parseURL : GoString → Option URL) (hmacSha1 : GoString → GoString → GoString)
    (unixNow : Int) (random : GoString) (nr : NewWebsocketRequest) :
    (parseURL (authConf.url ++ nr.params.1) = none →
      Websocket authConf parseURL hmacSha1 unixNow random nr = none) ∧
    (∀ u, parseURL (authConf.url ++ nr.params.1) = some u → isASCII u.Scheme →
      isASCII u.Host →
      ∃ d, Websocket authConf parseURL hmacSha1 unixNow random nr = some d ∧
      (∀ kv, kv ∈ d.signedParams ↔
        kv ∈ oAuthParams authConf unixNow random ∨ kv ∈ nr.paramKeyMap) ∧
      (oAuthParams authConf unixNow random).keys =
        [str "oauth_consumer_key", str "oauth_signature_method", str "oauth_timestamp",
          str "oauth_nonce", str "oauth_version"] ∧
      d.signedParams.get (str "keepAlive") =
        (if nr.passiveKeepAlive then some (str "passive") else none) ∧
      d.signedParams.get (str "checkpoint") =
        (if nr.resumeCheckpoint then some (fmtFloat0 nr.checkpointToResume) else none) ∧
      d.signatureBase =
        str "GET" ++ str "&" ++ PercentEncode (baseURI ⟨str "GET", u⟩) ++ str "&" ++
          PercentEncode (normalizedParameterString d.signedParams) ∧
      d.headerParams.get (str "oauth_signature") =
        some (base64Encode true
          (hmacSha1 (authConf.OauthConsumerSecret ++ str "&" ++ OauthTokenSecret)
            d.signatureBase)) ∧
      (∀ k, k ≠ str "oauth_signature" →
        d.headerParams.get k = (oAuthParams authConf unixNow random).get k) ∧
      (∀ k, k ∈ d.headerParams.keys ↔
        k ∈ [str "oauth_consumer_key", str "oauth_nonce", str "oauth_signature",
          str "oauth_signature_method", str "oauth_timestamp", str "oauth_version"]) ∧
      d.headerParams.WF ∧
      str "keepAlive" ∉ d.headerParams.keys ∧
      str "checkpoint" ∉ d.headerParams.keys ∧
      d.authorization = authHeaderValue d.headerParams ∧
      d.url = authConf.wsUrl ++ nr.params.1) := by
  refine ⟨Websocket_of_no_url authConf parseURL hmacSha1 unixNow random nr,
    fun u hu _ _ => ⟨_, Websocket_of_url authConf parseURL hmacSha1 unixNow random nr u hu, ?_⟩⟩
  have hkeys : (oAuthParams authConf unixNow random ++
      [(str "oauth_signature",
        (hmacSign hmacSha1 authConf.OauthConsumerSecret OauthTokenSecret
          (signatureBase ⟨str "GET", u⟩
            (oAuthParams authConf unixNow random ++ nr.paramKeyMap))).1)]).keys =
      [str "oauth_consumer_key", str "oauth_signature_method", str "oauth_timestamp",
        str "oauth_nonce", str "oauth_version", str "oauth_signature"] := rfl
  refine ⟨?_, rfl, ?_, ?_, signatureBase_get u _, ?_, ?_, ?_, ?_, ?_, ?_, rfl, rfl⟩
  · intro kv
    exact List.mem_append
  · obtain ⟨ka, rc, cp⟩ := nr
    cases ka <;> cases rc <;> rfl
  · obtain ⟨ka, rc, cp⟩ := nr
    cases ka <;> cases rc <;> rfl
  · show List.lookup _ _ = _
    rw [← hmacSign_fst]
    rfl
  · intro k hk
    show List.lookup k (_ ++ _) = List.lookup k _
    rw [List.lookup_append]
    cases hl : List.lookup k (oAuthParams authConf unixNow random) with
    | some v => rfl
    | none =>
      have hb : (k == str "oauth_signature") = false := by simpa using hk
      show List.lookup k [(str "oauth_signature", _)] = none
      simp [List.lookup, hb]
  · intro k
    rw [hkeys]
    simp only [List.mem_cons, List.mem_singleton, List.not_mem_nil, or_false]
    tauto
  · show (List.map Prod.fst _).Nodup
    have hk : ∀ m : GoMap, m.map Prod.fst = m.keys := fun _ => rfl
    rw [hk, hkeys]
    decide
  · rw [hkeys]
    decide
  · rw [hkeys]
    decide

set_option maxRecDepth 100000 in
/-- Claim C29 on a request with `keepAlive` and the checkpoint 42, with a keyed hash that
returns the first three bytes of the key and of the message: both options are signed, the
header has neither, and its signature is the base64 text of `sec` and `GET`. -/
theorem dial_signs_query_params_witness :
    ∃ d,
      Websocket ⟨str "http://api/stream", str "ws://api/stream", str "key", str "secret"⟩
        (fun s => if s = str "http://api/stream?checkpoint=42&keepAlive=passive" then
          some ⟨str "http", str "api", str "/stream"⟩ else none)
        (fun key msg => key.take 3 ++ msg.take 3) 1700000000
        (List.replicate 32 0) ⟨true, true, Float64.ofNat 42⟩ = some d ∧
      d.signedParams.get (str "checkpoint") = some (str "42") ∧
      d.signedParams.get (str "keepAlive") = some (str "passive") ∧
      d.headerParams.get (str "oauth_signature") = some (str "c2VjR0VU") ∧
      str "checkpoint" ∉ d.headerParams.keys ∧
      str "keepAlive" ∉ d.headerParams.keys := by
  obtain ⟨d, hd, h⟩ := (dial_signs_query_params
      ⟨str "http://api/stream", str "ws://api/stream", str "key", str "secret"⟩
      (fun s => if s = str "http://api/stream?checkpoint=42&keepAlive=passive" then
        some ⟨str "http", str "api", str "/stream"⟩ else none)
      (fun key msg => key.take 3 ++ msg.take 3) 1700000000
      (List.replicate 32 0) ⟨true, true, Float64.ofNat 42⟩).2
    ⟨str "http", str "api", str "/stream"⟩ rfl (by decide) (by decide)
  refine ⟨d, hd, h.2.2.2.1, h.2.2.1, ?_, h.2.2.2.2.2.2.2.2.2.2.1, h.2.2.2.2.2.2.2.2.2.1⟩
  rw [h.2.2.2.2.2.1]
  obtain ⟨hh, rfl⟩ := Option.eq_some_iff_get_eq.1 hd
  rfl

/-! ## websocket.go: keep-alives and reports without a type -/

/-- Claim C31. For every frame whose content is the empty JSON object, a pass of `readPump`
records the time of the keep-alive, writes the message `{}` to the socket exactly once, sends
nothing on the ingress channel and leaves the checkpoint unchanged; the session goes on when
the write succeeds, and `readPump` returns false, with nothing transmitted, when the socket
rejects the write. -/
theorem keepalive_pass (maxJSONParseErrors : Float64) (i : PumpInput) (s : PumpState)
    (hctx : i.ctxDone = false) (hread : i.read = .message (some (.obj []))) :
    (readPumpPass maxJSONParseErrors i s).1.progress.latestKeepalive = i.now ∧
    (readPumpPass maxJSONParseErrors i s).1.progress.checkpoint = s.progress.checkpoint ∧
    (readPumpPass maxJSONParseErrors i s).1.firestoreAssembly = s.firestoreAssembly ∧
    (readPumpPass maxJSONParseErrors i s).1.unparseableSamples = s.unparseableSamples ∧
    (i.writeOk = true →
      (readPumpPass maxJSONParseErrors i s).1.written = s.written ++ [emptyKeepAlive] ∧
      (readPumpPass maxJSONParseErrors i s).2 = none) ∧
    (i.writeOk = false →
      (readPumpPass maxJSONParseErrors i s).1.written = s.written ∧
      (readPumpPass maxJSONParseErrors i s).2 = some false) := by
  obtain ⟨ctxDone, read, now, writeOk⟩ := i
  simp only at hctx hread
  subst hctx hread
  cases writeOk <;> simp [readPumpPass, Json.isEmptyObject]

/-- Claim C31 on the specification's fifth scenario: a frame `{}` is answered with `{}`, the
time of the keep-alive is recorded and nothing is sent on the ingress channel. -/
theorem keepalive_pass_witness :
    (readPumpPass (Float64.ofNat 100) ⟨false, .message (some (.obj [])), Time.unixNano 5, true⟩
      ⟨{}, 0, [], []⟩).1.written = [] ++ [str "\x7b\x7d"] ∧
    (readPumpPass (Float64.ofNat 100) ⟨false, .message (some (.obj [])), Time.unixNano 5, true⟩
      ⟨{}, 0, [], []⟩).1.progress.latestKeepalive = Time.unixNano 5 :=
  ⟨((keepalive_pass (Float64.ofNat 100)
      ⟨false, .message (some (.obj [])), Time.unixNano 5, true⟩ ⟨{}, 0, [], []⟩ rfl rfl
      ).2.2.2.2.1 rfl).1,
    (keepalive_pass (Float64.ofNat 100)
      ⟨false, .message (some (.obj [])), Time.unixNano 5, true⟩ ⟨{}, 0, [], []⟩ rfl rfl).1⟩

theorem processStreamingJSON_drops (pj : Json) (firestoreAssembly : List ReportDataStreamV1)
    (h : (pj.Path (str "type")).asString = none ∨ (pj.Path (str "dataType")).asString = none) :
    processStreamingJSON pj firestoreAssembly = (false, firestoreAssembly) := by
  unfold processStreamingJSON
  rcases h with h | h
  · simp only [h]
  · simp only [h]
    cases (pj.Path (str "type")).asString <;> rfl

/-- A pass over a frame that parses and has no string `type` or no string `dataType`: nothing
is sent on the ingress channel and the count of parse errors stays. -/
theorem readPumpPass_untyped (maxJSONParseErrors : Float64) (i : PumpInput) (s : PumpState)
    (j : Json) (hread : i.read = .message (some j))
    (h : (j.Path (str "type")).asString = none ∨ (j.Path (str "dataType")).asString = none) :
    (readPumpPass maxJSONParseErrors i s).1.firestoreAssembly = s.firestoreAssembly ∧
    (readPumpPass maxJSONParseErrors i s).1.unparseableSamples = s.unparseableSamples := by
  obtain ⟨ctxDone, read, now, writeOk⟩ := i
  simp only at hread
  subst hread
  have hd := processStreamingJSON_drops j s.firestoreAssembly h
  cases ctxDone with
  | true => simp [readPumpPass]
  | false =>
    by_cases he : j.isEmptyObject = true
    · cases writeOk <;> simp [readPumpPass, he]
    · simp [readPumpPass, he, hd]

/-- Claim C32 as stated fails: the pass over the report whose only member is the dataType
`status`, which has no `type`, sends nothing on the ingress channel and leaves every field of
the metrics as it was; in particular the counter of reports without type stays at 0. -/
theorem untyped_report_not_counted :
    (readPumpPassMetrics (Float64.ofNat 100)
      ⟨false, .message (some (.obj [(str "dataType", .str (str "status"))])), Time.unixNano 0,
        true⟩ ⟨{}, 0, [], []⟩ {}).2.2 = {} ∧
    (readPumpPassMetrics (Float64.ofNat 100)
      ⟨false, .message (some (.obj [(str "dataType", .str (str "status"))])), Time.unixNano 0,
        true⟩ ⟨{}, 0, [], []⟩ {}).2.2.reportsWithNoType = 0 ∧
    (readPumpPassMetrics (Float64.ofNat 100)
      ⟨false, .message (some (.obj [(str "dataType", .str (str "status"))])), Time.unixNano 0,
        true⟩ ⟨{}, 0, [], []⟩ {}).1.firestoreAssembly.length = 0 := by
  decide

/-- Claim C32, amended. For every received report that lacks a string `type` or a string
`dataType`, the pass of `readPump` drops it, sending nothing on the ingress channel, and
increments no counter: every field of the ingestion metrics is as before the pass. -/
theorem untyped_report_dropped (maxJSONParseErrors : Float64) (i : PumpInput) (s : PumpState)
    (imetrics : IngestedMetrics) (j : Json) (hread : i.read = .message (some j))
    (h : (j.Path (str "type")).asString = none ∨ (j.Path (str "dataType")).asString = none) :
    (readPumpPassMetrics maxJSONParseErrors i s imetrics).1.firestoreAssembly =
      s.firestoreAssembly ∧
    (readPumpPassMetrics maxJSONParseErrors i s imetrics).2.2 = imetrics := by
  obtain ⟨h1, h2⟩ := readPumpPass_untyped maxJSONParseErrors i
    { s with unparseableSamples := imetrics.unparseableSamples } j hread h
  unfold readPumpPassMetrics
  refine ⟨h1, ?_⟩
  show { imetrics with unparseableSamples := _ } = imetrics
  rw [h2]

/-- Claim C32, amended, on a report without `type`: the ingress channel and the metrics are as
before. -/
theorem untyped_report_dropped_witness :
    (readPumpPassMetrics (Float64.ofNat 100)
      ⟨false, .message (some (.obj [(str "dataType", .str (str "status"))])), Time.unixNano 0,
        true⟩ ⟨{}, 0, [], []⟩ { reportsWithNoType := 3 }).2.2 = { reportsWithNoType := 3 } :=
  (untyped_report_dropped (Float64.ofNat 100)
    ⟨false, .message (some (.obj [(str "dataType", .str (str "status"))])), Time.unixNano 0,
      true⟩ ⟨{}, 0, [], []⟩ { reportsWithNoType := 3 }
    (.obj [(str "dataType", .str (str "status"))]) rfl (Or.inl rfl)).2
/-! ## setup.go: the required values -/

/-- When `parseEnvConfigs` returns no error: the two groups of required values are there, no
tunable fails to parse, the credentials variable is set and the project is there. -/
theorem parseEnvConfigs_none_iff (env : Env)
    (parseFloat : GoString → Float64 × Option GoString)
    (parseDuration : GoString → Int × Option GoString) (g : EnvConfigs) :
    (parseEnvConfigs env parseFloat parseDuration g).2 = none ↔
      ¬ (env.Getenv envClApiURL = [] ∨ env.Getenv envClApiWSSURL = [] ∨
        env.Getenv envClApiOauthConsumerKey = [] ∨ env.Getenv envClApiOauthConsumerSec = []) ∧
      ¬ (env.Getenv envNavajoHost = [] ∨ env.Getenv envNavajoPw = []) ∧
      (floatTunable env parseFloat envMaxHugeDifferentialSetting
        DefaultmaxHugeDifferentialSetting).2 = none ∧
      (floatTunable env parseFloat envMaxJsonParseErrors DefaultmaxJSONParseErrors).2 = none ∧
      (durationTunable env parseDuration envNavajoIdMapRebuildTimer
        DefaultNavajoIdMapRebuildTimer).2 = none ∧
      (durationTunable env parseDuration envWebsocketTimeout DefaultWebsocketTimeout).2 =
        none ∧
      (env envGoogleApplicationCredentials).isSome = true ∧
      env.Getenv envGoogleProjectId ≠ [] := by
  unfold parseEnvConfigs
  lift_lets
  intro g1 g2 r8 g3 r9 g4 r10 g5 r11 g6 g7 g8
  have c1 : (g1.authConf.url = [] ∨ g1.authConf.wsUrl = [] ∨ g1.authConf.OauthConsumerKey = [] ∨
      g1.authConf.OauthConsumerSecret = []) =
      (env.Getenv envClApiURL = [] ∨ env.Getenv envClApiWSSURL = [] ∨
        env.Getenv envClApiOauthConsumerKey = [] ∨ env.Getenv envClApiOauthConsumerSec = []) :=
    rfl
  have c2 : (g2.navajoAuthConf.host = [] ∨ g2.navajoAuthConf.pass = []) =
      (env.Getenv envNavajoHost = [] ∨ env.Getenv envNavajoPw = []) := rfl
  have c3 : (g7.gcpProjectId = []) = (env.Getenv envGoogleProjectId = []) := rfl
  have e8 : floatTunable env parseFloat envMaxHugeDifferentialSetting
      DefaultmaxHugeDifferentialSetting = r8 := rfl
  have e9 : floatTunable env parseFloat envMaxJsonParseErrors DefaultmaxJSONParseErrors = r9 :=
    rfl
  have e10 : durationTunable env parseDuration envNavajoIdMapRebuildTimer
      DefaultNavajoIdMapRebuildTimer = r10 := rfl
  have e11 : durationTunable env parseDuration envWebsocketTimeout DefaultWebsocketTimeout =
      r11 := rfl
  rw [e8, e9, e10, e11]
  simp only [c1, c2, c3]
  clear_value g1 g2 g3 g4 g5 g6 g7 g8 r8 r9 r10 r11
  clear c1 c2 c3 e8 e9 e10 e11
  by_cases h1 : env.Getenv envClApiURL = [] ∨ env.Getenv envClApiWSSURL = [] ∨
      env.Getenv envClApiOauthConsumerKey = [] ∨ env.Getenv envClApiOauthConsumerSec = []
  · rw [if_pos h1]
    exact ⟨fun hh => (by cases hh), fun hh => absurd h1 hh.1⟩
  rw [if_neg h1]
  by_cases h2 : env.Getenv envNavajoHost = [] ∨ env.Getenv envNavajoPw = []
  · rw [if_pos h2]
    exact ⟨fun hh => (by cases hh), fun hh => absurd h2 hh.2.1⟩
  rw [if_neg h2]
  by_cases h3 : r8.2.isSome = true
  · rw [if_pos h3]
    exact ⟨fun hh => (by cases hh), fun hh => by rw [hh.2.2.1] at h3; cases h3⟩
  rw [if_neg h3]
  by_cases h4 : r9.2.isSome = true
  · rw [if_pos h4]
    exact ⟨fun hh => (by cases hh), fun hh => by rw [hh.2.2.2.1] at h4; cases h4⟩
  rw [if_neg h4]
  by_cases h5 : r10.2.isSome = true
  · rw [if_pos h5]
    exact ⟨fun hh => (by cases hh), fun hh => by rw [hh.2.2.2.2.1] at h5; cases h5⟩
  rw [if_neg h5]
  by_cases h6 : r11.2.isSome = true
  · rw [if_pos h6]
    exact ⟨fun hh => (by cases hh), fun hh => by rw [hh.2.2.2.2.2.1] at h6; cases h6⟩
  rw [if_neg h6]
  by_cases h7 : (env envGoogleApplicationCredentials).isNone = true
  · rw [if_pos h7]
    refine ⟨fun hh => (by cases hh), fun hh => ?_⟩
    have h7a := hh.2.2.2.2.2.2.1
    cases hc : env envGoogleApplicationCredentials with
    | none => rw [hc] at h7a; cases h7a
    | some v => rw [hc] at h7; cases h7
  rw [if_neg h7]
  by_cases h8 : env.Getenv envGoogleProjectId = []
  · rw [if_pos h8]
    exact ⟨fun hh => (by cases hh), fun hh => absurd h8 hh.2.2.2.2.2.2.2⟩
  rw [if_neg h8]
  refine ⟨fun _ => ⟨h1, h2, ?_, ?_, ?_, ?_, ?_, h8⟩, fun _ => rfl⟩
  · exact Option.not_isSome_iff_eq_none.1 h3
  · exact Option.not_isSome_iff_eq_none.1 h4
  · exact Option.not_isSome_iff_eq_none.1 h5
  · exact Option.not_isSome_iff_eq_none.1 h6
  · cases hc : env envGoogleApplicationCredentials with
    | none => rw [hc] at h7; exact absurd rfl h7
    | some v => rfl

/-- Claim C33. When none of the four tunables `METRICS_HUGEDIFFIGNORE`,
`JSON_ERRORS_BEFORE_RESTART`, `NAVAJO_MAP_REBUILD_TIMER` and `WEBSOCKET_TIMEOUT` is set,
`parseEnvConfigs` returns no error exactly when `CLAPI_HOST`, `CLAPI_WSHOST`, `CLAPI_KEY`,
`CLAPI_SEC`, `NAVAJO_URL`, `NAVAJO_PW` and `GOOGLE_PROJECT_ID` are non-empty and
`GOOGLE_APPLICATION_CREDENTIALS` is set, whatever `NAVAJO_USER` is; and in every environment
a missing required value gives an error. -/
theorem parseEnvConfigs_required (env : Env)
    (parseFloat : GoString → Float64 × Option GoString)
    (parseDuration : GoString → Int × Option GoString) (g : EnvConfigs) :
    (env envMaxHugeDifferentialSetting = none → env envMaxJsonParseErrors = none →
      env envNavajoIdMapRebuildTimer = none → env envWebsocketTimeout = none →
      ((parseEnvConfigs env parseFloat parseDuration g).2 = none ↔
        env.Getenv envClApiURL ≠ [] ∧ env.Getenv envClApiWSSURL ≠ [] ∧
        env.Getenv envClApiOauthConsumerKey ≠ [] ∧ env.Getenv envClApiOauthConsumerSec ≠ [] ∧
        env.Getenv envNavajoHost ≠ [] ∧ env.Getenv envNavajoPw ≠ [] ∧
        (env envGoogleApplicationCredentials).isSome = true ∧
        env.Getenv envGoogleProjectId ≠ [])) ∧
    ((parseEnvConfigs env parseFloat parseDuration g).2 = none →
      env.Getenv envClApiURL ≠ [] ∧ env.Getenv envClApiWSSURL ≠ [] ∧
      env.Getenv envClApiOauthConsumerKey ≠ [] ∧ env.Getenv envClApiOauthConsumerSec ≠ [] ∧
      env.Getenv envNavajoHost ≠ [] ∧ env.Getenv envNavajoPw ≠ [] ∧
      (env envGoogleApplicationCredentials).isSome = true ∧
      env.Getenv envGoogleProjectId ≠ []) := by
  have hiff := parseEnvConfigs_none_iff env parseFloat parseDuration g
  have hnec : (parseEnvConfigs env parseFloat parseDuration g).2 = none →
      env.Getenv envClApiURL ≠ [] ∧ env.Getenv envClApiWSSURL ≠ [] ∧
      env.Getenv envClApiOauthConsumerKey ≠ [] ∧ env.Getenv envClApiOauthConsumerSec ≠ [] ∧
      env.Getenv envNavajoHost ≠ [] ∧ env.Getenv envNavajoPw ≠ [] ∧
      (env envGoogleApplicationCredentials).isSome = true ∧
      env.Getenv envGoogleProjectId ≠ [] := by
    intro h
    obtain ⟨h1, h2, _, _, _, _, h7, h8⟩ := hiff.1 h
    simp only [not_or] at h1 h2
    exact ⟨h1.1, h1.2.1, h1.2.2.1, h1.2.2.2, h2.1, h2.2, h7, h8⟩
  refine ⟨fun t1 t2 t3 t4 => ⟨hnec, fun h => ?_⟩, hnec⟩
  obtain ⟨r1, r2, r3, r4, r5, r6, r7, r8⟩ := h
  refine hiff.2 ⟨?_, ?_, ?_, ?_, ?_, ?_, r7, r8⟩
  · simp only [not_or]
    exact ⟨r1, r2, r3, r4⟩
  · simp only [not_or]
    exact ⟨r5, r6⟩
  · unfold floatTunable
    rw [t1]
  · unfold floatTunable
    rw [t2]
  · unfold durationTunable
    rw [t3]
  · unfold durationTunable
    rw [t4]

/-- Claim C33 on the environment of `TestParseEnvConfigs`, in which `NAVAJO_USER` is empty:
`parseEnvConfigs` returns no error. -/
theorem parseEnvConfigs_required_witness :
    (parseEnvConfigs testEnvVars (fun _ => (Float64.zero, none)) (fun _ => (0, none))
      ⟨⟨[], [], [], []⟩, ⟨[], [], []⟩, Float64.zero, Float64.zero, 0, 0, [],
        LogLevel.InfoLevel⟩).2 = none ∧
    testEnvVars.Getenv envNavajoUser = [] :=
  ⟨((parseEnvConfigs_required testEnvVars (fun _ => (Float64.zero, none)) (fun _ => (0, none))
      ⟨⟨[], [], [], []⟩, ⟨[], [], []⟩, Float64.zero, Float64.zero, 0, 0, [],
        LogLevel.InfoLevel⟩).1 (by decide) (by decide) (by decide) (by decide)).2
      ⟨by decide, by decide, by decide, by decide, by decide, by decide, by decide, by decide⟩,
    by decide⟩
/-! ## firestore.go: the keys of a stored transponder report -/

/-- Claim C34 as stated fails: a status report with `data.location.accuracy` = 5 and
`data.parameters.isLowBattery` = true is stored with the keys `locationAccuracy` and
`isLowBatteryVoltage`; the document has no key `accuracy` and no key `isLowBattery`. -/
theorem accuracy_not_stored_under_wire_name :
    ∃ record,
      TransponderReportDataStreamV1.firestoreRecord
        ⟨str "REPORT_DATA", str "status", [], [],
          .obj [(str "data", .obj [(str "location", .obj [(str "accuracy",
              .num (Float64.ofNat 5))]),
            (str "parameters", .obj [(str "isLowBattery", .bool true)])])]⟩ = .ok record ∧
      List.lookup (str "accuracy") record.document = none ∧
      List.lookup (str "locationAccuracy") record.document =
        some (.number (Float64.ofNat 5)) ∧
      List.lookup (str "isLowBattery") record.document = none ∧
      List.lookup (str "isLowBatteryVoltage") record.document = some (.boolean true) :=
  ⟨{ LocationAccuracy := Float64.ofNat 5, IsLowBattery := true, Type_ := str "status" },
    rfl, rfl, rfl, rfl, rfl⟩

/-- Claim C34, amended. For every transponder report of a recognised kind the record is stored
with these keys: a numeric field, a timestamp or a boolean that is present (a number not 0, a
boolean true) is stored under the tag of its field, and that tag is the wire name of the field
for configId, duration, eventStart, inProgress, serial, reportTimestamp, heading,
batteryVoltage, cellSignalStrength, odometer, speed and speedLimit, while the accuracy is stored
as `locationAccuracy` and isLowBattery as `isLowBatteryVoltage`; the geo tags are stored as
`geoTags`, each one a map with the keys `zoneId`, `tagName`, `scope` and
`zoneModifiedTimestamp`. -/
theorem stored_keys (r : TransponderReportDataStreamV1)
    (hk : r.reportDataType ∈ transponderKinds) :
    ∃ record, r.firestoreRecord = .ok record ∧
    (∀ f ∈ transponderNumberFields,
      (∀ x, r.json.Path f.path = .num x → ¬ Float64.eq x Float64.zero →
        List.lookup f.tag record.document = some (.number x)) ∧
      (f.path ≠ str "data.location.accuracy" → f.tag = wireName f.path) ∧
      (f.path = str "data.location.accuracy" → f.tag = str "locationAccuracy")) ∧
    (∀ f ∈ transponderTimeFields,
      (∀ x, r.json.Path f.path = .num x →
        List.lookup f.tag record.document =
          some (.timestamp (wrapInt64 (int64OfFloat x * 1000000)))) ∧
      f.tag = wireName f.path) ∧
    (∀ f ∈ transponderBoolFields,
      (r.json.Path f.path = .bool true →
        List.lookup f.tag record.document = some (.boolean true)) ∧
      (f.path ≠ str "data.parameters.isLowBattery" → f.tag = wireName f.path) ∧
      (f.path = str "data.parameters.isLowBattery" → f.tag = str "isLowBatteryVoltage")) ∧
    (record.GeoTags ≠ [] →
      List.lookup (wireName (str "data.location.geoTags")) record.document =
        some (.array (record.GeoTags.map GeoTagV1.value))) ∧
    (∀ g : GeoTagV1, g.value =
      .map [(str "zoneId", .number g.GeoZoneId), (str "tagName", .string g.TagName),
        (str "scope", .string g.TagSource),
        (str "zoneModifiedTimestamp", timeValue g.Timestamp)]) := by
  obtain ⟨record, hr⟩ : ∃ record, r.firestoreRecord = .ok record :=
    ⟨_, firestoreRecord_eq r ((validDataType_iff r).2 hk)⟩
  refine ⟨record, hr, ?_, ?_, ?_, ?_, fun g => rfl⟩
  · intro f hf
    obtain ⟨h1, h2⟩ := number_field_eq r record hr f hf
    refine ⟨fun x hx hne => ?_, ?_⟩
    · rw [hx] at h1
      have h1 : f.get record = x := h1
      rw [h2, h1]
      exact omitEmptyFloat_of_ne x hne
    · simp only [transponderNumberFields, List.mem_cons, List.mem_singleton, List.not_mem_nil,
        or_false] at hf
      rcases hf with rfl | rfl | rfl | rfl | rfl | rfl | rfl | rfl | rfl | rfl <;> decide
  · intro f hf
    obtain ⟨h1, h2⟩ := time_field_eq r record hr f hf
    refine ⟨fun x hx => ?_, ?_⟩
    · rw [hx] at h1
      have h1 : f.get record = (nanoEpochTimeObject x).1 := h1
      rw [h2, h1]
      rfl
    · simp only [transponderTimeFields, List.mem_cons, List.mem_singleton, List.not_mem_nil,
        or_false] at hf
      rcases hf with rfl | rfl <;> decide
  · intro f hf
    obtain ⟨h1, h2⟩ := bool_field_eq r record hr f hf
    refine ⟨fun hx => ?_, ?_⟩
    · rw [hx] at h1
      have h1 : f.get record = true := h1
      rw [h2, h1]
      rfl
    · simp only [transponderBoolFields, List.mem_cons, List.mem_singleton, List.not_mem_nil,
        or_false] at hf
      rcases hf with rfl | rfl <;> decide
  · intro hne
    obtain ⟨_, _, _, h4⟩ := latlng_geotags_eq r record hr
    have hw : wireName (str "data.location.geoTags") = str "geoTags" := by decide
    rw [hw, h4]
    simp [omitEmptyGeoTags, hne]

/-- Claim C34, amended, on a status report with the speed 42 and the accuracy 5: the speed is
stored under its wire name, the accuracy under `locationAccuracy`. -/
theorem stored_keys_witness :
    ∃ record,
      TransponderReportDataStreamV1.firestoreRecord
        ⟨str "REPORT_DATA", str "status", [], [],
          .obj [(str "data", .obj [(str "location", .obj [(str "accuracy",
              .num (Float64.ofNat 5))]),
            (str "parameters", .obj [(str "speed", .num (Float64.ofNat 42))])])]⟩ =
        .ok record ∧
      List.lookup (str "speed") record.document = some (.number (Float64.ofNat 42)) ∧
      List.lookup (str "locationAccuracy") record.document =
        some (.number (Float64.ofNat 5)) :=
  (stored_keys
    ⟨str "REPORT_DATA", str "status", [], [],
      .obj [(str "data", .obj [(str "location", .obj [(str "accuracy",
          .num (Float64.ofNat 5))]),
        (str "parameters", .obj [(str "speed", .num (Float64.ofNat 42))])])]⟩
    (by decide)).elim
    fun record h => ⟨record, h.1,
      (h.2.1 ⟨str "data.parameters.speed", str "speed", fun r => r.Speed⟩
        (by simp [transponderNumberFields])).1 (Float64.ofNat 42) rfl (by decide),
      (h.2.1 ⟨str "data.location.accuracy", str "locationAccuracy",
          fun r => r.LocationAccuracy⟩
        (by simp [transponderNumberFields])).1 (Float64.ofNat 5) rfl (by decide)⟩
/-! ## eld_report_data.go: the user of a stored ELD report -/

/-- The record that `firestoreRecord` returns for a navigation report has the user that the
report carries at the top-level path `userId`. -/
theorem eld_firestoreRecord_userId (r : EldReportDataStreamV1)
    (record : FirestoreEldReportV1) (h : r.firestoreRecord = .ok record) :
    record.UserId = ((r.json.Path (str "userId")).asFloat64).getD Float64.zero := by
  unfold EldReportDataStreamV1.firestoreRecord at h
  split at h
  · cases h
    rfl
  · cases h

theorem eld_firestoreRecord_ok (r : EldReportDataStreamV1)
    (h : r.reportDataType = str "navigation") : ∃ record, r.firestoreRecord = .ok record := by
  unfold EldReportDataStreamV1.firestoreRecord
  have hv : r.validDataType = true := by
    simp [EldReportDataStreamV1.validDataType, h]
  rw [if_pos hv]
  exact ⟨_, rfl⟩

/-- Claim C35 fails in the code: `build` reads the user at `data.userId` and `userId`, which
fills the record, reads the top-level `userId`. For the navigation report of the
specification's second scenario, with `data.userId` = 55, `build` accepts the report and takes
the user `55` for the destination path, and the record that `firestoreRecord` returns has the
user 0, which is left out of the stored document. For the same report with the user at the
top-level `userId` the record has the user 55, and `build` rejects the report, so that record
is never written. -/
theorem data_userId_not_copied :
    (∃ record,
      EldReportDataStreamV1.firestoreRecord
        ⟨str "ELD_RECORD", str "navigation", [], [], [],
          .obj [(str "type", .str (str "ELD_RECORD")), (str "dataType", .str (str "navigation")),
            (str "accountId", .num (Float64.ofNat 200)),
            (str "data", .obj [(str "userId", .num (Float64.ofNat 55))]),
            (str "recordId", .str (str "r-1")),
            (str "checkpoint", .num (Float64.ofNat 8))]⟩ = .ok record ∧
      record.UserId = Float64.zero ∧
      List.lookup (str "userId") record.document = none) ∧
    (EldReportDataStreamV1.build
        ⟨str "ELD_RECORD", str "navigation", [], [], [],
          .obj [(str "type", .str (str "ELD_RECORD")), (str "dataType", .str (str "navigation")),
            (str "accountId", .num (Float64.ofNat 200)),
            (str "data", .obj [(str "userId", .num (Float64.ofNat 55))]),
            (str "recordId", .str (str "r-1")),
            (str "checkpoint", .num (Float64.ofNat 8))]⟩
        ⟨[(str "200", str "A2")], [], 1, 0⟩).2 = true ∧
    (EldReportDataStreamV1.build
        ⟨str "ELD_RECORD", str "navigation", [], [], [],
          .obj [(str "type", .str (str "ELD_RECORD")), (str "dataType", .str (str "navigation")),
            (str "accountId", .num (Float64.ofNat 200)),
            (str "data", .obj [(str "userId", .num (Float64.ofNat 55))]),
            (str "recordId", .str (str "r-1")),
            (str "checkpoint", .num (Float64.ofNat 8))]⟩
        ⟨[(str "200", str "A2")], [], 1, 0⟩).1.clUserId = str "55" ∧
    (∃ record,
      EldReportDataStreamV1.firestoreRecord
        ⟨str "ELD_RECORD", str "navigation", [], [], [],
          .obj [(str "type", .str (str "ELD_RECORD")), (str "dataType", .str (str "navigation")),
            (str "accountId", .num (Float64.ofNat 200)),
            (str "userId", .num (Float64.ofNat 55)),
            (str "recordId", .str (str "r-1")),
            (str "checkpoint", .num (Float64.ofNat 8))]⟩ = .ok record ∧
      record.UserId = Float64.ofNat 55 ∧
      List.lookup (str "userId") record.document = some (.number (Float64.ofNat 55))) ∧
    (EldReportDataStreamV1.build
        ⟨str "ELD_RECORD", str "navigation", [], [], [],
          .obj [(str "type", .str (str "ELD_RECORD")), (str "dataType", .str (str "navigation")),
            (str "accountId", .num (Float64.ofNat 200)),
            (str "userId", .num (Float64.ofNat 55)),
            (str "recordId", .str (str "r-1")),
            (str "checkpoint", .num (Float64.ofNat 8))]⟩
        ⟨[(str "200", str "A2")], [], 1, 0⟩).2 = false :=
  ⟨⟨{ RecordId := str "r-1", Type_ := str "navigation" }, rfl, rfl, rfl⟩, rfl, rfl,
    ⟨{ UserId := Float64.ofNat 55, RecordId := str "r-1", Type_ := str "navigation" },
      rfl, rfl, rfl⟩, rfl⟩

/-- For every navigation ELD report `firestoreRecord` returns a record whose userId field is the
numeric value at the top-level path `userId` of the report, and 0, left out of the stored
document, when the report has no number there; the `data.userId` that `build` uses for the
destination path is not read. -/
theorem eld_userId_top_level (r : EldReportDataStreamV1)
    (h : r.reportDataType = str "navigation") :
    ∃ record, r.firestoreRecord = .ok record ∧
    (∀ x, r.json.Path (str "userId") = .num x → record.UserId = x) ∧
    ((r.json.Path (str "userId")).asFloat64 = none →
      record.UserId = Float64.zero ∧ List.lookup (str "userId") record.document = none) := by
  obtain ⟨record, hr⟩ := eld_firestoreRecord_ok r h
  have hu := eld_firestoreRecord_userId r record hr
  refine ⟨record, hr, fun x hx => ?_, fun hn => ?_⟩
  · rw [hu, hx]
    rfl
  · rw [hn] at hu
    have hu : record.UserId = Float64.zero := hu
    refine ⟨hu, ?_⟩
    rw [eld_document_lookup]
    show omitEmptyFloat record.UserId = none
    rw [hu]
    exact omitEmptyFloat_zero

/-! ## oauth.go: encoding twice, and distinct keys -/

theorem percentEncodeByte_length (b : Byte) : 1 ≤ (percentEncodeByte b).length := by
  unfold percentEncodeByte
  split_ifs <;> simp

theorem flatMap_percentEncodeByte_length (s : GoString) :
    s.length ≤ (s.flatMap percentEncodeByte).length := by
  induction s with
  | nil => simp
  | cons b s ih =>
    have hb := percentEncodeByte_length b
    simp only [List.flatMap_cons, List.length_append, List.length_cons]
    omega

/-- A string that is its own encoding has unreserved characters only. -/
theorem unreserved_of_PercentEncode_eq (s : GoString) (h : PercentEncode s = s) :
    ∀ b ∈ s, b ∈ unreservedChars := by
  rw [PercentEncode_eq] at h
  induction s with
  | nil => intro b hb; cases hb
  | cons c s ih =>
    rw [List.flatMap_cons] at h
    by_cases hc : c ∈ unreservedChars
    · have h1 : percentEncodeByte c = [c] := by simp [percentEncodeByte, hc]
      rw [h1] at h
      simp only [List.singleton_append, List.cons.injEq, true_and] at h
      intro b hb
      rcases List.mem_cons.1 hb with hbc | hbs
      · rw [hbc]; exact hc
      · exact ih h b hbs
    · exfalso
      have h1 : (percentEncodeByte c).length = 3 := by simp [percentEncodeByte, hc]
      have h2 := flatMap_percentEncodeByte_length s
      have h3 := congrArg List.length h
      simp only [List.length_append, List.length_cons] at h3
      omega

/-- Claim C36 as stated fails: the encoding of `%` is `%25`, and the encoding of `%25` is
`%2525`. -/
theorem PercentEncode_not_idempotent :
    PercentEncode (str "%") = str "%25" ∧
    PercentEncode (PercentEncode (str "%")) = str "%2525" ∧
    PercentEncode (PercentEncode (str "%")) ≠ PercentEncode (str "%") := by
  decide

/-- Claim C36, amended. `PercentEncode` is idempotent on the strings of unreserved characters
and on no other: for every string s, PercentEncode(PercentEncode(s)) = PercentEncode(s)
exactly when every byte of s is one of `A-Z a-z 0-9 - . _ ~`, and then PercentEncode(s) = s. -/
theorem PercentEncode_idempotent_iff (s : GoString) :
    (PercentEncode (PercentEncode s) = PercentEncode s ↔ ∀ b ∈ s, b ∈ unreservedChars) ∧
    ((∀ b ∈ s, b ∈ unreservedChars) → PercentEncode s = s) := by
  refine ⟨⟨fun h => ?_, fun h => ?_⟩, PercentEncode_unreserved s⟩
  · exact unreserved_of_PercentEncode_eq s (PercentEncode_injective _ _ h)
  · rw [PercentEncode_unreserved s h, PercentEncode_unreserved s h]

set_option maxRecDepth 100000 in
/-- Claim C36, amended, on the string `a-b_c.d~9`, which is encoded to itself, once and
twice. -/
theorem PercentEncode_idempotent_iff_witness :
    PercentEncode (PercentEncode (str "a-b_c.d~9")) = PercentEncode (str "a-b_c.d~9") :=
  (PercentEncode_idempotent_iff (str "a-b_c.d~9")).1.2 (by decide)

/-- Claim C37. `PercentEncode` is injective, so `encodeParameters` merges no two keys of a
map: the keys of the result are the encoded keys, all distinct, and the result has as many
entries as the map. -/
theorem PercentEncode_injective_keys (s t : GoString) (m : GoMap) :
    (PercentEncode s = PercentEncode t → s = t) ∧
    (m.WF →
      (encodeParameters m).keys = m.keys.map PercentEncode ∧ (encodeParameters m).WF ∧
      (encodeParameters m).length = m.length) := by
  refine ⟨PercentEncode_injective s t, fun hwf => ?_⟩
  rw [encodeParameters_eq m hwf]
  refine ⟨?_, encoded_keys_nodup m hwf, List.length_map _ _⟩
  simp [GoMap.keys, List.map_map, Function.comp_def]

/-- Claim C37 on a map with the keys `a b` and `a+b`: both are kept, as `a%20b` and
`a%2Bb`. -/
theorem PercentEncode_injective_keys_witness :
    (encodeParameters [(str "a b", str "1"), (str "a+b", str "2")]).keys =
      [str "a%20b", str "a%2Bb"] :=
  ((PercentEncode_injective_keys [] [] [(str "a b", str "1"), (str "a+b", str "2")]).2
    (by decide)).1.trans (by decide)
/-! ## oauth.go: the port of the base URI -/

theorem splitAux_length (sep : Byte) (s cur : GoString) :
    (splitAux sep s cur).length = s.count sep + 1 := by
  induction s generalizing cur with
  | nil => simp [splitAux]
  | cons b s ih =>
    unfold splitAux
    by_cases hb : b = sep
    · subst hb
      simp [ih]
    · have hne : (b == sep) = false := by simpa using hb
      simp [hb, ih, List.count_cons, hne]

theorem splitAux_of_not_mem (sep : Byte) (s cur : GoString) (h : sep ∉ s) :
    splitAux sep s cur = [cur.reverse ++ s] := by
  induction s generalizing cur with
  | nil => simp [splitAux]
  | cons b s ih =>
    simp only [List.mem_cons, not_or] at h
    have hne : ¬ b = sep := fun e => h.1 e.symm
    unfold splitAux
    rw [if_neg hne, ih _ h.2]
    simp

theorem toLower_count_colon (s : GoString) :
    (toLower s).count (charByte ':') = s.count (charByte ':') := by
  induction s with
  | nil => rfl
  | cons b s ih =>
    have hl : toLower (b :: s) = lowerByte b :: toLower s := rfl
    rw [hl, List.count_cons, List.count_cons, ih]
    by_cases hb : b = charByte ':'
    · subst hb
      rfl
    · have h1 : (b == charByte ':') = false := by simpa using hb
      have h2 : (lowerByte b == charByte ':') = false := by
        simpa using fun e => hb (lowerByte_eq_colon b e)
      rw [h1, h2]

set_option maxRecDepth 100000 in
theorem lowerByte_digit_80 : ∀ c ∈ str "80", ∀ b : Byte, lowerByte b = c → b = c := by
  decide

set_option maxRecDepth 100000 in
theorem lowerByte_digit_443 : ∀ c ∈ str "443", ∀ b : Byte, lowerByte b = c → b = c := by
  decide

theorem toLower_eq_iff (d port : GoString)
    (hd : ∀ c ∈ d, ∀ b : Byte, lowerByte b = c → b = c) (hl : toLower d = d) :
    toLower port = d ↔ port = d := by
  constructor
  · intro h
    induction port generalizing d with
    | nil =>
      cases d with
      | nil => rfl
      | cons c d => cases h
    | cons b port ih =>
      cases d with
      | nil => cases h
      | cons c d =>
        have hl1 : toLower (b :: port) = lowerByte b :: toLower port := rfl
        have hl2 : toLower (c :: d) = lowerByte c :: toLower d := rfl
        rw [hl1] at h
        rw [hl2] at hl
        simp only [List.cons.injEq] at h hl
        rw [hd c (List.mem_cons_self _ _) b h.1,
          ih d (fun c1 hc1 => hd c1 (List.mem_cons_of_mem _ hc1)) hl.2 h.2]
  · intro h
    rw [h, hl]

/-- The base URI of a request whose host is `h:port`, with one colon. -/
theorem baseURI_host_port (req : Request) (h port : GoString) (hc : charByte ':' ∉ h)
    (hp : charByte ':' ∉ port) (hhost : req.URL.Host = h ++ str ":" ++ port) :
    baseURI req = toLower req.URL.Scheme ++ str "://" ++
      (if port = str "80" ∨ port = str "443" then toLower h
        else toLower h ++ str ":" ++ toLower port) ++ req.URL.escapedPath := by
  have hl : toLower req.URL.Host = toLower h ++ str ":" ++ toLower port := by
    rw [hhost, toLower_append, toLower_append]
    rfl
  have hs : stringsSplit (toLower req.URL.Host) (charByte ':') = [toLower h, toLower port] := by
    rw [hl]
    refine split_host_port _ _ (colon_not_mem_toLower h hc) ?_
    unfold stringsSplit
    rw [splitAux_of_not_mem _ _ _ (colon_not_mem_toLower port hp)]
    rfl
  have h80 : toLower port = str "80" ↔ port = str "80" :=
    toLower_eq_iff (str "80") port lowerByte_digit_80 (by decide)
  have h443 : toLower port = str "443" ↔ port = str "443" :=
    toLower_eq_iff (str "443") port lowerByte_digit_443 (by decide)
  unfold baseURI
  simp only [hs, sprintf_uri]
  have hlen : ([toLower h, toLower port] : List GoString).length = 2 := rfl
  have h0 : ([toLower h, toLower port] : List GoString).getD 0 [] = toLower h := rfl
  have h1 : ([toLower h, toLower port] : List GoString).getD 1 [] = toLower port := rfl
  rw [hlen, h0, h1]
  by_cases hport : port = str "80" ∨ port = str "443"
  · rw [if_pos ⟨rfl, hport.imp h80.2 h443.2⟩, if_pos hport]
  · rw [if_neg (fun hh => hport (hh.2.imp h80.1 h443.1)), if_neg hport, hl]

/-- The base URI of a request whose host has no colon, or more than one. -/
theorem baseURI_host_kept (req : Request) (hn : req.URL.Host.count (charByte ':') ≠ 1) :
    baseURI req =
      toLower req.URL.Scheme ++ str "://" ++ toLower req.URL.Host ++ req.URL.escapedPath := by
  have hlen : (stringsSplit (toLower req.URL.Host) (charByte ':')).length ≠ 2 := by
    unfold stringsSplit
    rw [splitAux_length, toLower_count_colon]
    omega
  unfold baseURI
  simp only [sprintf_uri]
  rw [if_neg (fun hh => hlen hh.1)]

/-- Claim C38. For every request whose scheme and host are ASCII strings, whatever the scheme:
when the host is `h:port` with one colon, `baseURI` drops the port exactly when it is `80` or
`443`, and keeps the host in small letters with any other port; a host with no colon or with
more than one colon is kept, in small letters. -/
theorem baseURI_port_any_scheme (req : Request) (_hs : isASCII req.URL.Scheme)
    (_hh : isASCII req.URL.Host) :
    (∀ h port : GoString, req.URL.Host = h ++ str ":" ++ port → charByte ':' ∉ h →
      charByte ':' ∉ port →
      baseURI req = lowercase req.URL.Scheme ++ str "://" ++
        (if port = str "80" ∨ port = str "443" then lowercase h
          else lowercase h ++ str ":" ++ lowercase port) ++ req.URL.escapedPath) ∧
    (req.URL.Host.count (charByte ':') ≠ 1 →
      baseURI req =
        lowercase req.URL.Scheme ++ str "://" ++ lowercase req.URL.Host ++
          req.URL.escapedPath) := by
  simp only [← toLower_eq]
  exact ⟨fun h port hhost hc hp => baseURI_host_port req h port hc hp hhost,
    baseURI_host_kept req⟩

set_option maxRecDepth 100000 in
/-- Claim C38 on an http request to port 443, which loses its port, and on an https request to
port 8443, which keeps it. -/
theorem baseURI_port_any_scheme_witness :
    baseURI ⟨str "GET", ⟨str "http", str "Api.Example.com:443", str "/v1/stream"⟩⟩ =
      str "http://api.example.com/v1/stream" ∧
    baseURI ⟨str "GET", ⟨str "https", str "Api.Example.com:8443", str "/v1/stream"⟩⟩ =
      str "https://api.example.com:8443/v1/stream" :=
  ⟨((baseURI_port_any_scheme
      ⟨str "GET", ⟨str "http", str "Api.Example.com:443", str "/v1/stream"⟩⟩
      (by decide) (by decide)).1
      (str "Api.Example.com") (str "443") (by decide) (by decide) (by decide)).trans (by decide),
    ((baseURI_port_any_scheme
      ⟨str "GET", ⟨str "https", str "Api.Example.com:8443", str "/v1/stream"⟩⟩
      (by decide) (by decide)).1
      (str "Api.Example.com") (str "8443") (by decide) (by decide) (by decide)).trans
      (by decide)⟩

/-! ## navajo.go: a refresh whose two requests succeed -/

/-- A refresh whose two requests return status 200: the counters and the two maps. -/
theorem refresh_ok (send : GoString → HttpResult) (conf : NavajoAuthConfig)
    (ids : NavajoAccountData) (dBody aBody : Json)
    (hd : send (conf.host ++ str "/v1/devices" ++ str "?limit=10000") = .response 200 dBody)
    (ha : send (conf.host ++ str "/v1/accounts" ++ str "?limit=10000") = .response 200 aBody) :
    buildNavajoIdMaps send conf ids =
      { clAccountIdMap := aBody.Children.foldl accountEntry ids.clAccountIdMap
        clDeviceIdMap := dBody.Children.foldl deviceEntry ids.clDeviceIdMap
        successfulUpdates := ids.successfulUpdates + 1
        failedUpdates := ids.failedUpdates } := by
  have hd1 := navajoHttpClient_ok send conf (str "/v1/devices") dBody hd
  have ha1 := navajoHttpClient_ok send conf (str "/v1/accounts") aBody ha
  simp only [buildNavajoIdMaps, hd1, ha1]

theorem Children_of_scalar (body : Json) (harr : ∀ xs, body ≠ .arr xs)
    (hobj : ∀ kvs, body ≠ .obj kvs) : body.Children = [] := by
  cases body with
  | arr xs => exact absurd rfl (harr xs)
  | obj kvs => exact absurd rfl (hobj kvs)
  | _ => rfl

/-- Claim C39 as stated fails: a devices response of status 200 whose body is an object, not an
array, with one active device as its member adds that device to the device map. -/
theorem object_body_changes_map :
    (buildNavajoIdMaps
      (fun url =>
        if url = str "http://navajo/v1/devices?limit=10000" then
          .response 200 (.obj [(str "first", .obj [
            (str "state", .obj [(str "state", .str (str "ACTIVE"))]),
            (str "webId", .num (Float64.ofNat 5)),
            (str "currentTransponder",
              .obj [(str "transponderId", .num (Float64.ofNat 9000))])])])
        else .response 200 (.arr []))
      ⟨str "http://navajo", [], []⟩ ⟨[], [], 0, 0⟩) =
      ⟨[], [(str "9000", str "5")], 1, 0⟩ := by
  decide

/-- Claim C39, amended. For every refresh in which both directory requests return status 200,
the success counter increases by exactly one and the failure counter is unchanged, whatever the
bodies are; a map is left exactly as it was when the body of its response is not valid JSON or
is neither an array nor an object (the members of an object are read like the elements of an
array). -/
theorem successful_refresh (send : GoString → HttpResult) (conf : NavajoAuthConfig)
    (ids : NavajoAccountData) (dBody aBody : Json)
    (hd : send (conf.host ++ str "/v1/devices" ++ str "?limit=10000") = .response 200 dBody)
    (ha : send (conf.host ++ str "/v1/accounts" ++ str "?limit=10000") = .response 200 aBody) :
    (buildNavajoIdMaps send conf ids).successfulUpdates = ids.successfulUpdates + 1 ∧
    (buildNavajoIdMaps send conf ids).failedUpdates = ids.failedUpdates ∧
    (dBody = .null ∨ ((∀ xs, dBody ≠ .arr xs) ∧ ∀ kvs, dBody ≠ .obj kvs) →
      (buildNavajoIdMaps send conf ids).clDeviceIdMap = ids.clDeviceIdMap) ∧
    (aBody = .null ∨ ((∀ xs, aBody ≠ .arr xs) ∧ ∀ kvs, aBody ≠ .obj kvs) →
      (buildNavajoIdMaps send conf ids).clAccountIdMap = ids.clAccountIdMap) ∧
    (buildNavajoIdMaps send conf ids).clDeviceIdMap =
      dBody.Children.foldl deviceEntry ids.clDeviceIdMap ∧
    (buildNavajoIdMaps send conf ids).clAccountIdMap =
      aBody.Children.foldl accountEntry ids.clAccountIdMap := by
  rw [refresh_ok send conf ids dBody aBody hd ha]
  refine ⟨rfl, rfl, fun h => ?_, fun h => ?_, rfl, rfl⟩
  · have hc : dBody.Children = [] := by
      rcases h with h | ⟨h1, h2⟩
      · rw [h]; rfl
      · exact Children_of_scalar dBody h1 h2
    show dBody.Children.foldl deviceEntry ids.clDeviceIdMap = _
    rw [hc]
    rfl
  · have hc : aBody.Children = [] := by
      rcases h with h | ⟨h1, h2⟩
      · rw [h]; rfl
      · exact Children_of_scalar aBody h1 h2
    show aBody.Children.foldl accountEntry ids.clAccountIdMap = _
    rw [hc]
    rfl

/-- Claim C39, amended, on a refresh whose devices response is not JSON and whose accounts
response is a string: the refresh counts as a success and both maps are as they were. -/
theorem successful_refresh_witness :
    buildNavajoIdMaps
      (fun url =>
        if url = str "http://navajo/v1/devices?limit=10000" then .response 200 .null
        else .response 200 (.str (str "maintenance")))
      ⟨str "http://navajo", [], []⟩ ⟨[(str "100", str "A1")], [(str "9000", str "5")], 1, 0⟩ =
      ⟨[(str "100", str "A1")], [(str "9000", str "5")], 2, 0⟩ ∧
    (buildNavajoIdMaps
      (fun url =>
        if url = str "http://navajo/v1/devices?limit=10000" then .response 200 .null
        else .response 200 (.str (str "maintenance")))
      ⟨str "http://navajo", [], []⟩
      ⟨[(str "100", str "A1")], [(str "9000", str "5")], 1, 0⟩).successfulUpdates = 1 + 1 :=
  ⟨by decide,
    (successful_refresh
      (fun url =>
        if url = str "http://navajo/v1/devices?limit=10000" then .response 200 .null
        else .response 200 (.str (str "maintenance")))
      ⟨str "http://navajo", [], []⟩ ⟨[(str "100", str "A1")], [(str "9000", str "5")], 1, 0⟩
      .null (.str (str "maintenance")) rfl rfl).1⟩
/-! ## transponder_report_data.go: the geo tags -/

theorem geoTagsOfSource_cons (tagSource tagName : GoString) (tagMeta : Json)
    (rest : List (GoString × Json)) (t : List GeoTagV1) :
    TransponderReportDataStreamV1.geoTagsOfSource tagSource ((tagName, tagMeta) :: rest) t =
      match geoTagOfEntry (tagSource, tagName, tagMeta) with
      | some g => TransponderReportDataStreamV1.geoTagsOfSource tagSource rest (t ++ [g])
      | none => none := by
  unfold geoTagOfEntry
  rw [TransponderReportDataStreamV1.geoTagsOfSource]
  cases (tagMeta.Path (str "geoTagId")).asFloat64 <;>
    cases (tagMeta.Path (str "timestamp")).asFloat64 <;> rfl

/-- The loop over the tags of one source: every tag when all are well formed, and the early
return when one is not. -/
theorem geoTagsOfSource_eq (tagSource : GoString) (entries : List (GoString × Json))
    (t : List GeoTagV1) :
    ((∀ tm ∈ entries, (geoTagOfEntry (tagSource, tm.1, tm.2)).isSome = true) →
      TransponderReportDataStreamV1.geoTagsOfSource tagSource entries t =
        some (t ++ entries.filterMap (fun tm => geoTagOfEntry (tagSource, tm.1, tm.2)))) ∧
    ((∃ tm ∈ entries, geoTagOfEntry (tagSource, tm.1, tm.2) = none) →
      TransponderReportDataStreamV1.geoTagsOfSource tagSource entries t = none) := by
  induction entries generalizing t with
  | nil =>
    constructor
    · intro _
      rw [TransponderReportDataStreamV1.geoTagsOfSource]
      simp
    · rintro ⟨tm, htm, _⟩
      cases htm
  | cons tm rest ih =>
    obtain ⟨tagName, tagMeta⟩ := tm
    rw [geoTagsOfSource_cons]
    cases hg : geoTagOfEntry (tagSource, tagName, tagMeta) with
    | none =>
      constructor
      · intro hall
        have := hall (tagName, tagMeta) (List.mem_cons_self _ _)
        rw [hg] at this
        cases this
      · intro _
        rfl
    | some g =>
      constructor
      · intro hall
        show TransponderReportDataStreamV1.geoTagsOfSource tagSource rest (t ++ [g]) = _
        rw [(ih (t ++ [g])).1 (fun tm htm => hall tm (List.mem_cons_of_mem _ htm))]
        simp [List.filterMap_cons, hg]
      · rintro ⟨tm, htm, hnone⟩
        show TransponderReportDataStreamV1.geoTagsOfSource tagSource rest (t ++ [g]) = _
        rcases List.mem_cons.1 htm with h | h
        · rw [h] at hnone
          rw [hg] at hnone
          cases hnone
        · exact (ih (t ++ [g])).2 ⟨tm, h, hnone⟩

/-- The loop over the tag sources, in terms of the entries. -/
theorem geoTagsOfSources_eq (sources : List (GoString × Json)) (t : List GeoTagV1) :
    ((∀ e ∈ sources.flatMap (fun sc => sc.2.ChildrenMap.map (fun tm => (sc.1, tm.1, tm.2))),
        (geoTagOfEntry e).isSome = true) →
      TransponderReportDataStreamV1.geoTagsOfSources sources t =
        some (t ++ (sources.flatMap
          (fun sc => sc.2.ChildrenMap.map (fun tm => (sc.1, tm.1, tm.2)))).filterMap
            geoTagOfEntry)) ∧
    ((∃ e ∈ sources.flatMap (fun sc => sc.2.ChildrenMap.map (fun tm => (sc.1, tm.1, tm.2))),
        geoTagOfEntry e = none) →
      TransponderReportDataStreamV1.geoTagsOfSources sources t = none) := by
  induction sources generalizing t with
  | nil =>
    constructor
    · intro _
      rw [TransponderReportDataStreamV1.geoTagsOfSources]
      simp
    · rintro ⟨e, he, _⟩
      cases he
  | cons sc rest ih =>
    obtain ⟨tagSource, child⟩ := sc
    rw [TransponderReportDataStreamV1.geoTagsOfSources]
    simp only [List.flatMap_cons, List.mem_append, List.mem_map]
    by_cases hbad : ∃ tm ∈ child.ChildrenMap, geoTagOfEntry (tagSource, tm.1, tm.2) = none
    · rw [(geoTagsOfSource_eq tagSource child.ChildrenMap t).2 hbad]
      constructor
      · intro hall
        obtain ⟨tm, htm, hnone⟩ := hbad
        have := hall (tagSource, tm.1, tm.2) (Or.inl ⟨tm, htm, rfl⟩)
        rw [hnone] at this
        cases this
      · intro _
        rfl
    · have hgood : ∀ tm ∈ child.ChildrenMap,
          (geoTagOfEntry (tagSource, tm.1, tm.2)).isSome = true := by
        intro tm htm
        cases hg : geoTagOfEntry (tagSource, tm.1, tm.2) with
        | none => exact absurd ⟨tm, htm, hg⟩ hbad
        | some g => rfl
      rw [(geoTagsOfSource_eq tagSource child.ChildrenMap t).1 hgood]
      simp only
      constructor
      · intro hall
        rw [(ih _).1 (fun e he => hall e (Or.inr he))]
        simp [List.filterMap_append, List.filterMap_map, Function.comp_def]
      · rintro ⟨e, he, hnone⟩
        rcases he with ⟨tm, htm, rfl⟩ | he
        · exact absurd ⟨tm, htm, hnone⟩ hbad
        · exact (ih _).2 ⟨e, he, hnone⟩

theorem forall₂_filterMap_of_isSome {α β : Type} (f : α → Option β) (l : List α)
    (h : ∀ a ∈ l, (f a).isSome = true) :
    List.Forall₂ (fun a b => f a = some b) l (l.filterMap f) := by
  induction l with
  | nil => exact List.Forall₂.nil
  | cons a l ih =>
    obtain ⟨b, hb⟩ := Option.isSome_iff_exists.1 (h a (List.mem_cons_self _ _))
    rw [List.filterMap_cons, hb]
    exact List.Forall₂.cons hb (ih (fun a1 ha1 => h a1 (List.mem_cons_of_mem _ ha1)))

/-- Claim C40. For every transponder report of a recognised kind `firestoreRecord` returns a
record; if every entry under `data.location.geoTags` has a numeric geoTagId and a numeric
timestamp, the geo tags of the record are one per entry, in order, each with the source, the
name, the identifier and the converted timestamp of its entry; if some entry lacks a numeric
geoTagId or timestamp, the geo tags of the record are empty and left out of the document. -/
theorem geoTags_all_or_nothing (r : TransponderReportDataStreamV1)
    (hk : r.reportDataType ∈ transponderKinds) :
    ∃ record, r.firestoreRecord = .ok record ∧
    ((∀ e ∈ geoTagEntries r, (geoTagOfEntry e).isSome = true) →
      record.GeoTags.length = (geoTagEntries r).length ∧
      List.Forall₂
        (fun e g => g.TagSource = e.1 ∧ g.TagName = e.2.1 ∧
          e.2.2.Path (str "geoTagId") = .num g.GeoZoneId ∧
          ∃ time, e.2.2.Path (str "timestamp") = .num time ∧
            g.Timestamp = (nanoEpochTimeObject time).1)
        (geoTagEntries r) record.GeoTags) ∧
    ((∃ e ∈ geoTagEntries r, geoTagOfEntry e = none) →
      record.GeoTags = [] ∧ List.lookup (str "geoTags") record.document = none) := by
  obtain ⟨record, hr⟩ : ∃ record, r.firestoreRecord = .ok record :=
    ⟨_, firestoreRecord_eq r ((validDataType_iff r).2 hk)⟩
  obtain ⟨_, h2, _, h4⟩ := latlng_geotags_eq r record hr
  have hs := geoTagsOfSources_eq (r.json.Path (str "data.location.geoTags")).ChildrenMap []
  refine ⟨record, hr, fun hall => ?_, fun hbad => ?_⟩
  · have hg : r.reportGeoTags = some ((geoTagEntries r).filterMap geoTagOfEntry) := by
      unfold TransponderReportDataStreamV1.reportGeoTags
      rw [hs.1 hall]
      rfl
    rw [hg] at h2
    have h2 : record.GeoTags = (geoTagEntries r).filterMap geoTagOfEntry := h2
    have hf := forall₂_filterMap_of_isSome geoTagOfEntry (geoTagEntries r) hall
    rw [h2]
    refine ⟨hf.length_eq.symm, hf.imp ?_⟩
    intro e g heg
    unfold geoTagOfEntry at heg
    cases hid : (e.2.2.Path (str "geoTagId")) with
    | num tagId =>
      cases hts : (e.2.2.Path (str "timestamp")) with
      | num time =>
        rw [hid, hts] at heg
        simp only [Json.asFloat64, Option.some.injEq] at heg
        subst heg
        exact ⟨rfl, rfl, rfl, time, rfl, rfl⟩
      | _ => rw [hid, hts] at heg; cases heg
    | _ => rw [hid] at heg; cases heg
  · have hg : r.reportGeoTags = none := by
      unfold TransponderReportDataStreamV1.reportGeoTags
      exact hs.2 hbad
    rw [hg] at h2
    have h2 : record.GeoTags = [] := h2
    rw [h4, h2]
    exact ⟨rfl, rfl⟩

/-- Claim C40 on a status report with one geo tag `depot` of the source `account`: the record
has one geo tag, with that source and name. -/
theorem geoTags_all_or_nothing_witness :
    ∃ record,
      TransponderReportDataStreamV1.firestoreRecord
        ⟨str "REPORT_DATA", str "status", [], [],
          .obj [(str "data", .obj [(str "location", .obj [(str "geoTags",
            .obj [(str "account", .obj [(str "depot",
              .obj [(str "geoTagId", .num (Float64.ofNat 7)),
                (str "timestamp", .num (Float64.ofNat 1000))])])])])])]⟩ = .ok record ∧
      record.GeoTags.length = 1 :=
  (geoTags_all_or_nothing
    ⟨str "REPORT_DATA", str "status", [], [],
      .obj [(str "data", .obj [(str "location", .obj [(str "geoTags",
        .obj [(str "account", .obj [(str "depot",
          .obj [(str "geoTagId", .num (Float64.ofNat 7)),
            (str "timestamp", .num (Float64.ofNat 1000))])])])])])]⟩
    (by decide)).elim
    fun record h => ⟨record, h.1,
      (h.2.1 (fun e he => by
        have hl : e = (str "account", str "depot",
            Json.obj [(str "geoTagId", .num (Float64.ofNat 7)),
              (str "timestamp", .num (Float64.ofNat 1000))]) := List.mem_singleton.1 he
        rw [hl]
        rfl)).1⟩
end Firestream
